import Mathlib

/-!
# llm-mcp-rag-simple-go: a shallow embedding

The Go program is an agent that combines retrieval-augmented prompting
(`vectorstore`, `embedding`), a streaming chat client (`chat/openai.go`) and
tool routing over MCP providers (`agent/agent.go`).

Conventions of the embedding:

* Go `error` values are their message strings; `fmt.Errorf` with `%w`/`%v` is
  string concatenation.
* Mutable receivers become explicit state passing: a method returns its result
  together with the receiver's new state.
* Collaborators outside the repository (the chat transport, the embedding HTTP
  endpoint, `json.Unmarshal`, `sort.Slice`, float64 arithmetic) are parameters.
* Logging, printing, `time.Sleep`, contexts and mutexes have no counterpart.
* `Search` takes `sort.Slice` as a parameter, so that what it proves holds for
  every sorter that keeps the contract of package sort. The implementation of
  package sort itself (pattern-defeating quicksort with insertion sort up to 12
  elements, Go 1.19 and later) is `sort.Slice` below; on it depends what
  `Search` does with records that tie.
* A chat stream is modelled twice: `ChatStream` holds tool-call fragments with
  their index read, and the agent is modelled over it; `WireStream` holds them
  as they arrive, with an index that may be missing, and `OpenaiClient.ChatRun`
  over it can end in a panic. `ChatRun_onWire` relates the two.
-/

namespace LlmMcpRag

/-! ## types/types.go -/

/-- Go `types.ToolCall`; the anonymous `Function` struct is flattened. -/
structure ToolCall where
  ID : String
  Name : String
  Arguments : String
deriving DecidableEq, Repr

/-- Go `types.Tool`; the schema map is kept as its JSON text. -/
structure Tool where
  Name : String
  Description : String
  InputSchema : String
deriving DecidableEq, Repr

/-- Go `types.ChatResponse`. -/
structure ChatResponse where
  Content : String
  ToolCalls : List ToolCall
deriving DecidableEq, Repr

/-- One element of `MCPToolResult.Content` (field `Type` is spelled `Type_`). -/
structure ContentItem where
  Type_ : String
  Text : String
deriving DecidableEq, Repr

/-- Go `types.MCPToolResult`. -/
structure MCPToolResult where
  Content : List ContentItem
  IsError : Bool
deriving DecidableEq, Repr

/-! ## chat/openai.go -/

/-- The `openai.ChatCompletionMessage` fields the client uses. -/
structure ChatCompletionMessage where
  Role : String
  Content : String
  ToolCalls : List ToolCall
  ToolCallID : String
deriving DecidableEq, Repr

/-- Constant `openai.ChatMessageRoleSystem`. -/
def ChatMessageRoleSystem : String := "system"

/-- Constant `openai.ChatMessageRoleUser`. -/
def ChatMessageRoleUser : String := "user"

/-- Constant `openai.ChatMessageRoleAssistant`. -/
def ChatMessageRoleAssistant : String := "assistant"

/-- Constant `openai.ChatMessageRoleTool`. -/
def ChatMessageRoleTool : String := "tool"

/-- A tool-call fragment inside a stream delta with its index read: the
`openai.ToolCall` after `index := *toolCallDelta.Index` (openai.go 107) went
through. The fragment as it arrives, whose `Index` pointer may be nil, is
`StreamToolCall`, and the dereference is `StreamToolCall.deref`. -/
structure ToolCallDelta where
  Index : Int
  ID : String
  Name : String
  Arguments : String
deriving DecidableEq, Repr

/-- Go `openai.ChatCompletionStreamChoiceDelta`: text and tool-call fragments. -/
structure StreamDelta where
  Content : String
  ToolCalls : List ToolCallDelta
deriving DecidableEq, Repr

/-- One value returned by `stream.Recv()` with a nil error; `Choices` lists the
delta of each choice. -/
structure ChatCompletionStreamResponse where
  Choices : List StreamDelta
deriving DecidableEq, Repr

/-- What an opened stream delivers: the responses `Recv` returns with a nil
error, then the first non-nil error, which is `io.EOF` (`failure = none`) or a
transport error (`failure = some e`). `Chat` never calls `Recv` again after
that error. -/
structure ChatStream where
  chunks : List ChatCompletionStreamResponse
  failure : Option String
deriving DecidableEq, Repr

/-- The `openai.ChatCompletionRequest` fields `Chat` fills in. -/
structure ChatCompletionRequest where
  Messages : List ChatCompletionMessage
  Tools : List Tool
deriving DecidableEq, Repr

/-- The remote chat endpoint, `client.CreateChatCompletionStream`: the answer to
the `n`-th request of the client's life (counted from 0) carrying `req`. -/
abbrev ChatTransport := Nat → ChatCompletionRequest → Except String ChatStream

/-- Go `OpenaiClient`. `sent` is a ghost field: the requests handed to the
transport so far, oldest first. -/
structure OpenaiClient where
  messages : List ChatCompletionMessage
  tools : List Tool
  sent : List ChatCompletionRequest
deriving DecidableEq, Repr

/-- Lookup in `toolCallsMap` (a Go `map[int]*types.ToolCall`). -/
def mapGet : List (Int × ToolCall) → Int → Option ToolCall
  | [], _ => none
  | (j, tc) :: rest, i => if j = i then some tc else mapGet rest i

/-- Store into `toolCallsMap`: overwrite the slot when present, else add it. -/
def mapSet : List (Int × ToolCall) → Int → ToolCall → List (Int × ToolCall)
  | [], i, tc => [(i, tc)]
  | (j, old) :: rest, i, tc =>
    if j = i then (j, tc) :: rest else (j, old) :: mapSet rest i tc

/-- Body of the inner loop of `Chat` (openai.go 106-132) for one fragment:
create the slot when missing, then append the non-empty fields. -/
def accumulateToolCall (m : List (Int × ToolCall)) (d : ToolCallDelta) :
    List (Int × ToolCall) :=
  let currentCall := (mapGet m d.Index).getD { ID := "", Name := "", Arguments := "" }
  let c1 := if d.ID ≠ "" then { currentCall with ID := currentCall.ID ++ d.ID } else currentCall
  let c2 := if d.Name ≠ "" then { c1 with Name := c1.Name ++ d.Name } else c1
  let c3 := if d.Arguments ≠ "" then { c2 with Arguments := c2.Arguments ++ d.Arguments } else c2
  mapSet m d.Index c3

/-- Local variables of the receive loop of `Chat`: the `content` builder and
`toolCallsMap`. -/
structure RecvState where
  content : String
  toolCallsMap : List (Int × ToolCall)
deriving DecidableEq, Repr

/-- One iteration of the receive loop on a response received without error
(openai.go 93-133). -/
def recvStep (st : RecvState) (response : ChatCompletionStreamResponse) : RecvState :=
  match response.Choices with
  | [] => st
  | delta :: _ =>
    { content := if delta.Content ≠ "" then st.content ++ delta.Content else st.content
      toolCallsMap := delta.ToolCalls.foldl accumulateToolCall st.toolCallsMap }

/-- The receive loop over all responses that precede the terminating error. -/
def recvLoop (chunks : List ChatCompletionStreamResponse) : RecvState :=
  chunks.foldl recvStep { content := "", toolCallsMap := [] }

/-- Go `OpenaiClient.Chat` on a stream whose fragments carry their index (on
any stream: `OpenaiClient.ChatRun`, which agrees with it there). The slice
`toolCalls` is declared (line 78) and never assigned, so the message appended
to the history and the returned response carry it empty; `toolCallsMap` is
filled by the loop and not read afterwards. -/
def OpenaiClient.Chat (transport : ChatTransport) (c : OpenaiClient) (prompt : String) :
    Except String ChatResponse × OpenaiClient :=
  let messages :=
    if prompt ≠ "" then
      c.messages ++ [{ Role := ChatMessageRoleUser, Content := prompt, ToolCalls := [], ToolCallID := "" }]
    else c.messages
  let req : ChatCompletionRequest := { Messages := messages, Tools := c.tools }
  let c1 : OpenaiClient := { messages := messages, tools := c.tools, sent := c.sent ++ [req] }
  match transport c.sent.length req with
  | .error err => (.error ("创建流式响应失败: " ++ err), c1)
  | .ok stream =>
    match stream.failure with
    | some err => (.error ("接收流式响应失败: " ++ err), c1)
    | none =>
      let st := recvLoop stream.chunks
      let toolCalls : List ToolCall := []
      let assistantMsg : ChatCompletionMessage :=
        { Role := ChatMessageRoleAssistant, Content := st.content, ToolCalls := toolCalls, ToolCallID := "" }
      (.ok { Content := st.content, ToolCalls := toolCalls },
        { c1 with messages := c1.messages ++ [assistantMsg] })

/-- Go `OpenaiClient.AppendToolResult`. -/
def OpenaiClient.AppendToolResult (c : OpenaiClient) (toolCallID toolOutput : String) :
    OpenaiClient :=
  { c with messages := c.messages ++
      [{ Role := ChatMessageRoleTool, Content := toolOutput, ToolCalls := [], ToolCallID := toolCallID }] }

/-- The stream of the split-arguments scenario: two deltas address slot 0, the
first also carries the id and the name, then end-of-stream. -/
def splitArgumentsStream : ChatStream :=
  { chunks :=
      [ { Choices := [{ Content := "", ToolCalls :=
            [{ Index := 0, ID := "call_1", Name := "calc.add", Arguments := "\x7b\"a\":1" }] }] },
        { Choices := [{ Content := "", ToolCalls :=
            [{ Index := 0, ID := "", Name := "", Arguments := ",\"b\":2\x7d" }] }] } ]
    failure := none }

/-- A fresh client as `main` builds it: no messages, no tools. -/
def freshClient : OpenaiClient := { messages := [], tools := [], sent := [] }

/-- Go `OpenaiClient.SetSystemPrompt`: drop the first system message, then put
the new prompt (when not empty) in front. -/
def OpenaiClient.SetSystemPrompt (c : OpenaiClient) (prompt : String) : OpenaiClient :=
  let rest := c.messages.eraseP (fun msg => msg.Role == ChatMessageRoleSystem)
  if prompt ≠ "" then
    { c with messages :=
        { Role := ChatMessageRoleSystem, Content := prompt, ToolCalls := [], ToolCallID := "" } :: rest }
  else { c with messages := rest }

/-- Go `OpenaiClient.SetContext`. -/
def OpenaiClient.SetContext (c : OpenaiClient) (context : String) : OpenaiClient :=
  if context ≠ "" then
    { c with messages := c.messages ++
        [{ Role := ChatMessageRoleUser, Content := context, ToolCalls := [], ToolCallID := "" }] }
  else c

/-- Go `types.ChatMessage`. -/
structure ChatMessage where
  Role : String
  Content : String
  ToolCalls : List ToolCall
  ToolCallID : String
deriving DecidableEq, Repr

/-- Go `OpenaiClient.GetMessageHistory`: role and content of every message. -/
def OpenaiClient.GetMessageHistory (c : OpenaiClient) : List ChatMessage :=
  c.messages.map fun msg =>
    { Role := msg.Role, Content := msg.Content, ToolCalls := [], ToolCallID := "" }

/-- Go `OpenaiClient.ClearHistory`: keep the system messages only. -/
def OpenaiClient.ClearHistory (c : OpenaiClient) : OpenaiClient :=
  { c with messages := c.messages.filter (fun msg => msg.Role == ChatMessageRoleSystem) }

/-! ## vectorstore/vectorstore.go -/

/-- The float64 operations the vector store uses, left uninterpreted: a
statement about the store holds for every interpretation, and one that needs a
property of an operation names it as a hypothesis. -/
structure Float64Ops (F : Type) where
  zero : F
  add : F → F → F
  mul : F → F → F
  div : F → F → F
  sqrt : F → F
  eqZero : F → Bool
  gt : F → F → Bool

/-- Go `types.VectorStoreItem`; the metadata map is a list of key/value texts. -/
structure VectorStoreItem (F : Type) where
  Embedding : List F
  Document : String
  Metadata : List (String × String)

/-- Go `InMemoryVectorStore`. -/
structure InMemoryVectorStore (F : Type) where
  items : List (VectorStoreItem F)

/-- Go `NewInMemoryVectorStore`. -/
def NewInMemoryVectorStore (F : Type) : InMemoryVectorStore F := { items := [] }

/-- Go `InMemoryVectorStore.AddEmbedding`: the returned `error` (`none` is nil)
and the store afterwards. -/
def InMemoryVectorStore.AddEmbedding {F : Type} (vs : InMemoryVectorStore F)
    (embedding : List F) (document : String) (metadata : List (String × String)) :
    Option String × InMemoryVectorStore F :=
  if embedding.length = 0 then (some "embedding 不能为空", vs)
  else if document = "" then (some "document 不能为空", vs)
  else
    (none, { items := vs.items ++ [{ Embedding := embedding, Document := document, Metadata := metadata }] })

/-- Go `InMemoryVectorStore.Size`. -/
def InMemoryVectorStore.Size {F : Type} (vs : InMemoryVectorStore F) : Nat :=
  vs.items.length

/-- The three accumulators of the loop of `cosineSimilarity`:
`dotProduct`, `normA`, `normB`. -/
def cosineSums {F : Type} (ops : Float64Ops F) : List F → List F → F × F × F → F × F × F
  | a :: as, b :: bs, (dotProduct, normA, normB) =>
    cosineSums ops as bs
      (ops.add dotProduct (ops.mul a b), ops.add normA (ops.mul a a), ops.add normB (ops.mul b b))
  | _, _, acc => acc

/-- Go `cosineSimilarity`. -/
def cosineSimilarity {F : Type} (ops : Float64Ops F) (vecA VecB : List F) : Except String F :=
  if vecA.length ≠ VecB.length then .error "向量必须具有相同维度"
  else if VecB.length = 0 then .error "向量不存在"
  else
    let sums := cosineSums ops vecA VecB (ops.zero, ops.zero, ops.zero)
    let normA := ops.sqrt sums.2.1
    let normB := ops.sqrt sums.2.2
    if ops.eqZero normA || ops.eqZero normB then .ok ops.zero
    else .ok (ops.div sums.1 (ops.mul normA normB))

/-- The local type `scoredItem` of `Search`. -/
structure scoredItem (F : Type) where
  document : String
  score : F

/-- Go `sort.Slice` on a slice of `scoredItem`, given `less` on elements. -/
abbrev SortSlice (F : Type) :=
  (scoredItem F → scoredItem F → Bool) → List (scoredItem F) → List (scoredItem F)

/-- The scoring loop of `Search` (vectorstore.go 68-80): records whose
similarity cannot be computed are skipped. -/
def scoreItems {F : Type} (ops : Float64Ops F) (queryEmbedding : List F) :
    List (VectorStoreItem F) → List (scoredItem F)
  | [] => []
  | item :: rest =>
    match cosineSimilarity ops queryEmbedding item.Embedding with
    | .error _ => scoreItems ops queryEmbedding rest
    | .ok similarity =>
      { document := item.Document, score := similarity } :: scoreItems ops queryEmbedding rest

/-- Go `InMemoryVectorStore.Search`. -/
def InMemoryVectorStore.Search {F : Type} (ops : Float64Ops F) (sortSlice : SortSlice F)
    (vs : InMemoryVectorStore F) (queryEmbedding : List F) (limit : Int) :
    Except String (List String) :=
  if queryEmbedding.length = 0 then .error "query embedding 不存在"
  else if limit ≤ 0 then .error "limit 必须为正数"
  else if vs.items.length = 0 then .ok []
  else
    let scored := sortSlice (fun x y => ops.gt x.score y.score) (scoreItems ops queryEmbedding vs.items)
    let limit := if limit > (scored.length : Int) then (scored.length : Int) else limit
    .ok ((scored.take limit.toNat).map (fun x => x.document))

/-! ## embedding/embedding.go -/

/-- The embedding HTTP endpoint as `embed` sees it: for the `n`-th request of
the retriever's life (counted from 0) with input `text`, either the error
`embed` returns for a failed round trip (send, status or decode failure), or
the `Data` of the decoded response, one vector per entry. -/
abbrev EmbeddingAPI (F : Type) := Nat → String → Except String (List (List F))

/-- Go `Retriever`. `requests` is a ghost field: the inputs posted to the
endpoint so far, oldest first. -/
structure Retriever (F : Type) where
  vectorStore : InMemoryVectorStore F
  requests : List String

/-- Go `Retriever.embed`. -/
def Retriever.embed {F : Type} (api : EmbeddingAPI F) (r : Retriever F) (text : String) :
    Except String (List F) × Retriever F :=
  if text = "" then (.error "文本不存在", r)
  else
    let r1 : Retriever F := { r with requests := r.requests ++ [text] }
    match api r.requests.length text with
    | .error err => (.error err, r1)
    | .ok [] => (.error "没有 embedding 数据", r1)
    | .ok (embedding :: _) =>
      if embedding.length = 0 then (.error "embedding为空", r1) else (.ok embedding, r1)

/-- Go `Retriever.EmbedDocument`. -/
def Retriever.EmbedDocument {F : Type} (api : EmbeddingAPI F) (r : Retriever F)
    (document : String) : Except String (List F) × Retriever F :=
  match Retriever.embed api r document with
  | (.error err, r1) => (.error ("文本向量化失败" ++ err), r1)
  | (.ok embedding, r1) =>
    match r1.vectorStore.AddEmbedding embedding document [] with
    | (some err, vs) => (.error ("存储向量失败" ++ err), { r1 with vectorStore := vs })
    | (none, vs) => (.ok embedding, { r1 with vectorStore := vs })

/-- Go `Retriever.EmbedQuery`. -/
def Retriever.EmbedQuery {F : Type} (api : EmbeddingAPI F) (r : Retriever F) (query : String) :
    Except String (List F) × Retriever F :=
  match Retriever.embed api r query with
  | (.error err, r1) => (.error ("查询请求向量化失败" ++ err), r1)
  | (.ok embedding, r1) => (.ok embedding, r1)

/-- Go `Retriever.Retrieve`. -/
def Retriever.Retrieve {F : Type} (ops : Float64Ops F) (sortSlice : SortSlice F)
    (api : EmbeddingAPI F) (r : Retriever F) (query : String) (limit : Int) :
    Except String (List String) × Retriever F :=
  match Retriever.EmbedQuery api r query with
  | (.error err, r1) => (.error ("查询请求向量化失败：" ++ err), r1)
  | (.ok queryEmbedding, r1) =>
    match r1.vectorStore.Search ops sortSlice queryEmbedding limit with
    | .error err => (.error ("查询向量失败:" ++ err), r1)
    | .ok result => (.ok result, r1)

/-- Go `Retriever.GetVectorStoreSize`. -/
def Retriever.GetVectorStoreSize {F : Type} (r : Retriever F) : Nat :=
  r.vectorStore.Size

/-! ## agent/agent.go: collaborators and state -/

/-- A decoded argument object (`map[string]interface{}`), values kept as text. -/
abbrev Arguments := List (String × String)

/-- Go interface `types.MCPClient` for one provider: the errors `Init` and
`Close` return (`none` is nil), the tool list, and `CallTool`, whose result
pointer may be nil. -/
structure MCPClient where
  Init : Option String
  Close : Option String
  GetTools : List Tool
  CallTool : String → Arguments → Except String (Option MCPToolResult)

/-- Go interface `types.ChatClient` as operations on a client state `σ`. -/
structure ChatClient (σ : Type) where
  Chat : σ → String → Except String ChatResponse × σ
  AppendToolResult : σ → String → String → σ
  SetSystemPrompt : σ → String → σ
  SetContext : σ → String → σ
  GetMessageHistory : σ → List ChatMessage
  ClearHistory : σ → σ

/-- The `types.ChatClient` that `OpenaiClient` implements over a transport. -/
def openaiChatClient (transport : ChatTransport) : ChatClient OpenaiClient :=
  { Chat := OpenaiClient.Chat transport
    AppendToolResult := OpenaiClient.AppendToolResult
    SetSystemPrompt := OpenaiClient.SetSystemPrompt
    SetContext := OpenaiClient.SetContext
    GetMessageHistory := OpenaiClient.GetMessageHistory
    ClearHistory := OpenaiClient.ClearHistory }

/-- Calls the agent makes on its collaborators, in the order it makes them. -/
inductive Event where
  | chat (prompt : String)
  | executeToolCall (toolCall : ToolCall)
  | callTool (clientName toolName : String) (arguments : Arguments)
  | appendToolResult (toolCallID toolOutput : String)
  | embedDocument (index : Nat) (document : String) (failed : Bool)
deriving DecidableEq, Repr

/-- Go `Agent`. The field `vectorStore` is `embeddingClient.vectorStore`: `main`
hands the same store to the retriever and to the agent. `trace` is a ghost
field: the collaborator calls made so far, oldest first. -/
structure Agent (σ F : Type) where
  name : String
  chatClient : σ
  embeddingClient : Retriever F
  mcpClients : List (String × MCPClient)
  systemPrompt : String
  context : String
  maxRetries : Int
  timeout : Int
  trace : List Event

/-- Append one event to the ghost trace. -/
def Agent.record {σ F : Type} (a : Agent σ F) (e : Event) : Agent σ F :=
  { a with trace := a.trace ++ [e] }

/-- Go `AgentConfig`; `Timeout` is in nanoseconds. -/
structure AgentConfig where
  Name : String
  SystemPrompt : String
  Context : String
  MaxRetries : Int
  Timeout : Int

/-- What the agent's methods reach outside the agent: the chat client's
methods, float64 arithmetic and `sort.Slice` (for the store), the embedding
endpoint, and `json.Unmarshal` into an argument map. -/
structure Collaborators (σ F : Type) where
  chat : ChatClient σ
  ops : Float64Ops F
  sortSlice : SortSlice F
  embedAPI : EmbeddingAPI F
  Unmarshal : String → Except String Arguments

/-- Go `NewAgent`. -/
def NewAgent {σ F : Type} (cc : ChatClient σ) (config : AgentConfig) (chatClient : σ)
    (embeddingClient : Retriever F) : Agent σ F :=
  let maxRetries := if config.MaxRetries ≤ 0 then 3 else config.MaxRetries
  let timeout := if config.Timeout ≤ 0 then 30 * 1000000000 else config.Timeout
  let name := if config.Name = "" then "LLM-MCP-RAG Agent" else config.Name
  let c1 := if config.SystemPrompt ≠ "" then cc.SetSystemPrompt chatClient config.SystemPrompt
    else chatClient
  let c2 := if config.Context ≠ "" then cc.SetContext c1 config.Context else c1
  { name := name, chatClient := c2, embeddingClient := embeddingClient, mcpClients := [],
    systemPrompt := config.SystemPrompt, context := config.Context, maxRetries := maxRetries,
    timeout := timeout, trace := [] }

/-- Lookup `a.mcpClients[name]`. -/
def Agent.client? {σ F : Type} (a : Agent σ F) (name : String) : Option MCPClient :=
  a.mcpClients.lookup name

/-- Go `Agent.AddMCPClient`; the map is kept as a list in registration order. -/
def Agent.AddMCPClient {σ F : Type} (a : Agent σ F) (name : String) (client : MCPClient) :
    Option String × Agent σ F :=
  match a.client? name with
  | some _ => (some ("该mcp Client：【" ++ name ++ "】 已存在\n"), a)
  | none =>
    match client.Init with
    | some err => (some ("初始化mcp client 【" ++ name ++ "】失败：" ++ err ++ " \n"), a)
    | none => (none, { a with mcpClients := a.mcpClients ++ [(name, client)] })

/-- Go `Agent.RemoveMCPClient`; a failing `Close` is only logged. -/
def Agent.RemoveMCPClient {σ F : Type} (a : Agent σ F) (name : String) :
    Option String × Agent σ F :=
  match a.client? name with
  | none => (some ("mcp client【" ++ name ++ "】不存在\n"), a)
  | some _ => (none, { a with mcpClients := a.mcpClients.filter (fun e => e.1 != name) })

/-- Go `fmt.Sprintf("%S", s)` for a string `s`: package fmt has no verb `S`
and prints the bad-verb form `%!S(string=s)`. -/
def sprintfBadVerbS (s : String) : String :=
  "%!S(string=" ++ s ++ ")"

/-- Go `fmt.Sprintf("%S.%S", clientName, toolName)` (agent.go 297). -/
def qualifiedName (clientName toolName : String) : String :=
  sprintfBadVerbS clientName ++ "." ++ sprintfBadVerbS toolName

/-- Go `Agent.getAllTools`, iterating the providers in registration order. -/
def Agent.getAllTools {σ F : Type} (a : Agent σ F) : List Tool :=
  (a.mcpClients.map fun entry =>
    entry.2.GetTools.map fun tool => { tool with Name := qualifiedName entry.1 tool.Name }).flatten

/-- Cut a character list at its first `.`. -/
def cutAtDot : List Char → Option (List Char × List Char)
  | [] => none
  | c :: cs =>
    if c = '.' then some ([], cs)
    else match cutAtDot cs with
      | none => none
      | some (before, after) => some (c :: before, after)

/-- Go `strings.SplitN(s, ".", 2)`. -/
def SplitN2 (s : String) : List String :=
  match cutAtDot s.toList with
  | none => [s]
  | some (before, after) => [String.mk before, String.mk after]

/-! ## agent/agent.go: the tool loop -/

/-- Go `Agent.executeToolCall`. -/
def Agent.executeToolCall {σ F : Type} (unmarshal : String → Except String Arguments)
    (a : Agent σ F) (toolCall : ToolCall) : Except String (Option MCPToolResult) × Agent σ F :=
  let a0 := a.record (.executeToolCall toolCall)
  match SplitN2 toolCall.Name with
  | [clientName, toolName] =>
    match a.client? clientName with
    | none => (.error ("mcp client不存在：" ++ clientName), a0)
    | some client =>
      match unmarshal toolCall.Arguments with
      | .error err => (.error ("解析工具参数失败：" ++ err), a0)
      | .ok arguments =>
        let a1 := a0.record (.callTool clientName toolName arguments)
        match client.CallTool toolName arguments with
        | .error err => (.error ("执行工具" ++ toolCall.Name ++ "失败：" ++ err), a1)
        | .ok result => (.ok result, a1)
  | _ => (.error ("工具名称格式错误：" ++ toolCall.Name), a0)

/-- The result built at agent.go 318-328 when `executeToolCall` fails: one text
item with the failure message; the literal names no `IsError`, which is
therefore the zero value `false`. -/
def failureResult (err : String) : MCPToolResult :=
  { Content := [{ Type_ := "text", Text := "调用工具失败：" ++ err }], IsError := false }

/-- The variable `result` after agent.go 314-329. -/
def feedbackResult : Except String (Option MCPToolResult) → Option MCPToolResult
  | .error err => some (failureResult err)
  | .ok result => result

/-- The variable `resultText` of agent.go 332-337. -/
def resultText : Option MCPToolResult → String
  | some result =>
    match result.Content with
    | item :: _ => item.Text
    | [] => "没有结果"
  | none => "没有结果"

/-- One iteration of the loop over `response.ToolCalls` (agent.go 313-339). -/
def Agent.toolCallStep {σ F : Type} (cc : ChatClient σ)
    (unmarshal : String → Except String Arguments) (a : Agent σ F) (toolCall : ToolCall) :
    Agent σ F :=
  match a.executeToolCall unmarshal toolCall with
  | (res, a1) =>
    let text := resultText (feedbackResult res)
    { a1 with
      chatClient := cc.AppendToolResult a1.chatClient toolCall.ID text
      trace := a1.trace ++ [.appendToolResult toolCall.ID text] }

/-- Go `Agent.processQueryWithTools`. The parameter `tools` is not used by the
body, as in the source. -/
def Agent.processQueryWithTools {σ F : Type} (cc : ChatClient σ)
    (unmarshal : String → Except String Arguments) (a : Agent σ F) (query : String)
    (_tools : List Tool) : Except String ChatResponse × Agent σ F :=
  match cc.Chat a.chatClient query with
  | (.error err, s1) =>
    (.error ("获取对话响应失败：" ++ err), { a with chatClient := s1, trace := a.trace ++ [.chat query] })
  | (.ok response, s1) =>
    let a1 : Agent σ F := { a with chatClient := s1, trace := a.trace ++ [.chat query] }
    if response.ToolCalls.length > 0 then
      let a2 := response.ToolCalls.foldl (Agent.toolCallStep cc unmarshal) a1
      match cc.Chat a2.chatClient "" with
      | (.error err, s3) =>
        (.error ("获取工具调用最终回复失败：" ++ err),
          { a2 with chatClient := s3, trace := a2.trace ++ [.chat ""] })
      | (.ok finalResponse, s3) =>
        (.ok finalResponse, { a2 with chatClient := s3, trace := a2.trace ++ [.chat ""] })
    else (.ok response, a1)

/-! ## agent/agent.go: Query -/

/-- Go `unicode.IsSpace`. -/
def isSpace (c : Char) : Bool :=
  let n := c.toNat
  (9 ≤ n && n ≤ 13) || n == 32 || n == 0x85 || n == 0xA0 || n == 0x1680
    || (0x2000 ≤ n && n ≤ 0x200a) || n == 0x2028 || n == 0x2029 || n == 0x202f
    || n == 0x205f || n == 0x3000

/-- Go `strings.TrimSpace`. -/
def TrimSpace (s : String) : String :=
  String.mk ((s.toList.dropWhile isSpace).reverse.dropWhile isSpace).reverse

/-- Go `Agent.retrieveRelevantDocuments`. -/
def Agent.retrieveRelevantDocuments {σ F : Type} (env : Collaborators σ F) (a : Agent σ F)
    (query : String) : Except String (List String) × Agent σ F :=
  if a.embeddingClient.vectorStore.Size = 0 then (.error "知识库中没有文档", a)
  else
    match Retriever.Retrieve env.ops env.sortSlice env.embedAPI a.embeddingClient query 5 with
    | (.error err, r1) => (.error ("未能检索到相似的文档：" ++ err), { a with embeddingClient := r1 })
    | (.ok docs, r1) =>
      if docs.length = 0 then (.error "没有找到相关文档", { a with embeddingClient := r1 })
      else (.ok docs, { a with embeddingClient := r1 })

/-- The loop of `buildEnhancedQuery` writing `文档i: doc` for the documents from
number `i` on into the builder. -/
def writeDocs : Nat → List String → String → String
  | _, [], builder => builder
  | i, doc :: rest, builder =>
    writeDocs (i + 1) rest (builder ++ ("文档" ++ toString (i + 1) ++ ": " ++ doc ++ "\n\n"))

/-- Go `Agent.buildEnhancedQuery`. -/
def buildEnhancedQuery (query : String) (relevantDocs : List String) : String :=
  if relevantDocs.length = 0 then query
  else writeDocs 0 relevantDocs "根据以下相关信息:\n\n" ++ ("请回答以下问题：" ++ query)

/-- The retry loop of `Query` (agent.go 187-197) with `n` iterations left;
`response` and `lastErr` are the loop's two variables. -/
def Agent.retryLoop {σ F : Type} (env : Collaborators σ F) (enhancedQuery : String)
    (tools : List Tool) :
    Nat → Agent σ F → Option ChatResponse → Option String →
      (Option ChatResponse × Option String) × Agent σ F
  | 0, a, response, lastErr => ((response, lastErr), a)
  | n + 1, a, _, _ =>
    match a.processQueryWithTools env.chat env.Unmarshal enhancedQuery tools with
    | (.ok response, a1) => ((some response, none), a1)
    | (.error err, a1) => Agent.retryLoop env enhancedQuery tools n a1 none (some err)

/-- Go `Agent.Query`: the returned pair `(*ChatResponse, error)` and the agent
afterwards. -/
def Agent.Query {σ F : Type} (env : Collaborators σ F) (a : Agent σ F) (query : String) :
    (Option ChatResponse × Option String) × Agent σ F :=
  if TrimSpace query = "" then ((none, some "查询内容不能为空"), a)
  else
    let retrieved := a.retrieveRelevantDocuments env query
    let relevantDocs := match retrieved.1 with
      | .error _ => []
      | .ok docs => docs
    let a0 := retrieved.2
    let enhancedQuery := buildEnhancedQuery query relevantDocs
    let tools := a0.getAllTools
    match Agent.retryLoop env enhancedQuery tools a0.maxRetries.toNat a0 none none with
    | ((_, some lastErr), a1) =>
      ((none, some ("经过" ++ toString a0.maxRetries ++ "次尝试后查询失败:" ++ lastErr)), a1)
    | ((response, none), a1) => ((response, none), a1)

/-! ## agent/agent.go: AddKnowledge -/

/-- One goroutine of `AddKnowledge` (agent.go 134-144) together with the
receipt of its result (149-152): embed document `index`, and on failure add
one entry to `errors`. -/
def Agent.embedWorker {σ F : Type} (api : EmbeddingAPI F) (documents : List String)
    (st : Agent σ F × List String) (index : Nat) : Agent σ F × List String :=
  match documents[index]? with
  | none => st
  | some document =>
    match Retriever.EmbedDocument api st.1.embeddingClient document with
    | (.error err, r1) =>
      ({ st.1 with embeddingClient := r1
                   trace := st.1.trace ++ [.embedDocument index document true] },
        st.2 ++ ["文档" ++ toString index ++ "嵌入失败：" ++ err])
    | (.ok _, r1) =>
      ({ st.1 with embeddingClient := r1
                   trace := st.1.trace ++ [.embedDocument index document false] }, st.2)

/-- The concurrent part of `AddKnowledge`: the goroutines run `EmbedDocument`
one after another in the order `sched` (the store serialises them), which
yields the agent afterwards and the slice `errors`. -/
def Agent.embedAll {σ F : Type} (api : EmbeddingAPI F) (a : Agent σ F)
    (documents : List String) (sched : List Nat) : Agent σ F × List String :=
  sched.foldl (Agent.embedWorker api documents) (a, [])

/-- Go `Agent.AddKnowledge` under the schedule `sched`, a permutation of the
document indices. -/
def Agent.AddKnowledge {σ F : Type} (api : EmbeddingAPI F) (a : Agent σ F)
    (documents : List String) (sched : List Nat) : Option String × Agent σ F :=
  if documents.length = 0 then (some "没有要添加的文档", a)
  else
    let run := a.embedAll api documents sched
    if run.2.length > 0 then (some ("添加文档失败：" ++ ";".intercalate run.2), run.1)
    else (none, run.1)

/-! ## Reading the ghost trace -/

/-- The tool calls handed to `executeToolCall`, in order. -/
def executedCalls : List Event → List ToolCall
  | [] => []
  | .executeToolCall toolCall :: rest => toolCall :: executedCalls rest
  | _ :: rest => executedCalls rest

/-- The prompts passed to `chatClient.Chat`, in order. -/
def chatPrompts : List Event → List String
  | [] => []
  | .chat prompt :: rest => prompt :: chatPrompts rest
  | _ :: rest => chatPrompts rest

/-- The `(toolCallID, toolOutput)` pairs passed to `AppendToolResult`, in order. -/
def appendedResults : List Event → List (String × String)
  | [] => []
  | .appendToolResult toolCallID toolOutput :: rest => (toolCallID, toolOutput) :: appendedResults rest
  | _ :: rest => appendedResults rest

/-! ## Test doubles used by the concrete evaluations -/

/-- A chat client that answers from a script: each `Chat` consumes the next
scripted reply; the history is kept the way `OpenaiClient` keeps it. -/
structure ScriptedChat where
  replies : List (Except String ChatResponse)
  history : List ChatMessage

/-- The `types.ChatClient` methods of `ScriptedChat`. -/
def scriptedChatClient : ChatClient ScriptedChat :=
  { Chat := fun s prompt =>
      let history :=
        if prompt ≠ "" then
          s.history ++ [{ Role := "user", Content := prompt, ToolCalls := [], ToolCallID := "" }]
        else s.history
      match s.replies with
      | [] => (.error "script exhausted", { replies := [], history := history })
      | .error err :: rest => (.error err, { replies := rest, history := history })
      | .ok response :: rest =>
        (.ok response, { replies := rest, history := history ++
          [{ Role := "assistant", Content := response.Content, ToolCalls := response.ToolCalls,
             ToolCallID := "" }] })
    AppendToolResult := fun s toolCallID toolOutput =>
      { s with history := s.history ++
          [{ Role := "tool", Content := toolOutput, ToolCalls := [], ToolCallID := toolCallID }] }
    SetSystemPrompt := fun s prompt =>
      { s with history :=
          { Role := "system", Content := prompt, ToolCalls := [], ToolCallID := "" } :: s.history }
    SetContext := fun s context =>
      { s with history := s.history ++
          [{ Role := "user", Content := context, ToolCalls := [], ToolCallID := "" }] }
    GetMessageHistory := fun s => s.history
    ClearHistory := fun s => { s with history := [] } }

/-- A stand-in for `json.Unmarshal` in examples: it accepts exactly the empty
object and rejects every other text. -/
def exampleUnmarshal (text : String) : Except String Arguments :=
  if text = "\x7b\x7d" then .ok [] else .error "invalid character"

/-- A calculator provider with one tool `add` that answers `3`. -/
def calcClient : MCPClient :=
  { Init := none
    Close := none
    GetTools := [{ Name := "add", Description := "adds two numbers", InputSchema := "" }]
    CallTool := fun toolName _ =>
      if toolName = "add" then .ok (some { Content := [{ Type_ := "text", Text := "3" }], IsError := false })
      else .error "unknown tool" }

/-- An agent over the scripted chat client, with the empty store, the default
retry bound and the given providers and script. -/
def scriptedAgent (providers : List (String × MCPClient))
    (replies : List (Except String ChatResponse)) : Agent ScriptedChat Int :=
  { name := "LLM-MCP-RAG Agent", chatClient := { replies := replies, history := [] },
    embeddingClient := { vectorStore := { items := [] }, requests := [] },
    mcpClients := providers, systemPrompt := "", context := "", maxRetries := 3,
    timeout := 30 * 1000000000, trace := [] }

/-- A tool call naming the calculator's tool by `provider.tool`. -/
def addCall (id : String) : ToolCall :=
  { ID := id, Name := "calc.add", Arguments := "\x7b\x7d" }

/-- A script in which the model asks for a tool twice before it answers: the
first two replies carry one tool call each, the third is plain text. -/
def twoRoundScript : List (Except String ChatResponse) :=
  [ .ok { Content := "", ToolCalls := [addCall "call_1"] },
    .ok { Content := "", ToolCalls := [addCall "call_2"] },
    .ok { Content := "3", ToolCalls := [] } ]

/-- The provider registry of the running example: the calculator under the
name `calc`. -/
def calcProviders : List (String × MCPClient) := [("calc", calcClient)]

/-- The name under which `getAllTools` lists the calculator's tool. -/
def listedAddName : String := "%!S(string=calc).%!S(string=add)"

/-- A script whose first reply asks for a tool of the unregistered provider
`nosuch` and whose second reply is plain text. -/
def unknownProviderScript : List (Except String ChatResponse) :=
  [ .ok { Content := "", ToolCalls := [{ ID := "call_1", Name := "nosuch.tool", Arguments := "\x7b\x7d" }] },
    .ok { Content := "no such tool", ToolCalls := [] } ]

/-- An interpretation of the float64 operations over the integers, for
examples: integer arithmetic, with the integer square root. -/
def exampleOps : Float64Ops Int :=
  { zero := 0
    add := fun x y => x + y
    mul := fun x y => x * y
    div := fun x y => x / y
    sqrt := fun x => ((List.range (x.toNat + 1)).foldl (fun r i => if i * i ≤ x.toNat then i else r) 0 : Nat)
    eqZero := fun x => x == 0
    gt := fun x y => decide (x > y) }

/-- The inner loop of Go `insertionSortLessFunc`: `x` moves left through the
sorted part of the slice while `less x` holds of its left neighbour. The
sorted part is given last element first. -/
def insertLeft {α : Type} (less : α → α → Bool) (x : α) : List α → List α
  | [] => [x]
  | y :: rest => if less x y then y :: insertLeft less x rest else x :: y :: rest

/-- Go `insertionSortLessFunc`, the algorithm `sort.Slice` runs on slices of at
most 12 elements. -/
def insertionSortLessFunc {α : Type} (less : α → α → Bool) (data : List α) : List α :=
  (data.foldl (fun sorted x => insertLeft less x sorted) []).reverse

/-- The `sort.Slice` of the examples over integers: Go's insertion sort, which
is what `sort.Slice` runs on slices of at most 12 elements; the stores of these
examples hold at most three records. For longer slices see `sort.Slice`. -/
def exampleSort : SortSlice Int :=
  fun less items => insertionSortLessFunc less items

/-- An embedding endpoint for examples: every text embeds to `[1, 0]`, except
the text `bad`, for which the request fails. -/
def exampleAPI : EmbeddingAPI Int :=
  fun _ text => if text = "bad" then .error "api 请求错误" else .ok [[1, 0]]

/-- The collaborators of an agent that talks to `OpenaiClient` over the given
transport, with the example stand-ins for the rest. -/
def openaiCollaborators (transport : ChatTransport) : Collaborators OpenaiClient Int :=
  { chat := openaiChatClient transport
    ops := exampleOps
    sortSlice := exampleSort
    embedAPI := exampleAPI
    Unmarshal := exampleUnmarshal }

/-- The agent `main` builds, after the calculator was registered: a fresh
`OpenaiClient` created with no tools, an empty store, the default retry bound. -/
def mainAgent : Agent OpenaiClient Int :=
  { name := "LLM-MCP-RAG Agent", chatClient := freshClient,
    embeddingClient := { vectorStore := { items := [] }, requests := [] },
    mcpClients := calcProviders, systemPrompt := "", context := "", maxRetries := 3,
    timeout := 30 * 1000000000, trace := [] }

/-- A transport that answers every request with the text `hello` and
end-of-stream. -/
def helloTransport : ChatTransport :=
  fun _ _ => .ok { chunks := [{ Choices := [{ Content := "hello", ToolCalls := [] }] }], failure := none }

/-! ## Attempts of a Query, one after another -/

/-- The agent after the first `i` attempts with the same prompt and tools, each
started in the state the previous one left. -/
def Agent.afterAttempts {σ F : Type} (env : Collaborators σ F) (enhancedQuery : String)
    (tools : List Tool) (a : Agent σ F) : Nat → Agent σ F
  | 0 => a
  | i + 1 =>
    ((Agent.afterAttempts env enhancedQuery tools a i).processQueryWithTools
      env.chat env.Unmarshal enhancedQuery tools).2

/-- What attempt number `i + 1` returns. -/
def Agent.attemptResult {σ F : Type} (env : Collaborators σ F) (enhancedQuery : String)
    (tools : List Tool) (a : Agent σ F) (i : Nat) : Except String ChatResponse :=
  ((Agent.afterAttempts env enhancedQuery tools a i).processQueryWithTools
    env.chat env.Unmarshal enhancedQuery tools).1

/-- The prompt `Query` builds for its attempts (`enhancedQuery`, agent.go 179). -/
def Agent.enhancedQueryOf {σ F : Type} (env : Collaborators σ F) (a : Agent σ F)
    (query : String) : String :=
  buildEnhancedQuery query
    (match (a.retrieveRelevantDocuments env query).1 with
      | .error _ => []
      | .ok docs => docs)

/-- What attempt number `i + 1` of `Query` returns. -/
def Agent.queryAttempt {σ F : Type} (env : Collaborators σ F) (a : Agent σ F) (query : String)
    (i : Nat) : Except String ChatResponse :=
  Agent.attemptResult env (a.enhancedQueryOf env query)
    (a.retrieveRelevantDocuments env query).2.getAllTools
    (a.retrieveRelevantDocuments env query).2 i

/-- The agent after retrieval and the first `i` attempts of `Query`. -/
def Agent.queryAfterAttempts {σ F : Type} (env : Collaborators σ F) (a : Agent σ F)
    (query : String) (i : Nat) : Agent σ F :=
  Agent.afterAttempts env (a.enhancedQueryOf env query)
    (a.retrieveRelevantDocuments env query).2.getAllTools
    (a.retrieveRelevantDocuments env query).2 i

/-- A configuration that leaves every default to `NewAgent`. -/
def defaultConfig : AgentConfig :=
  { Name := "", SystemPrompt := "", Context := "", MaxRetries := 0, Timeout := 0 }

/-- A retriever over an empty store that has sent no request yet. -/
def emptyRetriever : Retriever Int :=
  { vectorStore := { items := [] }, requests := [] }

/-- Whether a chat round trip fails in the stream: the stream cannot be
created, or `Recv` ends it with a transport error instead of `io.EOF`. -/
def streamFails : Except String ChatStream → Bool
  | .error _ => true
  | .ok stream => stream.failure.isSome

/-- Number of assistant-role messages in a history. -/
def assistantCount (messages : List ChatCompletionMessage) : Nat :=
  messages.countP (fun msg => msg.Role == ChatMessageRoleAssistant)

/-- A transport whose first request cannot open a stream, whose second request
breaks in the middle of the stream, and which answers `hello` from then on. -/
def flakyTransport : ChatTransport :=
  fun n _ =>
    if n = 0 then .error "connection refused"
    else if n = 1 then
      .ok { chunks := [{ Choices := [{ Content := "hel", ToolCalls := [] }] }],
            failure := some "unexpected EOF" }
    else .ok { chunks := [{ Choices := [{ Content := "hello", ToolCalls := [] }] }], failure := none }

/-- The `EmbedDocument` calls recorded in a trace, in order: document index,
document text, and whether the call returned an error. -/
def embedEvents : List Event → List (Nat × String × Bool)
  | [] => []
  | .embedDocument index document failed :: rest => (index, document, failed) :: embedEvents rest
  | _ :: rest => embedEvents rest

/-- Three documents of which the second cannot be embedded by `exampleAPI`. -/
def exampleDocuments : List String := ["cats purr", "bad", "dogs bark"]

/-- A schedule of three goroutines: the last document first. -/
def exampleSchedule : List Nat := [2, 0, 1]

/-! ## Reading the result of Search -/

/-- A stored record has the dimension of the query vector. -/
def matchesDimension {F : Type} (queryEmbedding : List F) (item : VectorStoreItem F) : Bool :=
  decide (item.Embedding.length = queryEmbedding.length)

/-- The cosine similarity of a record whose dimension matches the query; for
other records, where `cosineSimilarity` has no value, `zero`. -/
def similarityOf {F : Type} (ops : Float64Ops F) (queryEmbedding : List F)
    (item : VectorStoreItem F) : F :=
  match cosineSimilarity ops queryEmbedding item.Embedding with
  | .ok similarity => similarity
  | .error _ => ops.zero

/-- A record's text paired with its similarity to the query. -/
def scoredOf {F : Type} (ops : Float64Ops F) (queryEmbedding : List F)
    (item : VectorStoreItem F) : scoredItem F :=
  { document := item.Document, score := similarityOf ops queryEmbedding item }

/-- What `sort.Slice` does to a slice in any case: it rearranges it. -/
def Rearranges {F : Type} (sortSlice : SortSlice F) : Prop :=
  ∀ less items, (sortSlice less items).Perm items

/-- A store with three records: two of dimension 2 and one of dimension 3. -/
def exampleStore : InMemoryVectorStore Int :=
  { items :=
      [ { Embedding := [0, 1], Document := "orthogonal", Metadata := [] },
        { Embedding := [1, 2, 3], Document := "other model", Metadata := [] },
        { Embedding := [2, 0], Document := "parallel", Metadata := [] } ] }

/-! ## Reading cosineSimilarity -/

/-- The norm of a vector as `cosineSimilarity` computes it: the square root of
the sum of the squares, added up from the left starting at zero. -/
def vectorNorm {F : Type} (ops : Float64Ops F) (v : List F) : F :=
  ops.sqrt (v.foldl (fun acc x => ops.add acc (ops.mul x x)) ops.zero)

/-- The dot product of two vectors of equal length, added up from the left
starting at zero. -/
def dotProduct {F : Type} (ops : Float64Ops F) (a b : List F) : F :=
  (List.zip a b).foldl (fun acc p => ops.add acc (ops.mul p.1 p.2)) ops.zero

/-! ## Reading buildEnhancedQuery -/

/-- The entry the template holds for chunk number `i` (counted from 1). -/
def docEntry (i : Nat) (doc : String) : String :=
  "文档" ++ toString i ++ ": " ++ doc ++ "\n\n"

/-- The entries of the chunks `d1 .. dn`, numbered from 1, in order. -/
def docEntries (relevantDocs : List String) : List String :=
  (List.enumFrom 1 relevantDocs).map (fun p => docEntry p.1 p.2)

/-! ## Reading Query -/

/-- The text is empty or consists of white space only. -/
def isBlank (s : String) : Bool :=
  s.toList.all isSpace

/-- The retry loop of `Query` with its epilogue (agent.go 183-203), run from
agent `a` on a given prompt and tool list. -/
def Agent.attemptAll {σ F : Type} (env : Collaborators σ F) (a : Agent σ F) (prompt : String)
    (tools : List Tool) : (Option ChatResponse × Option String) × Agent σ F :=
  match Agent.retryLoop env prompt tools a.maxRetries.toNat a none none with
  | ((_, some lastErr), a1) =>
    ((none, some ("经过" ++ toString a.maxRetries ++ "次尝试后查询失败:" ++ lastErr)), a1)
  | ((response, none), a1) => ((response, none), a1)

/-- The agent with another retriever in place of its own. -/
def Agent.withRetriever {σ F : Type} (a : Agent σ F) (r : Retriever F) : Agent σ F :=
  { a with embeddingClient := r }

/-! ## The history invariant of OpenaiClient -/

/-- Go `NewOpenAIClient`; the API key, base URL and model do not enter the
history, and `convertTools` keeps the tools' names. -/
def NewOpenAIClient (tools : List Tool) (systemPrompt context : String) : OpenaiClient :=
  let m1 : List ChatCompletionMessage :=
    if systemPrompt ≠ "" then
      [{ Role := ChatMessageRoleSystem, Content := systemPrompt, ToolCalls := [], ToolCallID := "" }]
    else []
  let m2 : List ChatCompletionMessage :=
    if context ≠ "" then
      m1 ++ [{ Role := ChatMessageRoleUser, Content := context, ToolCalls := [], ToolCallID := "" }]
    else m1
  { messages := m2, tools := tools, sent := [] }

/-- A history holds at most one system-role message, and a system-role message
it holds is its first message. -/
def SystemFirst (messages : List ChatCompletionMessage) : Prop :=
  messages.countP (fun msg => msg.Role == ChatMessageRoleSystem) ≤ 1
    ∧ ∀ i msg, messages[i]? = some msg → msg.Role = ChatMessageRoleSystem → i = 0

/-! ## mcp/client.go -/

/-- A content item of `mcp.CallToolResult` as the type switch of
`convertCallToolResult` sees it: text, image or audio (with the payload bytes
`Data`, kept as a string), or any other type, of which only the text that
`fmt.Sprintf("%v", content)` prints matters. -/
inductive MCPContent where
  | text (Text : String)
  | image (Data : String) (MIMEType : String)
  | audio (Data : String) (MIMEType : String)
  | other (rendering : String)
deriving DecidableEq, Repr

/-- The fields of `mcp.CallToolResult` that `convertCallToolResult` reads. -/
structure CallToolResult where
  Content : List MCPContent
  IsError : Bool
deriving DecidableEq, Repr

/-- The type switch of `convertCallToolResult` (client.go 166-188): the item
appended for one content item. -/
def convertContent : MCPContent → ContentItem
  | .text text => { Type_ := "text", Text := text }
  | .image data _ => { Type_ := "text", Text := "[Image:" ++ data ++ "]" }
  | .audio data _ => { Type_ := "text", Text := "[Audio:" ++ data ++ "]" }
  | .other rendering => { Type_ := "text", Text := rendering }

/-- Go `Client.convertCallToolResult`. -/
def convertCallToolResult (result : CallToolResult) : MCPToolResult :=
  let converted := result.Content.foldl (fun content item => content ++ [convertContent item]) []
  { Content := if converted.length = 0 then converted ++ [{ Type_ := "text", Text := "" }] else converted
    IsError := result.IsError }

/-- A provider result with one image whose payload is a short byte string. -/
def imageResult : CallToolResult :=
  { Content := [.image "iVBORw0KGgo" "image/png"], IsError := false }

/-! ## Ties in a ranking -/

/-- A record of the tie example: orthogonal to the query `[1, 0]`. -/
def tieRecord (text : String) : VectorStoreItem Int :=
  { Embedding := [0, 1], Document := text, Metadata := [] }

/-- A store of 13 records of dimension 2: the second is parallel to the query
`[1, 0]`, the other twelve are orthogonal to it and so tie at similarity 0. -/
def tieStore : InMemoryVectorStore Int :=
  { items :=
      [ tieRecord "tie 1", { Embedding := [1, 0], Document := "best", Metadata := [] },
        tieRecord "tie 2", tieRecord "tie 3", tieRecord "tie 4", tieRecord "tie 5",
        tieRecord "tie 6", tieRecord "tie 7", tieRecord "tie 8", tieRecord "tie 9",
        tieRecord "tie 10", tieRecord "tie 11", tieRecord "tie 12" ] }

/-! ## EmbedDocument over any store -/

/-- The part of Go interface `types.VectorStore` that `EmbedDocument` calls, for
a store with state `S`: `AddEmbedding` returns its error (`none` is nil) and
the store afterwards. -/
structure VectorStoreOps (S F : Type) where
  AddEmbedding : S → List F → String → List (String × String) → Option String × S

/-- The `types.VectorStore` methods of `InMemoryVectorStore` used for ingestion. -/
def inMemoryStoreOps (F : Type) : VectorStoreOps (InMemoryVectorStore F) F :=
  { AddEmbedding := InMemoryVectorStore.AddEmbedding }

/-- The body of Go `Retriever.EmbedDocument` after the call of `embed`
(embedding.go 41-51), over any implementation of the store: `embedded` is what
`embed` returned and `s` is the store. -/
def embedDocumentOn {S F : Type} (store : VectorStoreOps S F)
    (embedded : Except String (List F)) (s : S) (document : String) :
    Except String (List F) × S :=
  match embedded with
  | .error err => (.error ("文本向量化失败" ++ err), s)
  | .ok embedding =>
    match store.AddEmbedding s embedding document [] with
    | (some err, s1) => (.error ("存储向量失败" ++ err), s1)
    | (none, s1) => (.ok embedding, s1)

/-- A store for examples that refuses every record. -/
def fullStoreOps : VectorStoreOps Unit Int :=
  { AddEmbedding := fun s _ _ _ => (some "store is full", s) }

/-! ## chat/openai.go: a run of Chat on the stream as it arrives

The fragments of a stream delta are `openai.ToolCall` values whose `Index` is a
`*int`. `Chat` dereferences it without a nil check (openai.go 107), so a
fragment without an index ends the call in a panic. `OpenaiClient.Chat` above
is the call on streams whose fragments carry their index; `OpenaiClient.ChatRun`
is the call on any stream. -/

/-- Go `openai.ToolCall` inside a stream delta: `Index` is a pointer, `none`
when it is nil. -/
structure StreamToolCall where
  Index : Option Int
  ID : String
  Name : String
  Arguments : String
deriving DecidableEq, Repr

/-- Go `openai.ChatCompletionStreamChoiceDelta` as it arrives. -/
structure WireDelta where
  Content : String
  ToolCalls : List StreamToolCall
deriving DecidableEq, Repr

/-- One value returned by `stream.Recv()` with a nil error, as it arrives. -/
structure WireResponse where
  Choices : List WireDelta
deriving DecidableEq, Repr

/-- What an opened stream delivers, as it arrives: the responses, then
`io.EOF` (`failure = none`) or a transport error. -/
structure WireStream where
  chunks : List WireResponse
  failure : Option String
deriving DecidableEq, Repr

/-- The remote chat endpoint with the streams as they arrive. -/
abbrev WireTransport := Nat → ChatCompletionRequest → Except String WireStream

/-- How a call of `Chat` ends: it returns its pair of response and error, or it
panics (runtime error: invalid memory address or nil pointer dereference). -/
inductive ChatOutcome where
  | returned (result : Except String ChatResponse)
  | panicked

/-- The statement `index := *toolCallDelta.Index` (openai.go 107): the fragment
with its index, or `none` when the pointer is nil and the dereference panics. -/
def StreamToolCall.deref (d : StreamToolCall) : Option ToolCallDelta :=
  match d.Index with
  | none => none
  | some index => some { Index := index, ID := d.ID, Name := d.Name, Arguments := d.Arguments }

/-- The inner loop of `Chat` over the fragments of one delta (openai.go
106-132): `none` when a dereference panics. -/
def accumulateFragments :
    List (Int × ToolCall) → List StreamToolCall → Option (List (Int × ToolCall))
  | m, [] => some m
  | m, d :: rest =>
    match d.deref with
    | none => none
    | some delta => accumulateFragments (accumulateToolCall m delta) rest

/-- How the receive loop of `Chat` ends (openai.go 84-134). -/
inductive RecvOutcome where
  | completed (st : RecvState)
  | failed (err : String)
  | panicked
deriving DecidableEq, Repr

/-- The receive loop of `Chat` on the responses still to come, the error that
follows them, and the loop's variables. -/
def recvRun : List WireResponse → Option String → RecvState → RecvOutcome
  | [], none, st => .completed st
  | [], some err, _ => .failed err
  | response :: rest, failure, st =>
    match response.Choices with
    | [] => recvRun rest failure st
    | delta :: _ =>
      match accumulateFragments st.toolCallsMap delta.ToolCalls with
      | none => .panicked
      | some toolCallsMap =>
        recvRun rest failure
          { content := if delta.Content ≠ "" then st.content ++ delta.Content else st.content
            toolCallsMap := toolCallsMap }

/-- Go `OpenaiClient.Chat` on the stream as it arrives: how the call ends and
the client afterwards. A panic leaves the client as it was when the stream was
opened. -/
def OpenaiClient.ChatRun (transport : WireTransport) (c : OpenaiClient) (prompt : String) :
    ChatOutcome × OpenaiClient :=
  let messages :=
    if prompt ≠ "" then
      c.messages ++ [{ Role := ChatMessageRoleUser, Content := prompt, ToolCalls := [], ToolCallID := "" }]
    else c.messages
  let req : ChatCompletionRequest := { Messages := messages, Tools := c.tools }
  let c1 : OpenaiClient := { messages := messages, tools := c.tools, sent := c.sent ++ [req] }
  match transport c.sent.length req with
  | .error err => (.returned (.error ("创建流式响应失败: " ++ err)), c1)
  | .ok stream =>
    match recvRun stream.chunks stream.failure { content := "", toolCallsMap := [] } with
    | .panicked => (.panicked, c1)
    | .failed err => (.returned (.error ("接收流式响应失败: " ++ err)), c1)
    | .completed st =>
      let toolCalls : List ToolCall := []
      let assistantMsg : ChatCompletionMessage :=
        { Role := ChatMessageRoleAssistant, Content := st.content, ToolCalls := toolCalls, ToolCallID := "" }
      (.returned (.ok { Content := st.content, ToolCalls := toolCalls }),
        { c1 with messages := c1.messages ++ [assistantMsg] })

/-- A stream whose fragments carry their index, as it arrives. -/
def ChatStream.onWire (stream : ChatStream) : WireStream :=
  { chunks := stream.chunks.map fun response =>
      { Choices := response.Choices.map fun delta =>
          { Content := delta.Content
            ToolCalls := delta.ToolCalls.map fun d =>
              { Index := some d.Index, ID := d.ID, Name := d.Name, Arguments := d.Arguments } } }
    failure := stream.failure }

/-! ## Reading a chat turn -/

/-- Every fragment `Chat` reads in this response, those of its first choice,
carries an index. -/
def WireResponse.indexed (response : WireResponse) : Bool :=
  match response.Choices with
  | [] => true
  | delta :: _ => delta.ToolCalls.all (fun d => d.Index.isSome)

/-- Every fragment `Chat` reads in this stream carries an index. -/
def WireStream.indexed (stream : WireStream) : Bool :=
  stream.chunks.all WireResponse.indexed

/-- The text fragments of a delta sequence in arrival order: the content of
the first choice of every response that has a choice. -/
def textFragments (chunks : List WireResponse) : List String :=
  chunks.filterMap (fun response => response.Choices.head?.map (fun delta => delta.Content))

/-- The history once `Chat` has taken in its prompt (openai.go 53-58): the
user message is appended when the prompt is not empty. -/
def historyWithPrompt (c : OpenaiClient) (prompt : String) : List ChatCompletionMessage :=
  if prompt ≠ "" then
    c.messages ++ [{ Role := ChatMessageRoleUser, Content := prompt, ToolCalls := [], ToolCallID := "" }]
  else c.messages

/-- A stream of three responses, the second without choices and the third with
a tool-call fragment of slot 0, that ends with end-of-stream. -/
def helloWorldStream : WireStream :=
  { chunks := [ { Choices := [{ Content := "hello", ToolCalls := [] }] },
                { Choices := [] },
                { Choices := [{ Content := " world", ToolCalls :=
                    [{ Index := some 0, ID := "call_1", Name := "calc.add", Arguments := "" }] }] } ]
    failure := none }

/-- The same three responses followed by a transport error instead of
end-of-stream. -/
def brokenStream : WireStream :=
  { chunks := helloWorldStream.chunks, failure := some "unexpected EOF" }

/-- A stream whose second response carries a tool-call fragment without an
index, and which would end with end-of-stream. -/
def unindexedStream : WireStream :=
  { chunks := [ { Choices := [{ Content := "hel", ToolCalls := [] }] },
                { Choices := [{ Content := "lo", ToolCalls :=
                    [{ Index := none, ID := "call_1", Name := "calc.add", Arguments := "" }] }] } ]
    failure := none }

/-! ## agent/agent.go: GetMCPClient -/

/-- Go `Agent.GetMCPClient`: `names` is made with length `len(a.mcpClients)`,
which fills it with that many empty strings, and every registered name is then
appended to it (agent.go 109-112). -/
def Agent.GetMCPClient {σ F : Type} (a : Agent σ F) : List String :=
  a.mcpClients.foldl (fun names entry => names ++ [entry.1])
    (List.replicate a.mcpClients.length "")

/-! ## Reading the tool round -/

/-- The steps of the tool round in a trace: chat calls, entries into
`executeToolCall` and appended tool results (provider and embedding calls are
left out). -/
def isLoopStep : Event → Bool
  | .chat _ => true
  | .executeToolCall _ => true
  | .appendToolResult _ _ => true
  | _ => false

/-- The text `processQueryWithTools` appends for a tool call: `resultText` of
the call's result, or of the failure result when the call fails. -/
def Agent.toolOutput {σ F : Type} (unmarshal : String → Except String Arguments)
    (a : Agent σ F) (toolCall : ToolCall) : String :=
  resultText (feedbackResult (a.executeToolCall unmarshal toolCall).1)

/-- The message `OpenaiClient.AppendToolResult` appends for a pair of call id
and output. -/
def toolMessage (p : String × String) : ChatCompletionMessage :=
  { Role := ChatMessageRoleTool, Content := p.2, ToolCalls := [], ToolCallID := p.1 }

/-- A script whose first reply asks for two tools, the calculator's and one of
an unregistered provider, and whose second reply is plain text. -/
def twoCallScript : List (Except String ChatResponse) :=
  [ .ok { Content := "", ToolCalls :=
      [addCall "call_1", { ID := "call_2", Name := "nosuch.tool", Arguments := "\x7b\x7d" }] },
    .ok { Content := "1 + 2 = 3", ToolCalls := [] } ]

/-! ## Reading the history after retried attempts -/

/-- The message `OpenaiClient.Chat` appends for a non-empty prompt
(openai.go 54-57). -/
def userMessage (prompt : String) : ChatCompletionMessage :=
  { Role := ChatMessageRoleUser, Content := prompt, ToolCalls := [], ToolCallID := "" }

/-- The message `OpenaiClient.Chat` appends for a completed turn whose text is
`content` (openai.go 137-157, with the tool calls that `Chat` reports). -/
def assistantMessage (content : String) : ChatCompletionMessage :=
  { Role := ChatMessageRoleAssistant, Content := content, ToolCalls := [], ToolCallID := "" }

/-- Number of user-role messages of a history that carry the given prompt. -/
def promptCount (prompt : String) (messages : List ChatCompletionMessage) : Nat :=
  messages.countP (fun msg => msg.Role == ChatMessageRoleUser && msg.Content == prompt)

/-! ## Reading AddKnowledge against EmbedDocument -/

/-- The calls of `Retriever.EmbedDocument` that ingest the documents of the
indices `sched` in that order, starting from retriever `r`, each call on the
retriever the call before it left: per call the index, the document and what
`EmbedDocument` returned; and the retriever after the last call. The agent does
not enter. -/
def embedCalls {F : Type} (api : EmbeddingAPI F) (documents : List String) :
    Retriever F → List Nat → List (Nat × String × Except String (List F)) × Retriever F
  | r, [] => ([], r)
  | r, index :: rest =>
    match documents[index]? with
    | none => embedCalls api documents r rest
    | some document =>
      ((index, document, (Retriever.EmbedDocument api r document).1)
          :: (embedCalls api documents (Retriever.EmbedDocument api r document).2 rest).1,
        (embedCalls api documents (Retriever.EmbedDocument api r document).2 rest).2)

/-- The call returned an error. -/
def callFailed {F : Type} (call : Nat × String × Except String (List F)) : Bool :=
  match call.2.2 with
  | .error _ => true
  | .ok _ => false

/-- The entry of `errors` for a call that returned an error (agent.go 151). -/
def errorEntry {F : Type} (call : Nat × String × Except String (List F)) : Option String :=
  match call.2.2 with
  | .error err => some ("文档" ++ toString call.1 ++ "嵌入失败：" ++ err)
  | .ok _ => none

/-- The record a successful call leaves in the store: the returned vector with
the document and no metadata. -/
def storedRecord {F : Type} (call : Nat × String × Except String (List F)) :
    Option (VectorStoreItem F) :=
  match call.2.2 with
  | .ok embedding => some { Embedding := embedding, Document := call.2.1, Metadata := [] }
  | .error _ => none

/-! ## The contract of sort.Slice -/

/-- On the elements of `items`, `less` is what package sort asks of a less
function: no element sorts before itself, and both `less` and its negation are
transitive. The comparison `>` of float64 values is such an ordering on every
list of values without a NaN, and on no list that holds a NaN next to two
values of which one is greater. -/
def OrdersElements {α : Type} (less : α → α → Bool) (items : List α) : Prop :=
  (∀ a ∈ items, less a a = false)
    ∧ (∀ a ∈ items, ∀ b ∈ items, ∀ c ∈ items,
        less a b = true → less b c = true → less a c = true)
    ∧ (∀ a ∈ items, ∀ b ∈ items, ∀ c ∈ items,
        less a b = false → less b c = false → less a c = false)

/-- What `sort.Slice` promises when `less` orders the elements of the slice: in
the result no element sorts before an element on its left. -/
def SortsByLess {F : Type} (sortSlice : SortSlice F) : Prop :=
  ∀ less items, OrdersElements less items →
    (sortSlice less items).Pairwise (fun x y => less y x = false)

/-- Go's insertion sort as a `sort.Slice`: it is what `sort.Slice` runs on
slices of at most 12 elements, and it keeps the contract of package sort at
every length. -/
def insertionSlice {F : Type} : SortSlice F :=
  fun less items => insertionSortLessFunc less items

/-! ## Package sort: sort.Slice -/

/-- Go `data.Less(i, j)` of a `lessSwap` over the slice `data`. -/
def sort.Less {α : Type} (less : α → α → Bool) (data : List α) (i j : Nat) : Bool :=
  match data[i]?, data[j]? with
  | some x, some y => less x y
  | _, _ => false

/-- Go `data.Swap(i, j)` of a `lessSwap` over the slice `data`. -/
def sort.Swap {α : Type} (data : List α) (i j : Nat) : List α :=
  match data[i]?, data[j]? with
  | some x, some y => (data.set i y).set j x
  | _, _ => data

/-- Go `insertionSort_func(data, a, b)`: insertion sort of `data[a:b]`. -/
def sort.insertionSort_func {α : Type} (less : α → α → Bool) (data : List α) (a b : Nat) :
    List α :=
  data.take a ++ insertionSortLessFunc less ((data.take b).drop a) ++ data.drop b

/-- Go `siftDown_func(data, lo, hi, first)`; `root` starts at `lo`. -/
def sort.siftDown_func {α : Type} (less : α → α → Bool) :
    Nat → List α → Nat → Nat → Nat → List α
  | 0, data, _, _, _ => data
  | fuel + 1, data, root, hi, first =>
    if 2 * root + 1 ≥ hi then data
    else
      let child :=
        if 2 * root + 1 + 1 < hi
            && sort.Less less data (first + (2 * root + 1)) (first + (2 * root + 1) + 1) then
          2 * root + 1 + 1
        else 2 * root + 1
      if !sort.Less less data (first + root) (first + child) then data
      else sort.siftDown_func less fuel (sort.Swap data (first + root) (first + child)) child hi first

/-- Go `heapSort_func(data, a, b)`. -/
def sort.heapSort_func {α : Type} (less : α → α → Bool) (data : List α) (a b : Nat) : List α :=
  let first := a
  let lo := 0
  let hi := b - a
  let heap := (List.range ((hi - 1) / 2 + 1)).reverse.foldl
    (fun d i => sort.siftDown_func less (hi + 1) d i hi first) data
  (List.range hi).reverse.foldl
    (fun d i => sort.siftDown_func less (hi + 1) (sort.Swap d first (first + i)) lo i first) heap

/-- The loop `for i <= j && data.Less(i, a) { i++ }` of `partition_func`: the
final `i`. -/
def sort.skipLess {α : Type} (less : α → α → Bool) (data : List α) (a j : Nat) : Nat → Nat → Nat
  | 0, i => i
  | fuel + 1, i =>
    if i ≤ j && sort.Less less data i a then sort.skipLess less data a j fuel (i + 1) else i

/-- The loop `for i <= j && !data.Less(j, a) { j-- }` of `partition_func`: the
final `j`. -/
def sort.skipNotLess {α : Type} (less : α → α → Bool) (data : List α) (a i : Nat) :
    Nat → Nat → Nat
  | 0, j => j
  | fuel + 1, j =>
    if i ≤ j && !sort.Less less data j a then sort.skipNotLess less data a i fuel (j - 1) else j

/-- The main loop of `partition_func`: the slice and `j` when it breaks. -/
def sort.partitionLoop {α : Type} (less : α → α → Bool) (a : Nat) :
    Nat → List α → Nat → Nat → List α × Nat
  | 0, data, _, j => (data, j)
  | fuel + 1, data, i, j =>
    let i1 := sort.skipLess less data a j (data.length + 1) i
    let j1 := sort.skipNotLess less data a i1 (data.length + 1) j
    if i1 > j1 then (data, j1)
    else sort.partitionLoop less a fuel (sort.Swap data i1 j1) (i1 + 1) (j1 - 1)

/-- Go `partition_func(data, a, b, pivot)`: the slice, `newpivot` and
`alreadyPartitioned`. -/
def sort.partition_func {α : Type} (less : α → α → Bool) (data : List α) (a b pivot : Nat) :
    List α × Nat × Bool :=
  let d1 := sort.Swap data a pivot
  let i := sort.skipLess less d1 a (b - 1) (d1.length + 1) (a + 1)
  let j := sort.skipNotLess less d1 a i (d1.length + 1) (b - 1)
  if i > j then (sort.Swap d1 j a, j, true)
  else
    let r := sort.partitionLoop less a (d1.length + 1) (sort.Swap d1 i j) (i + 1) (j - 1)
    (sort.Swap r.1 r.2 a, r.2, false)

/-- The loop `for i <= j && !data.Less(a, i) { i++ }` of `partitionEqual_func`. -/
def sort.skipNotGreater {α : Type} (less : α → α → Bool) (data : List α) (a j : Nat) :
    Nat → Nat → Nat
  | 0, i => i
  | fuel + 1, i =>
    if i ≤ j && !sort.Less less data a i then sort.skipNotGreater less data a j fuel (i + 1) else i

/-- The loop `for i <= j && data.Less(a, j) { j-- }` of `partitionEqual_func`. -/
def sort.skipGreater {α : Type} (less : α → α → Bool) (data : List α) (a i : Nat) :
    Nat → Nat → Nat
  | 0, j => j
  | fuel + 1, j =>
    if i ≤ j && sort.Less less data a j then sort.skipGreater less data a i fuel (j - 1) else j

/-- The loop of `partitionEqual_func`: the slice and `i` when it breaks. -/
def sort.partitionEqualLoop {α : Type} (less : α → α → Bool) (a : Nat) :
    Nat → List α → Nat → Nat → List α × Nat
  | 0, data, i, _ => (data, i)
  | fuel + 1, data, i, j =>
    let i1 := sort.skipNotGreater less data a j (data.length + 1) i
    let j1 := sort.skipGreater less data a i1 (data.length + 1) j
    if i1 > j1 then (data, i1)
    else sort.partitionEqualLoop less a fuel (sort.Swap data i1 j1) (i1 + 1) (j1 - 1)

/-- Go `partitionEqual_func(data, a, b, pivot)`: the slice and `newpivot`. -/
def sort.partitionEqual_func {α : Type} (less : α → α → Bool) (data : List α)
    (a b pivot : Nat) : List α × Nat :=
  let d1 := sort.Swap data a pivot
  sort.partitionEqualLoop less a (d1.length + 1) d1 (a + 1) (b - 1)

/-- The loop `for i < b && !data.Less(i, i-1) { i++ }` of
`partialInsertionSort_func`. -/
def sort.skipOrdered {α : Type} (less : α → α → Bool) (data : List α) (b : Nat) : Nat → Nat → Nat
  | 0, i => i
  | fuel + 1, i =>
    if i < b && !sort.Less less data i (i - 1) then sort.skipOrdered less data b fuel (i + 1) else i

/-- The loop `for j := i - 1; j >= 1; j--` of `partialInsertionSort_func`, which
shifts the smaller element to the left. -/
def sort.shiftLeft {α : Type} (less : α → α → Bool) : Nat → List α → Nat → List α
  | 0, data, _ => data
  | fuel + 1, data, j =>
    if j ≥ 1 then
      if !sort.Less less data j (j - 1) then data
      else sort.shiftLeft less fuel (sort.Swap data j (j - 1)) (j - 1)
    else data

/-- The loop `for j := i + 1; j < b; j++` of `partialInsertionSort_func`, which
shifts the greater element to the right. -/
def sort.shiftRight {α : Type} (less : α → α → Bool) (b : Nat) : Nat → List α → Nat → List α
  | 0, data, _ => data
  | fuel + 1, data, j =>
    if j < b then
      if !sort.Less less data j (j - 1) then data
      else sort.shiftRight less b fuel (sort.Swap data j (j - 1)) (j + 1)
    else data

/-- Go `partialInsertionSort_func(data, a, b)` with `steps` iterations of its
outer loop left (`maxSteps` is 5) and the loop variable `i`: the slice and
whether it is sorted at the end. -/
def sort.partialInsertionSort_func {α : Type} (less : α → α → Bool) (a b : Nat) :
    Nat → List α → Nat → List α × Bool
  | 0, data, _ => (data, false)
  | steps + 1, data, i =>
    let i1 := sort.skipOrdered less data b (data.length + 1) i
    if i1 = b then (data, true)
    else if b - a < 50 then (data, false)
    else
      let d1 := sort.Swap data i1 (i1 - 1)
      let d2 := if i1 - a ≥ 2 then sort.shiftLeft less (d1.length + 1) d1 (i1 - 1) else d1
      let d3 := if b - i1 ≥ 2 then sort.shiftRight less b (d2.length + 1) d2 (i1 + 1) else d2
      sort.partialInsertionSort_func less a b steps d3 i1

/-- Go `bits.Len(uint(n))`: the number of bits of `n`. -/
def sort.bitsLen : Nat → Nat → Nat
  | 0, _ => 0
  | fuel + 1, n => if n = 0 then 0 else sort.bitsLen fuel (n / 2) + 1

/-- Go `(*xorshift).Next` on a `uint64`: shifts by 13, 7 and 17. -/
def sort.xorshiftNext (r : Nat) : Nat :=
  let r1 := r ^^^ ((r <<< 13) % 2 ^ 64)
  let r2 := r1 ^^^ (r1 >>> 7)
  r2 ^^^ ((r2 <<< 17) % 2 ^ 64)

/-- Go `nextPowerOfTwo(length)`. -/
def sort.nextPowerOfTwo (length : Nat) : Nat :=
  2 ^ sort.bitsLen (length + 1) length

/-- The index `other` that `breakPatterns_func` draws from the random value `r`. -/
def sort.breakIndex (length r : Nat) : Nat :=
  if r % sort.nextPowerOfTwo length ≥ length then r % sort.nextPowerOfTwo length - length
  else r % sort.nextPowerOfTwo length

/-- Go `breakPatterns_func(data, a, b)`. -/
def sort.breakPatterns_func {α : Type} (data : List α) (a b : Nat) : List α :=
  let length := b - a
  if length ≥ 8 then
    let idx := a + (length / 4) * 2 - 1
    let r1 := sort.xorshiftNext length
    let r2 := sort.xorshiftNext r1
    let r3 := sort.xorshiftNext r2
    let d1 := sort.Swap data (idx - 1) (a + sort.breakIndex length r1)
    let d2 := sort.Swap d1 (idx - 1 + 1) (a + sort.breakIndex length r2)
    sort.Swap d2 (idx - 1 + 2) (a + sort.breakIndex length r3)
  else data

/-- Go `sortedHint`. -/
inductive sort.sortedHint where
  | unknownHint
  | increasingHint
  | decreasingHint
deriving DecidableEq, Repr

/-- Go `order2_func(data, a, b, swaps)`: the two indices in order and the
counter `swaps` afterwards. -/
def sort.order2_func {α : Type} (less : α → α → Bool) (data : List α) (a b swaps : Nat) :
    Nat × Nat × Nat :=
  if sort.Less less data b a then (b, a, swaps + 1) else (a, b, swaps)

/-- Go `median_func(data, a, b, c, swaps)`: the index of the median and the
counter `swaps` afterwards. -/
def sort.median_func {α : Type} (less : α → α → Bool) (data : List α) (a b c swaps : Nat) :
    Nat × Nat :=
  let r1 := sort.order2_func less data a b swaps
  let r2 := sort.order2_func less data r1.2.1 c r1.2.2
  let r3 := sort.order2_func less data r1.1 r2.1 r2.2.2
  (r3.2.1, r3.2.2)

/-- Go `medianAdjacent_func(data, a, swaps)`. -/
def sort.medianAdjacent_func {α : Type} (less : α → α → Bool) (data : List α) (a swaps : Nat) :
    Nat × Nat :=
  sort.median_func less data (a - 1) a (a + 1) swaps

/-- Go `choosePivot_func(data, a, b)`: the pivot index and the hint. -/
def sort.choosePivot_func {α : Type} (less : α → α → Bool) (data : List α) (a b : Nat) :
    Nat × sort.sortedHint :=
  let l := b - a
  let i := a + l / 4 * 1
  let j := a + l / 4 * 2
  let k := a + l / 4 * 3
  let r :=
    if l ≥ 8 then
      if l ≥ 50 then
        let ri := sort.medianAdjacent_func less data i 0
        let rj := sort.medianAdjacent_func less data j ri.2
        let rk := sort.medianAdjacent_func less data k rj.2
        sort.median_func less data ri.1 rj.1 rk.1 rk.2
      else sort.median_func less data i j k 0
    else (j, 0)
  if r.2 = 0 then (r.1, .increasingHint)
  else if r.2 = 4 * 3 then (r.1, .decreasingHint)
  else (r.1, .unknownHint)

/-- Go `reverseRange_func(data, a, b)`. -/
def sort.reverseRange_func {α : Type} (data : List α) (a b : Nat) : List α :=
  data.take a ++ ((data.take b).drop a).reverse ++ data.drop b

/-- Go `pdqsort_func(data, a, b, limit)`, with the two local flags of its loop
as arguments: a recursive call starts with both set, the next iteration of the
loop takes them from the partition just made. `fuel` bounds the iterations;
every iteration shortens `data[a:b]`. -/
def sort.pdqsort_func {α : Type} (less : α → α → Bool) :
    Nat → List α → Nat → Nat → Nat → Bool → Bool → List α
  | 0, data, _, _, _, _, _ => data
  | fuel + 1, data, a, b, limit, wasBalanced, wasPartitioned =>
    if b - a ≤ 12 then sort.insertionSort_func less data a b
    else if limit = 0 then sort.heapSort_func less data a b
    else
      let d1 := if !wasBalanced then sort.breakPatterns_func data a b else data
      let limit1 := if !wasBalanced then limit - 1 else limit
      let chosen := sort.choosePivot_func less d1 a b
      let d2 := if chosen.2 = .decreasingHint then sort.reverseRange_func d1 a b else d1
      let pivot := if chosen.2 = .decreasingHint then (b - 1) - (chosen.1 - a) else chosen.1
      let hint := if chosen.2 = .decreasingHint then sort.sortedHint.increasingHint else chosen.2
      let tried :=
        if wasBalanced && wasPartitioned && hint = .increasingHint then
          sort.partialInsertionSort_func less a b 5 d2 (a + 1)
        else (d2, false)
      if tried.2 then tried.1
      else if a > 0 && !sort.Less less tried.1 (a - 1) pivot then
        let eq := sort.partitionEqual_func less tried.1 a b pivot
        sort.pdqsort_func less fuel eq.1 eq.2 b limit1 wasBalanced wasPartitioned
      else
        let part := sort.partition_func less tried.1 a b pivot
        let mid := part.2.1
        if mid - a < b - mid then
          sort.pdqsort_func less fuel (sort.pdqsort_func less fuel part.1 a mid limit1 true true)
            (mid + 1) b limit1 (decide (mid - a ≥ (b - a) / 8)) part.2.2
        else
          sort.pdqsort_func less fuel (sort.pdqsort_func less fuel part.1 (mid + 1) b limit1 true true)
            a mid limit1 (decide (b - mid ≥ (b - a) / 8)) part.2.2

/-- Go `sort.Slice(x, less)`, with `less` given on elements; the slice
afterwards. -/
def sort.Slice {α : Type} (less : α → α → Bool) (x : List α) : List α :=
  sort.pdqsort_func less (x.length + 1) x 0 x.length (sort.bitsLen (x.length + 1) x.length)
    true true

/-! ## A float64 stand-in with infinities and NaN -/

/-- A float64 value in examples: a finite integer of magnitude below `2^1024`,
an infinity, or NaN. The operations below agree with float64 arithmetic
wherever the operands and the exact result are integers that float64
represents (every integer up to `2^53` in magnitude, and the powers of two),
and an exact result of magnitude `2^1024` or more overflows to an infinity.
Fractions, rounding and the sign of zero are left out; the examples do not
need them. -/
inductive Float64Value where
  | finite (x : Int)
  | inf (negative : Bool)
  | nan
deriving DecidableEq, Repr

/-- The number `2^1024`, written out: the magnitude from which on an integer
result overflows. -/
def float64Overflow : Int :=
  179769313486231590772930519078902473361797697894230657273430081157732675805500963132708477322407536021120113879871393357658789768814416622492847430639474124377767893424865485276302219601246094119453082952085005768838150682342462881473913110540827237163350510684586298239947245938479716304835356329624224137216

/-- The number `2^1023`, written out: a float64 value whose double overflows. -/
def float64Huge : Int :=
  89884656743115795386465259539451236680898848947115328636715040578866337902750481566354238661203768010560056939935696678829394884407208311246423715319737062188883946712432742638151109800623047059726541476042502884419075341171231440736956555270413618581675255342293149119973622969239858152417678164812112068608

/-- An exact integer result as a float64 value: overflow gives an infinity. -/
def Float64Value.ofInt (x : Int) : Float64Value :=
  if x ≥ float64Overflow then .inf false
  else if x ≤ -float64Overflow then .inf true
  else .finite x

/-- Float64 addition. -/
def Float64Value.add : Float64Value → Float64Value → Float64Value
  | .finite x, .finite y => Float64Value.ofInt (x + y)
  | .finite _, .inf s => .inf s
  | .inf s, .finite _ => .inf s
  | .inf s, .inf t => if s = t then .inf s else .nan
  | _, _ => .nan

/-- Float64 multiplication. -/
def Float64Value.mul : Float64Value → Float64Value → Float64Value
  | .finite x, .finite y => Float64Value.ofInt (x * y)
  | .finite x, .inf s => if x = 0 then .nan else .inf (xor s (decide (x < 0)))
  | .inf s, .finite x => if x = 0 then .nan else .inf (xor s (decide (x < 0)))
  | .inf s, .inf t => .inf (xor s t)
  | _, _ => .nan

/-- Float64 division; of two finite values it is exact when the divisor
divides the dividend. -/
def Float64Value.div : Float64Value → Float64Value → Float64Value
  | .finite x, .finite y =>
    if y = 0 then (if x = 0 then .nan else .inf (decide (x < 0))) else .finite (x / y)
  | .finite _, .inf _ => .finite 0
  | .inf s, .finite y => .inf (xor s (decide (y < 0)))
  | _, _ => .nan

/-- Go `math.Sqrt`; of a finite value it is exact when the value is a square. -/
def Float64Value.sqrt : Float64Value → Float64Value
  | .finite x =>
    if x < 0 then .nan
    else .finite ((List.range (x.toNat + 1)).foldl (fun r i => if i * i ≤ x.toNat then i else r) 0 : Nat)
  | .inf false => .inf false
  | _ => .nan

/-- Float64 `>`: false whenever an operand is NaN. -/
def Float64Value.gt : Float64Value → Float64Value → Bool
  | .finite x, .finite y => decide (x > y)
  | .finite _, .inf s => s
  | .inf s, .finite _ => !s
  | .inf s, .inf t => !s && t
  | _, _ => false

/-- The float64 operations on `Float64Value`. -/
def ieeeOps : Float64Ops Float64Value :=
  { zero := .finite 0
    add := Float64Value.add
    mul := Float64Value.mul
    div := Float64Value.div
    sqrt := Float64Value.sqrt
    eqZero := fun x => x == .finite 0
    gt := Float64Value.gt }

/-- A store of three records of dimension 2 with finite components; the
component `2^1023` of the second is a float64 value whose double and whose
square overflow. -/
def overflowStore : InMemoryVectorStore Float64Value :=
  { items :=
      [ { Embedding := [.finite 0, .finite 1], Document := "orthogonal", Metadata := [] },
        { Embedding := [.finite float64Huge, .finite 0], Document := "huge", Metadata := [] },
        { Embedding := [.finite 1, .finite 0], Document := "parallel", Metadata := [] } ] }

/-- A store of three records without overflow: two of dimension 2 and one of
dimension 3. -/
def finiteStore : InMemoryVectorStore Float64Value :=
  { items :=
      [ { Embedding := [.finite 0, .finite 1], Document := "orthogonal", Metadata := [] },
        { Embedding := [.finite 1, .finite 2, .finite 3], Document := "other model", Metadata := [] },
        { Embedding := [.finite 2, .finite 0], Document := "parallel", Metadata := [] } ] }

/-- A store of 5 records of dimension 2: the second is parallel to the query
`[1, 0]`, the other four are orthogonal to it and so tie at similarity 0. -/
def smallTieStore : InMemoryVectorStore Int :=
  { items :=
      [ tieRecord "tie 1", { Embedding := [1, 0], Document := "best", Metadata := [] },
        tieRecord "tie 2", tieRecord "tie 3", tieRecord "tie 4" ] }

end LlmMcpRag

/-! # Theorems -/

namespace LlmMcpRag

/-- Whatever the stream, a successful `Chat` returns no tool call. -/
theorem Chat_ok_toolCalls_nil (transport : ChatTransport) (c : OpenaiClient) (prompt : String)
    (r : ChatResponse) (h : (OpenaiClient.Chat transport c prompt).1 = .ok r) :
    r.ToolCalls = [] := by
  unfold OpenaiClient.Chat at h
  dsimp only at h
  split at h
  · cases h
  · split at h
    · cases h
    · cases h
      rfl

/-- C1 (code evaluated at the failing input): on the two-delta stream that
splits the arguments of slot 0, the receive loop does assemble the call
`call_1 / calc.add / {"a":1,"b":2}` in `toolCallsMap`, yet `Chat` succeeds with
an empty `ToolCalls` list and appends an assistant message without tool calls. -/
theorem Chat_split_arguments_lost :
    (recvLoop splitArgumentsStream.chunks).toolCallsMap
        = [(0, { ID := "call_1", Name := "calc.add", Arguments := "\x7b\"a\":1,\"b\":2\x7d" })]
      ∧ (OpenaiClient.Chat (fun _ _ => .ok splitArgumentsStream) freshClient "add 1 and 2").1
        = .ok { Content := "", ToolCalls := [] }
      ∧ (OpenaiClient.Chat (fun _ _ => .ok splitArgumentsStream) freshClient "add 1 and 2").2.messages
        = [ { Role := "user", Content := "add 1 and 2", ToolCalls := [], ToolCallID := "" },
            { Role := "assistant", Content := "", ToolCalls := [], ToolCallID := "" } ] := by
  refine ⟨by decide, by rfl, by decide⟩


/-! ## The tool loop -/

theorem executedCalls_append (l1 l2 : List Event) :
    executedCalls (l1 ++ l2) = executedCalls l1 ++ executedCalls l2 := by
  induction l1 with
  | nil => rfl
  | cons e rest ih => cases e <;> simp [executedCalls, ih]

theorem chatPrompts_append (l1 l2 : List Event) :
    chatPrompts (l1 ++ l2) = chatPrompts l1 ++ chatPrompts l2 := by
  induction l1 with
  | nil => rfl
  | cons e rest ih => cases e <;> simp [chatPrompts, ih]

theorem appendedResults_append (l1 l2 : List Event) :
    appendedResults (l1 ++ l2) = appendedResults l1 ++ appendedResults l2 := by
  induction l1 with
  | nil => rfl
  | cons e rest ih => cases e <;> simp [appendedResults, ih]

/-- The only effect of `executeToolCall` on the agent is on the trace: the call
itself, then at most the provider invocation. -/
theorem executeToolCall_state {σ F : Type} (unmarshal : String → Except String Arguments)
    (a : Agent σ F) (toolCall : ToolCall) :
    ∃ extra : List Event,
      (a.executeToolCall unmarshal toolCall).2
          = { a with trace := a.trace ++ .executeToolCall toolCall :: extra }
        ∧ executedCalls extra = [] ∧ chatPrompts extra = [] ∧ appendedResults extra = [] := by
  unfold Agent.executeToolCall
  simp only [Agent.record]
  split
  · split
    · exact ⟨[], by simp, rfl, rfl, rfl⟩
    · split
      · exact ⟨[], by simp, rfl, rfl, rfl⟩
      · rename_i clientName toolName _ _ _ _ _ arguments _
        split
        · exact ⟨[.callTool clientName toolName arguments], by simp, rfl, rfl, rfl⟩
        · exact ⟨[.callTool clientName toolName arguments], by simp, rfl, rfl, rfl⟩
  · exact ⟨[], by simp, rfl, rfl, rfl⟩

/-- One loop iteration: the agent changes only in the chat client, which
receives one tool result keyed by the call's id, and in the trace. -/
theorem toolCallStep_state {σ F : Type} (cc : ChatClient σ)
    (unmarshal : String → Except String Arguments) (a : Agent σ F) (toolCall : ToolCall) :
    ∃ extra : List Event,
      a.toolCallStep cc unmarshal toolCall
          = { a with
              chatClient := cc.AppendToolResult a.chatClient toolCall.ID
                (resultText (feedbackResult (a.executeToolCall unmarshal toolCall).1))
              trace := a.trace ++ (.executeToolCall toolCall :: extra ++
                [.appendToolResult toolCall.ID
                  (resultText (feedbackResult (a.executeToolCall unmarshal toolCall).1))]) }
        ∧ executedCalls extra = [] ∧ chatPrompts extra = [] ∧ appendedResults extra = [] := by
  obtain ⟨extra, hstate, h1, h2, h3⟩ := executeToolCall_state unmarshal a toolCall
  refine ⟨extra, ?_, h1, h2, h3⟩
  unfold Agent.toolCallStep
  simp only [hstate, List.append_assoc, List.cons_append]

/-- The loop over the tool calls of one response executes exactly these calls,
in order, makes no chat call, appends one result per call, and leaves the
registry, the retriever and the retry bound alone. -/
theorem toolCalls_foldl_state {σ F : Type} (cc : ChatClient σ)
    (unmarshal : String → Except String Arguments) (calls : List ToolCall) (a : Agent σ F) :
    executedCalls (calls.foldl (Agent.toolCallStep cc unmarshal) a).trace
        = executedCalls a.trace ++ calls
      ∧ chatPrompts (calls.foldl (Agent.toolCallStep cc unmarshal) a).trace = chatPrompts a.trace
      ∧ (appendedResults (calls.foldl (Agent.toolCallStep cc unmarshal) a).trace).map Prod.fst
        = (appendedResults a.trace).map Prod.fst ++ calls.map (fun toolCall => toolCall.ID)
      ∧ (calls.foldl (Agent.toolCallStep cc unmarshal) a).mcpClients = a.mcpClients
      ∧ (calls.foldl (Agent.toolCallStep cc unmarshal) a).embeddingClient = a.embeddingClient
      ∧ (calls.foldl (Agent.toolCallStep cc unmarshal) a).maxRetries = a.maxRetries := by
  induction calls generalizing a with
  | nil => simp
  | cons toolCall rest ih =>
    obtain ⟨extra, hstep, h1, h2, h3⟩ := toolCallStep_state cc unmarshal a toolCall
    obtain ⟨i1, i2, i3, i4, i5, i6⟩ := ih (a.toolCallStep cc unmarshal toolCall)
    simp only [List.foldl_cons]
    rw [i1, i2, i3, i4, i5, i6, hstep]
    simp [executedCalls_append, chatPrompts_append, appendedResults_append, executedCalls,
      chatPrompts, appendedResults, h1, h2, h3]

/-- C2 (as amended): a successful attempt makes one tool round at most. When the
first response has no tool call it is returned after that single chat call.
When it has tool calls, exactly these are executed, in order, the chat client
is called once more with the empty prompt, and the answer to that call is
returned as it is. -/
theorem processQueryWithTools_single_round {σ F : Type} (cc : ChatClient σ)
    (unmarshal : String → Except String Arguments) (a : Agent σ F) (query : String)
    (tools : List Tool) (resp : ChatResponse)
    (h : (a.processQueryWithTools cc unmarshal query tools).1 = .ok resp) :
    ∃ first s1, cc.Chat a.chatClient query = (.ok first, s1)
      ∧ (first.ToolCalls = [] →
          resp = first
            ∧ (a.processQueryWithTools cc unmarshal query tools).2.trace = a.trace ++ [.chat query])
      ∧ (first.ToolCalls ≠ [] →
          executedCalls (a.processQueryWithTools cc unmarshal query tools).2.trace
              = executedCalls a.trace ++ first.ToolCalls
            ∧ chatPrompts (a.processQueryWithTools cc unmarshal query tools).2.trace
              = chatPrompts a.trace ++ [query, ""]
            ∧ (cc.Chat (first.ToolCalls.foldl (Agent.toolCallStep cc unmarshal)
                { a with chatClient := s1, trace := a.trace ++ [.chat query] }).chatClient "").1
              = .ok resp) := by
  unfold Agent.processQueryWithTools at h ⊢
  cases hc : cc.Chat a.chatClient query with
  | mk res s1 =>
    cases res with
    | error err => simp [hc] at h
    | ok first =>
      refine ⟨first, s1, rfl, ?_, ?_⟩
      · intro hnil
        simp only [hc, hnil, List.length_nil, gt_iff_lt, lt_self_iff_false, if_false] at h ⊢
        cases h
        simp
      · intro hne
        have hpos : first.ToolCalls.length > 0 := List.length_pos.mpr hne
        simp only [hc, hpos, if_true] at h ⊢
        obtain ⟨i1, i2, -, -, -, -⟩ := toolCalls_foldl_state cc unmarshal first.ToolCalls
          { a with chatClient := s1, trace := a.trace ++ [.chat query] }
        cases h2 : cc.Chat (first.ToolCalls.foldl (Agent.toolCallStep cc unmarshal)
            { a with chatClient := s1, trace := a.trace ++ [.chat query] }).chatClient "" with
        | mk res2 s3 =>
          cases res2 with
          | error err => simp [h2] at h
          | ok finalResponse =>
            simp only [h2] at h ⊢
            cases h
            simp [executedCalls_append, chatPrompts_append, i1, i2, executedCalls, chatPrompts]

/-- C2 (witness): the amended statement applied to the two-round script. -/
theorem processQueryWithTools_single_round_witness :
    ((scriptedAgent [("calc", calcClient)] twoRoundScript).processQueryWithTools
        scriptedChatClient exampleUnmarshal "add 1 and 2" []).1
        = .ok { Content := "", ToolCalls := [addCall "call_2"] }
      ∧ ∃ first s1,
        scriptedChatClient.Chat (scriptedAgent [("calc", calcClient)] twoRoundScript).chatClient
            "add 1 and 2" = (.ok first, s1)
        ∧ (first.ToolCalls = [] →
            ({ Content := "", ToolCalls := [addCall "call_2"] } : ChatResponse) = first
              ∧ ((scriptedAgent [("calc", calcClient)] twoRoundScript).processQueryWithTools
                  scriptedChatClient exampleUnmarshal "add 1 and 2" []).2.trace
                = (scriptedAgent [("calc", calcClient)] twoRoundScript).trace
                  ++ [.chat "add 1 and 2"])
        ∧ (first.ToolCalls ≠ [] →
            executedCalls ((scriptedAgent [("calc", calcClient)] twoRoundScript).processQueryWithTools
                scriptedChatClient exampleUnmarshal "add 1 and 2" []).2.trace
                = executedCalls (scriptedAgent [("calc", calcClient)] twoRoundScript).trace
                  ++ first.ToolCalls
              ∧ chatPrompts ((scriptedAgent [("calc", calcClient)] twoRoundScript).processQueryWithTools
                  scriptedChatClient exampleUnmarshal "add 1 and 2" []).2.trace
                = chatPrompts (scriptedAgent [("calc", calcClient)] twoRoundScript).trace
                  ++ ["add 1 and 2", ""]
              ∧ (scriptedChatClient.Chat (first.ToolCalls.foldl
                  (Agent.toolCallStep scriptedChatClient exampleUnmarshal)
                  { scriptedAgent [("calc", calcClient)] twoRoundScript with
                    chatClient := s1
                    trace := (scriptedAgent [("calc", calcClient)] twoRoundScript).trace
                      ++ [.chat "add 1 and 2"] }).chatClient "").1
                = .ok { Content := "", ToolCalls := [addCall "call_2"] }) :=
  ⟨by rfl, processQueryWithTools_single_round scriptedChatClient exampleUnmarshal
    (scriptedAgent [("calc", calcClient)] twoRoundScript) "add 1 and 2" []
    { Content := "", ToolCalls := [addCall "call_2"] } (by rfl)⟩

/-- C2 (counterexample): the scripted model asks for a tool, then for a second
one, then answers in plain text. The attempt succeeds with the second reply,
whose tool call `call_2` is still pending: only `call_1` was executed, and the
plain-text answer is what the next chat call would have returned. -/
theorem processQueryWithTools_returns_pending_call :
    ((scriptedAgent [("calc", calcClient)] twoRoundScript).processQueryWithTools
        scriptedChatClient exampleUnmarshal "add 1 and 2" []).1
        = .ok { Content := "", ToolCalls := [addCall "call_2"] }
      ∧ executedCalls ((scriptedAgent [("calc", calcClient)] twoRoundScript).processQueryWithTools
          scriptedChatClient exampleUnmarshal "add 1 and 2" []).2.trace = [addCall "call_1"]
      ∧ (scriptedChatClient.Chat ((scriptedAgent [("calc", calcClient)] twoRoundScript).processQueryWithTools
          scriptedChatClient exampleUnmarshal "add 1 and 2" []).2.chatClient "").1
        = .ok { Content := "3", ToolCalls := [] } := by
  refine ⟨by rfl, by decide, by rfl⟩

/-! ## Qualified tool names -/

theorem cutAtDot_append (p t : List Char) (hp : '.' ∉ p) :
    cutAtDot (p ++ '.' :: t) = some (p, t) := by
  induction p with
  | nil => simp [cutAtDot]
  | cons c cs ih =>
    have hc : c ≠ '.' := fun h => hp (by simp [h])
    have hcs : '.' ∉ cs := fun h => hp (by simp [h])
    simp [cutAtDot, hc, ih hcs]

/-- Splitting undoes a qualification made with a plain dot: when the provider
name has no dot, `SplitN` gives back the provider name and the tool name. -/
theorem SplitN2_dot_joined (p t : String) (hp : '.' ∉ p.toList) :
    SplitN2 (p ++ "." ++ t) = [p, t] := by
  unfold SplitN2
  have h : (p ++ "." ++ t).toList = p.toList ++ '.' :: t.toList := by
    simp [String.toList]
  rw [h, cutAtDot_append _ _ hp]
  rfl

/-- C3 (code evaluated at the failing input): with the calculator registered as
`calc`, the catalogue names its tool `add` with the bad-verb rendering of
`%S.%S`, not `calc.add`; routing that listed name fails because its provider
part is not a registered name, while routing `calc.add` reaches the tool. -/
theorem getAllTools_name_not_routable :
    (scriptedAgent calcProviders []).getAllTools.map (fun tool => tool.Name) = [listedAddName]
      ∧ listedAddName ≠ "calc" ++ "." ++ "add"
      ∧ ((scriptedAgent calcProviders []).executeToolCall exampleUnmarshal
          { ID := "call_1", Name := listedAddName, Arguments := "\x7b\x7d" }).1
        = .error "mcp client不存在：%!S(string=calc)"
      ∧ ((scriptedAgent calcProviders []).executeToolCall exampleUnmarshal
          { ID := "call_1", Name := "calc.add", Arguments := "\x7b\x7d" }).1
        = .ok (some { Content := [{ Type_ := "text", Text := "3" }], IsError := false }) := by
  refine ⟨by decide, by decide, by rfl, by rfl⟩

/-! ## Failing tool calls -/

/-- Every failure of `executeToolCall` is fed back as a result whose flag
`IsError` is false. -/
theorem feedbackResult_error (err : String) :
    feedbackResult (.error err)
      = some { Content := [{ Type_ := "text", Text := "调用工具失败：" ++ err }], IsError := false } :=
  rfl

/-- C4 (counterexample): a tool call addressed to the unregistered provider
`nosuch` fails in `executeToolCall`; the result built for it carries the
failure text but its `IsError` is false, not set; that text is appended under
the call's id; and the attempt succeeds with the model's next reply. -/
theorem failed_tool_call_not_flagged :
    ((scriptedAgent calcProviders unknownProviderScript).executeToolCall exampleUnmarshal
        { ID := "call_1", Name := "nosuch.tool", Arguments := "\x7b\x7d" }).1
        = .error "mcp client不存在：nosuch"
      ∧ feedbackResult ((scriptedAgent calcProviders unknownProviderScript).executeToolCall
          exampleUnmarshal { ID := "call_1", Name := "nosuch.tool", Arguments := "\x7b\x7d" }).1
        = some { Content := [{ Type_ := "text", Text := "调用工具失败：mcp client不存在：nosuch" }],
                 IsError := false }
      ∧ ((scriptedAgent calcProviders unknownProviderScript).processQueryWithTools
          scriptedChatClient exampleUnmarshal "use the tool" []).1
        = .ok { Content := "no such tool", ToolCalls := [] }
      ∧ appendedResults ((scriptedAgent calcProviders unknownProviderScript).processQueryWithTools
          scriptedChatClient exampleUnmarshal "use the tool" []).2.trace
        = [("call_1", "调用工具失败：mcp client不存在：nosuch")] := by
  refine ⟨by rfl, by rfl, by rfl, by decide⟩

/-! ## The tool list of a chat request -/

/-- Every `Chat` sends exactly one request; its tool list is the list the
client was constructed with, which `Chat` leaves in place. -/
theorem Chat_request_tools (transport : ChatTransport) (c : OpenaiClient) (prompt : String) :
    ∃ req : ChatCompletionRequest,
      (OpenaiClient.Chat transport c prompt).2.sent = c.sent ++ [req]
        ∧ req.Tools = c.tools
        ∧ (OpenaiClient.Chat transport c prompt).2.tools = c.tools := by
  unfold OpenaiClient.Chat
  dsimp only
  split
  · exact ⟨_, rfl, rfl, rfl⟩
  · split
    · exact ⟨_, rfl, rfl, rfl⟩
    · exact ⟨_, rfl, rfl, rfl⟩

/-- C5 (code evaluated at the failing input): the agent of `main` with the
calculator registered answers the query `hi`; the catalogue `getAllTools`
computes for that Query holds the calculator's tool, but the one chat request
that is sent carries the empty tool list the client was created with. -/
theorem Query_request_without_catalogue :
    (mainAgent.Query (openaiCollaborators helloTransport) "hi").1
        = (some { Content := "hello", ToolCalls := [] }, none)
      ∧ mainAgent.getAllTools
        = [{ Name := listedAddName, Description := "adds two numbers", InputSchema := "" }]
      ∧ (mainAgent.Query (openaiCollaborators helloTransport) "hi").2.chatClient.sent
        = [{ Messages := [{ Role := "user", Content := "hi", ToolCalls := [], ToolCallID := "" }],
             Tools := [] }] := by
  refine ⟨by rfl, by decide, by decide⟩

/-! ## The retry policy of Query -/

theorem afterAttempts_shift {σ F : Type} (env : Collaborators σ F) (q : String)
    (tools : List Tool) (a : Agent σ F) (i : Nat) :
    Agent.afterAttempts env q tools
        (a.processQueryWithTools env.chat env.Unmarshal q tools).2 i
      = Agent.afterAttempts env q tools a (i + 1) := by
  induction i with
  | zero => rfl
  | succ i ih =>
    show (Agent.processQueryWithTools _ _ (Agent.afterAttempts env q tools _ i) _ _).2 = _
    rw [ih]
    rfl

theorem attemptResult_shift {σ F : Type} (env : Collaborators σ F) (q : String)
    (tools : List Tool) (a : Agent σ F) (i : Nat) :
    Agent.attemptResult env q tools
        (a.processQueryWithTools env.chat env.Unmarshal q tools).2 i
      = Agent.attemptResult env q tools a (i + 1) := by
  unfold Agent.attemptResult
  rw [afterAttempts_shift]

/-- The retry loop with `n` iterations: with `n = 0` it returns its two
variables untouched; otherwise it stops at the first attempt without error and
returns its response, or runs all `n` attempts and returns the last error. -/
theorem retryLoop_spec {σ F : Type} (env : Collaborators σ F) (q : String) (tools : List Tool)
    (n : Nat) (a : Agent σ F) (r0 : Option ChatResponse) (e0 : Option String) :
    (n = 0 ∧ Agent.retryLoop env q tools n a r0 e0 = ((r0, e0), a))
      ∨ (∃ k, k < n ∧ (∀ j, j < k → ∃ e, Agent.attemptResult env q tools a j = .error e)
          ∧ ∃ resp, Agent.attemptResult env q tools a k = .ok resp
            ∧ Agent.retryLoop env q tools n a r0 e0
              = ((some resp, none), Agent.afterAttempts env q tools a (k + 1)))
      ∨ (0 < n ∧ (∀ j, j < n → ∃ e, Agent.attemptResult env q tools a j = .error e)
          ∧ ∃ e, Agent.attemptResult env q tools a (n - 1) = .error e
            ∧ Agent.retryLoop env q tools n a r0 e0
              = ((none, some e), Agent.afterAttempts env q tools a n)) := by
  induction n generalizing a r0 e0 with
  | zero => exact Or.inl ⟨rfl, rfl⟩
  | succ n ih =>
    right
    cases hp : a.processQueryWithTools env.chat env.Unmarshal q tools with
    | mk res a1 =>
      have ha1 : a1 = (a.processQueryWithTools env.chat env.Unmarshal q tools).2 := by rw [hp]
      have hres : Agent.attemptResult env q tools a 0 = res := by
        unfold Agent.attemptResult Agent.afterAttempts
        rw [hp]
      cases res with
      | ok resp =>
        left
        refine ⟨0, Nat.succ_pos n, fun j hj => absurd hj (Nat.not_lt_zero j), resp, hres, ?_⟩
        unfold Agent.retryLoop
        rw [hp]
        unfold Agent.afterAttempts Agent.afterAttempts
        rw [hp]
      | error err =>
        have hloop : Agent.retryLoop env q tools (n + 1) a r0 e0
            = Agent.retryLoop env q tools n a1 none (some err) := by
          conv_lhs => unfold Agent.retryLoop
          rw [hp]
        rcases ih a1 none (some err) with ⟨hn, hr⟩ | ⟨k, hk, hbefore, resp, hok, hr⟩ | ⟨hn, hall, e, he, hr⟩
        · right
          subst hn
          refine ⟨Nat.succ_pos 0, ?_, err, hres, ?_⟩
          · intro j hj
            have : j = 0 := by omega
            subst this
            exact ⟨err, hres⟩
          · rw [hloop, hr, ha1]
            rfl
        · left
          refine ⟨k + 1, by omega, ?_, resp, ?_, ?_⟩
          · intro j hj
            cases j with
            | zero => exact ⟨err, hres⟩
            | succ j =>
              obtain ⟨e, he⟩ := hbefore j (by omega)
              exact ⟨e, by rw [← attemptResult_shift, ← ha1]; exact he⟩
          · rw [← attemptResult_shift, ← ha1]; exact hok
          · rw [hloop, hr, ha1, afterAttempts_shift]
        · right
          refine ⟨Nat.succ_pos n, ?_, e, ?_, ?_⟩
          · intro j hj
            cases j with
            | zero => exact ⟨err, hres⟩
            | succ j =>
              obtain ⟨e2, he2⟩ := hall j (by omega)
              exact ⟨e2, by rw [← attemptResult_shift, ← ha1]; exact he2⟩
          · have hidx : n + 1 - 1 = (n - 1) + 1 := by omega
            rw [hidx, ← attemptResult_shift, ← ha1]; exact he
          · rw [hloop, hr, ha1, afterAttempts_shift]

/-- Retrieval touches nothing of the agent but the retriever. -/
theorem retrieveRelevantDocuments_state {σ F : Type} (env : Collaborators σ F) (a : Agent σ F)
    (query : String) :
    ∃ r1, (a.retrieveRelevantDocuments env query).2 = { a with embeddingClient := r1 } := by
  unfold Agent.retrieveRelevantDocuments
  split
  · exact ⟨a.embeddingClient, rfl⟩
  · split
    · exact ⟨_, rfl⟩
    · split
      · exact ⟨_, rfl⟩
      · exact ⟨_, rfl⟩

/-- The constructor `NewAgent` replaces a retry bound that is not positive by 3. -/
theorem NewAgent_maxRetries {σ F : Type} (cc : ChatClient σ) (config : AgentConfig) (s : σ)
    (r : Retriever F) :
    (NewAgent cc config s r).maxRetries = (if config.MaxRetries ≤ 0 then 3 else config.MaxRetries) :=
  rfl

/-- C6: for an agent whose retry bound is the one `NewAgent` computes (3 when
the configured value is not positive) and a non-blank query, `Query` runs the
attempts one after another, stops at the first attempt `k + 1 ≤ maxRetries`
that returns no error and returns its response with no error; or all
`maxRetries` attempts fail and it returns no response and an error that names
`maxRetries` and ends with the last attempt's error. It never returns neither
response nor error. -/
theorem Query_retry_policy {σ F : Type} (env : Collaborators σ F) (config : AgentConfig) (s : σ)
    (r : Retriever F) (a : Agent σ F) (query : String)
    (hbuilt : a.maxRetries = (NewAgent env.chat config s r).maxRetries)
    (hquery : TrimSpace query ≠ "") :
    a.maxRetries = (if config.MaxRetries ≤ 0 then 3 else config.MaxRetries)
      ∧ 1 ≤ a.maxRetries
      ∧ ((∃ k : Nat, (k : Int) < a.maxRetries
            ∧ (∀ j, j < k → ∃ e, a.queryAttempt env query j = .error e)
            ∧ ∃ resp, a.queryAttempt env query k = .ok resp
              ∧ a.Query env query = ((some resp, none), a.queryAfterAttempts env query (k + 1)))
          ∨ ((∀ j : Nat, (j : Int) < a.maxRetries → ∃ e, a.queryAttempt env query j = .error e)
            ∧ ∃ e, a.queryAttempt env query (a.maxRetries.toNat - 1) = .error e
              ∧ a.Query env query
                = ((none, some ("经过" ++ toString a.maxRetries ++ "次尝试后查询失败:" ++ e)),
                    a.queryAfterAttempts env query a.maxRetries.toNat)))
      ∧ (a.Query env query).1 ≠ (none, none) := by
  have hmax : a.maxRetries = (if config.MaxRetries ≤ 0 then 3 else config.MaxRetries) := by
    rw [hbuilt, NewAgent_maxRetries]
  have hpos : 1 ≤ a.maxRetries := by
    rw [hmax]; split <;> omega
  obtain ⟨r1, hr1⟩ := retrieveRelevantDocuments_state env a query
  have hkeep : (a.retrieveRelevantDocuments env query).2.maxRetries = a.maxRetries := by
    rw [hr1]
  have hn : 0 < a.maxRetries.toNat := by omega
  have hcast : ((a.maxRetries.toNat : Nat) : Int) = a.maxRetries := Int.toNat_of_nonneg (by omega)
  have hQ : a.Query env query
      = (match Agent.retryLoop env (a.enhancedQueryOf env query)
            (a.retrieveRelevantDocuments env query).2.getAllTools a.maxRetries.toNat
            (a.retrieveRelevantDocuments env query).2 none none with
          | ((_, some lastErr), a1) =>
            ((none, some ("经过" ++ toString a.maxRetries ++ "次尝试后查询失败:" ++ lastErr)), a1)
          | ((response, none), a1) => ((response, none), a1)) := by
    unfold Agent.Query
    rw [if_neg hquery]
    simp only [hkeep]
    rfl
  have hcases : (∃ k : Nat, (k : Int) < a.maxRetries
            ∧ (∀ j, j < k → ∃ e, a.queryAttempt env query j = .error e)
            ∧ ∃ resp, a.queryAttempt env query k = .ok resp
              ∧ a.Query env query = ((some resp, none), a.queryAfterAttempts env query (k + 1)))
          ∨ ((∀ j : Nat, (j : Int) < a.maxRetries → ∃ e, a.queryAttempt env query j = .error e)
            ∧ ∃ e, a.queryAttempt env query (a.maxRetries.toNat - 1) = .error e
              ∧ a.Query env query
                = ((none, some ("经过" ++ toString a.maxRetries ++ "次尝试后查询失败:" ++ e)),
                    a.queryAfterAttempts env query a.maxRetries.toNat)) := by
    rcases retryLoop_spec env (a.enhancedQueryOf env query)
        (a.retrieveRelevantDocuments env query).2.getAllTools a.maxRetries.toNat
        (a.retrieveRelevantDocuments env query).2 none none with
      ⟨h0, -⟩ | ⟨k, hk, hbefore, resp, hok, hr⟩ | ⟨-, hall, e, he, hr⟩
    · omega
    · left
      refine ⟨k, by omega, hbefore, resp, hok, ?_⟩
      rw [hQ, hr]
      rfl
    · right
      refine ⟨fun j hj => hall j (by omega), e, he, ?_⟩
      rw [hQ, hr]
      rfl
  refine ⟨hmax, hpos, hcases, ?_⟩
  rcases hcases with ⟨k, -, -, resp, -, hr⟩ | ⟨-, e, -, hr⟩
  · rw [hr]; simp
  · rw [hr]; simp

/-- C6 (witness): the retry policy applied to the agent of `main` with the
default configuration and the query `hi`. -/
theorem Query_retry_policy_witness :
    mainAgent.maxRetries
        = (NewAgent (openaiCollaborators helloTransport).chat defaultConfig freshClient
            emptyRetriever).maxRetries
      ∧ TrimSpace "hi" ≠ ""
      ∧ mainAgent.maxRetries = (if defaultConfig.MaxRetries ≤ 0 then 3 else defaultConfig.MaxRetries)
      ∧ 1 ≤ mainAgent.maxRetries
      ∧ ((∃ k : Nat, (k : Int) < mainAgent.maxRetries
            ∧ (∀ j, j < k →
                ∃ e, mainAgent.queryAttempt (openaiCollaborators helloTransport) "hi" j = .error e)
            ∧ ∃ resp, mainAgent.queryAttempt (openaiCollaborators helloTransport) "hi" k = .ok resp
              ∧ mainAgent.Query (openaiCollaborators helloTransport) "hi"
                = ((some resp, none),
                    mainAgent.queryAfterAttempts (openaiCollaborators helloTransport) "hi" (k + 1)))
          ∨ ((∀ j : Nat, (j : Int) < mainAgent.maxRetries →
                ∃ e, mainAgent.queryAttempt (openaiCollaborators helloTransport) "hi" j = .error e)
            ∧ ∃ e, mainAgent.queryAttempt (openaiCollaborators helloTransport) "hi"
                  (mainAgent.maxRetries.toNat - 1) = .error e
              ∧ mainAgent.Query (openaiCollaborators helloTransport) "hi"
                = ((none, some ("经过" ++ toString mainAgent.maxRetries ++ "次尝试后查询失败:" ++ e)),
                    mainAgent.queryAfterAttempts (openaiCollaborators helloTransport) "hi"
                      mainAgent.maxRetries.toNat)))
      ∧ (mainAgent.Query (openaiCollaborators helloTransport) "hi").1 ≠ (none, none) :=
  ⟨by rfl, by decide,
    Query_retry_policy (openaiCollaborators helloTransport) defaultConfig freshClient
      emptyRetriever mainAgent "hi" (by rfl) (by decide)⟩

/-! ## Transient stream failures -/

theorem assistantCount_append_user (messages : List ChatCompletionMessage) (prompt : String) :
    assistantCount (if prompt ≠ "" then
        messages ++ [{ Role := ChatMessageRoleUser, Content := prompt, ToolCalls := [], ToolCallID := "" }]
      else messages) = assistantCount messages := by
  unfold assistantCount
  split
  · rw [List.countP_append]
    have : List.countP (fun msg : ChatCompletionMessage => msg.Role == ChatMessageRoleAssistant)
        [{ Role := ChatMessageRoleUser, Content := prompt, ToolCalls := [], ToolCallID := "" }] = 0 := by
      simp [List.countP_cons, ChatMessageRoleUser, ChatMessageRoleAssistant]
    omega
  · rfl

/-- A `Chat` whose stream fails returns an error, has sent one request, and
leaves the number of assistant messages as it was. -/
theorem Chat_stream_fails (transport : ChatTransport) (c : OpenaiClient) (prompt : String)
    (h : ∀ req, streamFails (transport c.sent.length req) = true) :
    (∃ e, (OpenaiClient.Chat transport c prompt).1 = .error e)
      ∧ (OpenaiClient.Chat transport c prompt).2.sent.length = c.sent.length + 1
      ∧ assistantCount (OpenaiClient.Chat transport c prompt).2.messages
        = assistantCount c.messages := by
  unfold OpenaiClient.Chat
  dsimp only
  split
  · exact ⟨⟨_, rfl⟩, by simp, assistantCount_append_user _ _⟩
  · rename_i stream hstream
    have hf := h { Messages := if prompt ≠ "" then
        c.messages ++ [{ Role := ChatMessageRoleUser, Content := prompt, ToolCalls := [], ToolCallID := "" }]
      else c.messages, Tools := c.tools }
    rw [hstream] at hf
    split
    · exact ⟨⟨_, rfl⟩, by simp, assistantCount_append_user _ _⟩
    · rename_i hnone
      simp [streamFails, hnone] at hf

/-- A `Chat` whose stream ends with end-of-stream succeeds, has sent one
request, and has appended exactly one assistant message. -/
theorem Chat_stream_completes (transport : ChatTransport) (c : OpenaiClient) (prompt : String)
    (h : ∀ req, streamFails (transport c.sent.length req) = false) :
    (∃ resp, (OpenaiClient.Chat transport c prompt).1 = .ok resp ∧ resp.ToolCalls = [])
      ∧ (OpenaiClient.Chat transport c prompt).2.sent.length = c.sent.length + 1
      ∧ assistantCount (OpenaiClient.Chat transport c prompt).2.messages
        = assistantCount c.messages + 1 := by
  have hf := h { Messages := if prompt ≠ "" then
      c.messages ++ [{ Role := ChatMessageRoleUser, Content := prompt, ToolCalls := [], ToolCallID := "" }]
    else c.messages, Tools := c.tools }
  unfold OpenaiClient.Chat
  dsimp only
  split
  · rename_i err herr
    rw [herr] at hf
    simp [streamFails] at hf
  · rename_i stream hstream
    rw [hstream] at hf
    split
    · rename_i err hsome
      simp [streamFails, hsome] at hf
    · refine ⟨⟨_, rfl, rfl⟩, by simp, ?_⟩
      show assistantCount (_ ++ [_]) = _
      unfold assistantCount
      rw [List.countP_append]
      have h1 := assistantCount_append_user c.messages prompt
      unfold assistantCount at h1
      rw [h1]
      simp [List.countP_cons, ChatMessageRoleAssistant]

theorem attempt_stream_fails {F : Type} (transport : ChatTransport)
    (unmarshal : String → Except String Arguments) (a : Agent OpenaiClient F) (q : String)
    (tools : List Tool)
    (h : ∀ req, streamFails (transport a.chatClient.sent.length req) = true) :
    ∃ e a1, a.processQueryWithTools (openaiChatClient transport) unmarshal q tools = (.error e, a1)
      ∧ a1.chatClient.sent.length = a.chatClient.sent.length + 1
      ∧ assistantCount a1.chatClient.messages = assistantCount a.chatClient.messages
      ∧ a1.maxRetries = a.maxRetries := by
  obtain ⟨⟨e, he⟩, hs, hc⟩ := Chat_stream_fails transport a.chatClient q h
  unfold Agent.processQueryWithTools
  rw [show (openaiChatClient transport).Chat = OpenaiClient.Chat transport from rfl]
  cases hchat : OpenaiClient.Chat transport a.chatClient q with
  | mk res s1 =>
    rw [hchat] at he hs hc
    simp only at he hs hc
    subst he
    exact ⟨_, _, rfl, hs, hc, rfl⟩

theorem attempt_stream_completes {F : Type} (transport : ChatTransport)
    (unmarshal : String → Except String Arguments) (a : Agent OpenaiClient F) (q : String)
    (tools : List Tool)
    (h : ∀ req, streamFails (transport a.chatClient.sent.length req) = false) :
    ∃ resp a1, a.processQueryWithTools (openaiChatClient transport) unmarshal q tools = (.ok resp, a1)
      ∧ a1.chatClient.sent.length = a.chatClient.sent.length + 1
      ∧ assistantCount a1.chatClient.messages = assistantCount a.chatClient.messages + 1 := by
  obtain ⟨⟨resp, he, hnil⟩, hs, hc⟩ := Chat_stream_completes transport a.chatClient q h
  unfold Agent.processQueryWithTools
  rw [show (openaiChatClient transport).Chat = OpenaiClient.Chat transport from rfl]
  cases hchat : OpenaiClient.Chat transport a.chatClient q with
  | mk res s1 =>
    rw [hchat] at he hs hc
    simp only at he hs hc
    subst he
    simp only [hnil, List.length_nil, gt_iff_lt, lt_self_iff_false, if_false]
    exact ⟨_, _, rfl, hs, hc⟩

theorem retryLoop_step_error {σ F : Type} (env : Collaborators σ F) (q : String)
    (tools : List Tool) (n : Nat) (a a1 : Agent σ F) (r0 : Option ChatResponse)
    (e0 : Option String) (e : String)
    (h : a.processQueryWithTools env.chat env.Unmarshal q tools = (.error e, a1)) :
    Agent.retryLoop env q tools (n + 1) a r0 e0 = Agent.retryLoop env q tools n a1 none (some e) := by
  conv_lhs => unfold Agent.retryLoop
  rw [h]

theorem retryLoop_step_ok {σ F : Type} (env : Collaborators σ F) (q : String)
    (tools : List Tool) (n : Nat) (a a1 : Agent σ F) (r0 : Option ChatResponse)
    (e0 : Option String) (resp : ChatResponse)
    (h : a.processQueryWithTools env.chat env.Unmarshal q tools = (.ok resp, a1)) :
    Agent.retryLoop env q tools (n + 1) a r0 e0 = ((some resp, none), a1) := by
  conv_lhs => unfold Agent.retryLoop
  rw [h]

/-- C7: with `OpenaiClient` as the chat client and a retry bound of at least
three, a Query whose first two chat round trips fail in the stream and whose
third completes returns its response with no error after three requests, and
the history holds exactly one assistant-role message more than before. -/
theorem Query_succeeds_on_third_attempt {F : Type} (env : Collaborators OpenaiClient F)
    (transport : ChatTransport) (a : Agent OpenaiClient F) (query : String)
    (henv : env.chat = openaiChatClient transport)
    (hquery : TrimSpace query ≠ "")
    (hretries : 3 ≤ a.maxRetries)
    (h1 : ∀ req, streamFails (transport a.chatClient.sent.length req) = true)
    (h2 : ∀ req, streamFails (transport (a.chatClient.sent.length + 1) req) = true)
    (h3 : ∀ req, streamFails (transport (a.chatClient.sent.length + 2) req) = false) :
    (∃ resp, (a.Query env query).1 = (some resp, none))
      ∧ (a.Query env query).2.chatClient.sent.length = a.chatClient.sent.length + 3
      ∧ assistantCount (a.Query env query).2.chatClient.messages
        = assistantCount a.chatClient.messages + 1 := by
  obtain ⟨r1, hr1⟩ := retrieveRelevantDocuments_state env a query
  obtain ⟨m, hm⟩ : ∃ m : Nat, a.maxRetries.toNat = m + 3 := ⟨a.maxRetries.toNat - 3, by omega⟩
  have hn : (a.retrieveRelevantDocuments env query).2.maxRetries.toNat = m + 3 := by
    rw [hr1]; exact hm
  have hc0 : (a.retrieveRelevantDocuments env query).2.chatClient = a.chatClient := by
    rw [hr1]
  obtain ⟨e1, a1, hp1, hs1, hm1, -⟩ := attempt_stream_fails transport env.Unmarshal
    (a.retrieveRelevantDocuments env query).2 (a.enhancedQueryOf env query)
    (a.retrieveRelevantDocuments env query).2.getAllTools (by rw [hc0]; exact h1)
  obtain ⟨e2, a2, hp2, hs2, hm2, -⟩ := attempt_stream_fails transport env.Unmarshal
    a1 (a.enhancedQueryOf env query)
    (a.retrieveRelevantDocuments env query).2.getAllTools (by rw [hs1, hc0]; exact h2)
  obtain ⟨resp, a3, hp3, hs3, hm3⟩ := attempt_stream_completes transport env.Unmarshal
    a2 (a.enhancedQueryOf env query)
    (a.retrieveRelevantDocuments env query).2.getAllTools (by rw [hs2, hs1, hc0]; exact h3)
  rw [← henv] at hp1 hp2 hp3
  have hloop : Agent.retryLoop env (a.enhancedQueryOf env query)
      (a.retrieveRelevantDocuments env query).2.getAllTools (m + 3)
      (a.retrieveRelevantDocuments env query).2 none none = ((some resp, none), a3) := by
    rw [retryLoop_step_error env _ _ _ _ a1 _ _ e1 hp1,
      retryLoop_step_error env _ _ _ _ a2 _ _ e2 hp2,
      retryLoop_step_ok env _ _ _ _ a3 _ _ resp hp3]
  have hQ : a.Query env query = ((some resp, none), a3) := by
    unfold Agent.Query
    rw [if_neg hquery]
    simp only [hn]
    have hloop2 := hloop
    unfold Agent.enhancedQueryOf at hloop2
    rw [hloop2]
  rw [hQ]
  refine ⟨⟨resp, rfl⟩, ?_, ?_⟩
  · show a3.chatClient.sent.length = _
    rw [hs3, hs2, hs1, hc0]
  · show assistantCount a3.chatClient.messages = _
    rw [hm3, hm2, hm1, hc0]

/-- C7 (witness): the agent of `main` over a transport that refuses the first
request, breaks the second stream and completes the third. -/
theorem Query_succeeds_on_third_attempt_witness :
    (openaiCollaborators flakyTransport).chat = openaiChatClient flakyTransport
      ∧ TrimSpace "hi" ≠ ""
      ∧ 3 ≤ mainAgent.maxRetries
      ∧ (∀ req, streamFails (flakyTransport mainAgent.chatClient.sent.length req) = true)
      ∧ (∀ req, streamFails (flakyTransport (mainAgent.chatClient.sent.length + 1) req) = true)
      ∧ (∀ req, streamFails (flakyTransport (mainAgent.chatClient.sent.length + 2) req) = false)
      ∧ (∃ resp, (mainAgent.Query (openaiCollaborators flakyTransport) "hi").1 = (some resp, none))
      ∧ (mainAgent.Query (openaiCollaborators flakyTransport) "hi").2.chatClient.sent.length
        = mainAgent.chatClient.sent.length + 3
      ∧ assistantCount (mainAgent.Query (openaiCollaborators flakyTransport) "hi").2.chatClient.messages
        = assistantCount mainAgent.chatClient.messages + 1 :=
  ⟨rfl, by decide, by decide, fun _ => rfl, fun _ => rfl, fun _ => rfl,
    Query_succeeds_on_third_attempt (openaiCollaborators flakyTransport) flakyTransport mainAgent
      "hi" rfl (by decide) (by decide) (fun _ => rfl) (fun _ => rfl) (fun _ => rfl)⟩

/-! ## Batch ingestion -/

theorem embedEvents_append (l1 l2 : List Event) :
    embedEvents (l1 ++ l2) = embedEvents l1 ++ embedEvents l2 := by
  induction l1 with
  | nil => rfl
  | cons e rest ih => cases e <;> simp [embedEvents, ih]

/-- The method `embed` never touches the store. -/
theorem embed_store {F : Type} (api : EmbeddingAPI F) (r : Retriever F) (text : String) :
    (Retriever.embed api r text).2.vectorStore = r.vectorStore := by
  unfold Retriever.embed
  split
  · rfl
  · dsimp only
    split
    · rfl
    · rfl
    · split <;> rfl

/-- What `embed` returns without error is a non-empty vector for a non-empty
text. -/
theorem embed_ok {F : Type} (api : EmbeddingAPI F) (r : Retriever F) (text : String)
    (embedding : List F) (h : (Retriever.embed api r text).1 = .ok embedding) :
    text ≠ "" ∧ embedding.length ≠ 0 := by
  unfold Retriever.embed at h
  split at h
  · cases h
  · rename_i htext
    dsimp only at h
    split at h
    · cases h
    · cases h
    · split at h
      · cases h
      · rename_i hlen
        cases h
        exact ⟨htext, hlen⟩

/-- The method `EmbedDocument` adds one record to the store when it succeeds and none when
it fails. -/
theorem EmbedDocument_size {F : Type} (api : EmbeddingAPI F) (r : Retriever F) (document : String) :
    (∃ embedding, (Retriever.EmbedDocument api r document).1 = .ok embedding
        ∧ (Retriever.EmbedDocument api r document).2.vectorStore.Size = r.vectorStore.Size + 1)
      ∨ (∃ err, (Retriever.EmbedDocument api r document).1 = .error err
        ∧ (Retriever.EmbedDocument api r document).2.vectorStore.Size = r.vectorStore.Size) := by
  have hstore := embed_store api r document
  have hok := embed_ok api r document
  unfold Retriever.EmbedDocument
  cases he : Retriever.embed api r document with
  | mk res r1 =>
    rw [he] at hstore hok
    simp only at hstore hok
    cases res with
    | error err =>
      right
      exact ⟨_, rfl, by rw [← hstore]⟩
    | ok embedding =>
      obtain ⟨htext, hlen⟩ := hok embedding rfl
      left
      refine ⟨embedding, ?_, ?_⟩
      · simp [InMemoryVectorStore.AddEmbedding, hlen, htext]
      · simp [InMemoryVectorStore.AddEmbedding, hlen, htext, InMemoryVectorStore.Size, hstore]

/-- What one `EmbedDocument` call does to the retriever: a successful call
appends the record of its vector and document, a failed call appends nothing;
and the provider is asked exactly when the document is not empty. -/
theorem EmbedDocument_effect {F : Type} (api : EmbeddingAPI F) (r : Retriever F)
    (document : String) :
    (Retriever.EmbedDocument api r document).2.vectorStore.items
        = r.vectorStore.items
          ++ (match (Retriever.EmbedDocument api r document).1 with
              | .ok embedding => [{ Embedding := embedding, Document := document, Metadata := [] }]
              | .error _ => [])
      ∧ (Retriever.EmbedDocument api r document).2.requests
        = r.requests ++ (if document = "" then [] else [document]) := by
  have hstore := embed_store api r document
  have hok := embed_ok api r document
  have hreq : (Retriever.embed api r document).2.requests
      = r.requests ++ (if document = "" then [] else [document]) := by
    unfold Retriever.embed
    split
    · simp
    · dsimp only
      split
      · rfl
      · rfl
      · split <;> rfl
  unfold Retriever.EmbedDocument
  cases he : Retriever.embed api r document with
  | mk res r1 =>
    rw [he] at hstore hok hreq
    simp only at hstore hok hreq
    cases res with
    | error err => exact ⟨by simp [hstore], hreq⟩
    | ok embedding =>
      obtain ⟨htext, hlen⟩ := hok embedding rfl
      constructor
      · simp [InMemoryVectorStore.AddEmbedding, hlen, htext, hstore]
      · rw [if_neg htext] at hreq
        simp [InMemoryVectorStore.AddEmbedding, hlen, htext, hreq]

/-- The goroutines of a schedule, as `AddKnowledge` runs them, make exactly the
`EmbedDocument` calls of `embedCalls`: the retriever ends as the calls leave
it, every call is recorded, and `errors` grows by the entries of the failed
calls, in order. -/
theorem embedWorker_foldl_eq {σ F : Type} (api : EmbeddingAPI F) (documents : List String)
    (sched : List Nat) (st : Agent σ F × List String) :
    sched.foldl (Agent.embedWorker api documents) st
      = ({ st.1 with
            embeddingClient := (embedCalls api documents st.1.embeddingClient sched).2
            trace := st.1.trace
              ++ (embedCalls api documents st.1.embeddingClient sched).1.map
                  (fun call => Event.embedDocument call.1 call.2.1 (callFailed call)) },
          st.2 ++ (embedCalls api documents st.1.embeddingClient sched).1.filterMap errorEntry) := by
  induction sched generalizing st with
  | nil => simp [embedCalls]
  | cons index rest ih =>
    rw [List.foldl_cons, ih]
    unfold Agent.embedWorker
    conv_rhs => unfold embedCalls
    cases hget : documents[index]? with
    | none => rfl
    | some document =>
      dsimp only
      cases hcall : Retriever.EmbedDocument api st.1.embeddingClient document with
      | mk res r1 =>
        cases res with
        | error err => simp [callFailed, errorEntry]
        | ok embedding => simp [callFailed, errorEntry]

/-- The calls of `embedCalls` for a schedule of valid indices: one call per
scheduled index, on the document of that index; the store ends with the records
of the successful calls appended in order; and the provider was asked once for
every document that is not empty. -/
theorem embedCalls_spec {F : Type} (api : EmbeddingAPI F) (documents : List String)
    (sched : List Nat) (r : Retriever F) (hvalid : ∀ i ∈ sched, i < documents.length) :
    (embedCalls api documents r sched).1.map (fun call => call.1) = sched
      ∧ (∀ call ∈ (embedCalls api documents r sched).1, documents[call.1]? = some call.2.1)
      ∧ (embedCalls api documents r sched).2.vectorStore.items
        = r.vectorStore.items ++ (embedCalls api documents r sched).1.filterMap storedRecord
      ∧ (embedCalls api documents r sched).2.requests
        = r.requests
          ++ ((embedCalls api documents r sched).1.map (fun call => call.2.1)).filter
              (fun document => document != "") := by
  induction sched generalizing r with
  | nil => simp [embedCalls]
  | cons index rest ih =>
    have hindex : index < documents.length := hvalid index (by simp)
    have hget : documents[index]? = some documents[index] := List.getElem?_eq_getElem hindex
    obtain ⟨h1, h2, h3, h4⟩ := ih (Retriever.EmbedDocument api r documents[index]).2
      (fun i hi => hvalid i (by simp [hi]))
    obtain ⟨e1, e2⟩ := EmbedDocument_effect api r documents[index]
    unfold embedCalls
    rw [hget]
    dsimp only
    refine ⟨by simp [h1], ?_, ?_, ?_⟩
    · intro call hcall
      rcases List.mem_cons.mp hcall with rfl | hcall
      · exact hget
      · exact h2 call hcall
    · rw [h3, e1]
      cases hres : (Retriever.EmbedDocument api r documents[index]).1 with
      | error err => simp [storedRecord, hres]
      | ok embedding => simp [storedRecord, hres]
    · rw [h4, e2]
      by_cases hdoc : documents[index] = "" <;> simp [hdoc]

/-- In a list of calls, the failed ones and the successful ones add up. -/
theorem calls_failed_add_stored {F : Type} (calls : List (Nat × String × Except String (List F))) :
    (calls.filterMap errorEntry).length = calls.countP callFailed
      ∧ (calls.filterMap storedRecord).length + calls.countP callFailed = calls.length := by
  induction calls with
  | nil => simp
  | cons call rest ih =>
    obtain ⟨i1, i2⟩ := ih
    obtain ⟨index, document, res⟩ := call
    cases res with
    | error err =>
      constructor
      · simp [errorEntry, callFailed, List.countP_cons, i1]
      · simp [storedRecord, callFailed, List.countP_cons]
        omega
    | ok embedding =>
      constructor
      · simp [errorEntry, callFailed, List.countP_cons, i1]
      · simp [storedRecord, callFailed, List.countP_cons]
        omega

theorem embedEvents_map_calls {F : Type} (calls : List (Nat × String × Except String (List F))) :
    embedEvents (calls.map (fun call => Event.embedDocument call.1 call.2.1 (callFailed call)))
      = calls.map (fun call => (call.1, call.2.1, callFailed call)) := by
  induction calls with
  | nil => rfl
  | cons call rest ih => simp [embedEvents, ih]

/-- C8: for a non-empty list of `N` documents and any schedule of the `N`
goroutines, `AddKnowledge` makes exactly the `EmbedDocument` calls of the
schedule, one per document index, each on its document and on the retriever the
call before it left, whatever the earlier calls returned. With `M` the number
of these calls that returned an error: the returned error is nil exactly when
`M = 0` and else bundles the `M` entries of the failed calls; the store ends
with the records of the `N - M` successful calls appended, so `Size` grows by
`N - M`; and the provider was asked once for every non-empty document. -/
theorem AddKnowledge_counts {σ F : Type} (api : EmbeddingAPI F) (a : Agent σ F)
    (documents : List String) (sched : List Nat)
    (hne : documents ≠ [])
    (hsched : sched.Perm (List.range documents.length)) :
    ∃ (calls : List (Nat × String × Except String (List F))) (final : Retriever F),
      embedCalls api documents a.embeddingClient sched = (calls, final)
        ∧ (calls.map (fun call => call.1)).Perm (List.range documents.length)
        ∧ (∀ call ∈ calls, documents[call.1]? = some call.2.1)
        ∧ calls.length = documents.length
        ∧ (a.AddKnowledge api documents sched).2.embeddingClient = final
        ∧ embedEvents (a.AddKnowledge api documents sched).2.trace
          = embedEvents a.trace ++ calls.map (fun call => (call.1, call.2.1, callFailed call))
        ∧ ((a.AddKnowledge api documents sched).1 = none ↔ calls.countP callFailed = 0)
        ∧ (0 < calls.countP callFailed →
            (a.AddKnowledge api documents sched).1
              = some ("添加文档失败：" ++ ";".intercalate (calls.filterMap errorEntry)))
        ∧ (calls.filterMap errorEntry).length = calls.countP callFailed
        ∧ final.vectorStore.items
          = a.embeddingClient.vectorStore.items ++ calls.filterMap storedRecord
        ∧ final.vectorStore.Size
          = a.embeddingClient.vectorStore.Size + (documents.length - calls.countP callFailed)
        ∧ final.requests
          = a.embeddingClient.requests
            ++ (calls.map (fun call => call.2.1)).filter (fun document => document != "") := by
  have hvalid : ∀ i ∈ sched, i < documents.length := fun i hi =>
    List.mem_range.mp ((hsched.mem_iff).mp hi)
  have hlen : sched.length = documents.length := by
    rw [hsched.length_eq, List.length_range]
  have hN : documents.length ≠ 0 := fun h => hne (List.length_eq_zero.mp h)
  obtain ⟨c1, c2, c3, c4⟩ := embedCalls_spec api documents sched a.embeddingClient hvalid
  obtain ⟨k1, k2⟩ := calls_failed_add_stored (embedCalls api documents a.embeddingClient sched).1
  have hrun := embedWorker_foldl_eq api documents sched ((a, []) : Agent σ F × List String)
  have hcalls : (embedCalls api documents a.embeddingClient sched).1.length = documents.length := by
    rw [← hlen, ← congrArg List.length c1, List.length_map]
  refine ⟨(embedCalls api documents a.embeddingClient sched).1,
    (embedCalls api documents a.embeddingClient sched).2, rfl, ?_, c2, hcalls, ?_, ?_, ?_, ?_,
    k1, c3, ?_, c4⟩
  · rw [c1]; exact hsched
  · unfold Agent.AddKnowledge Agent.embedAll
    rw [if_neg hN, hrun]
    dsimp only
    split <;> rfl
  · unfold Agent.AddKnowledge Agent.embedAll
    rw [if_neg hN, hrun]
    dsimp only
    split <;> simp [embedEvents_append, embedEvents_map_calls]
  · unfold Agent.AddKnowledge Agent.embedAll
    rw [if_neg hN, hrun]
    simp only [List.nil_append, k1]
    by_cases hz : List.countP callFailed (embedCalls api documents a.embeddingClient sched).1 = 0
    · simp [hz]
    · have : 0 < List.countP callFailed (embedCalls api documents a.embeddingClient sched).1 :=
        Nat.pos_of_ne_zero hz
      simp [this, hz]
  · intro hpos
    unfold Agent.AddKnowledge Agent.embedAll
    rw [if_neg hN, hrun]
    simp only [List.nil_append, k1]
    rw [if_pos hpos]
  · have hsize := congrArg List.length c3
    rw [List.length_append] at hsize
    unfold InMemoryVectorStore.Size
    omega

/-- C8 (witness): three documents, one of which fails, ingested by the agent of
`main` in the order 2, 0, 1. -/
theorem AddKnowledge_counts_witness :
    exampleDocuments ≠ []
      ∧ exampleSchedule.Perm (List.range exampleDocuments.length)
      ∧ ∃ (calls : List (Nat × String × Except String (List Int))) (final : Retriever Int),
        embedCalls exampleAPI exampleDocuments mainAgent.embeddingClient exampleSchedule
            = (calls, final)
          ∧ (calls.map (fun call => call.1)).Perm (List.range exampleDocuments.length)
          ∧ (∀ call ∈ calls, exampleDocuments[call.1]? = some call.2.1)
          ∧ calls.length = exampleDocuments.length
          ∧ (mainAgent.AddKnowledge exampleAPI exampleDocuments exampleSchedule).2.embeddingClient
            = final
          ∧ embedEvents (mainAgent.AddKnowledge exampleAPI exampleDocuments exampleSchedule).2.trace
            = embedEvents mainAgent.trace
              ++ calls.map (fun call => (call.1, call.2.1, callFailed call))
          ∧ ((mainAgent.AddKnowledge exampleAPI exampleDocuments exampleSchedule).1 = none
              ↔ calls.countP callFailed = 0)
          ∧ (0 < calls.countP callFailed →
              (mainAgent.AddKnowledge exampleAPI exampleDocuments exampleSchedule).1
                = some ("添加文档失败：" ++ ";".intercalate (calls.filterMap errorEntry)))
          ∧ (calls.filterMap errorEntry).length = calls.countP callFailed
          ∧ final.vectorStore.items
            = mainAgent.embeddingClient.vectorStore.items ++ calls.filterMap storedRecord
          ∧ final.vectorStore.Size
            = mainAgent.embeddingClient.vectorStore.Size
              + (exampleDocuments.length - calls.countP callFailed)
          ∧ final.requests
            = mainAgent.embeddingClient.requests
              ++ (calls.map (fun call => call.2.1)).filter (fun document => document != "") :=
  ⟨by decide, by decide,
    AddKnowledge_counts exampleAPI mainAgent exampleDocuments exampleSchedule (by decide)
      (by decide)⟩

/-- The run of the witness, evaluated: the second document fails, its entry is
the only one in the returned error, and two records land in the store. -/
theorem AddKnowledge_example_run :
    (mainAgent.AddKnowledge exampleAPI exampleDocuments exampleSchedule).1
        = some "添加文档失败：文档1嵌入失败：文本向量化失败api 请求错误"
      ∧ (mainAgent.AddKnowledge exampleAPI exampleDocuments exampleSchedule).2.embeddingClient.vectorStore.Size
        = 2
      ∧ (mainAgent.AddKnowledge exampleAPI exampleDocuments exampleSchedule).2.embeddingClient.requests
        = ["dogs bark", "cats purr", "bad"] := by
  refine ⟨by decide, by decide, by decide⟩

/-! ## Search -/

/-- For a non-empty query, `cosineSimilarity` has a value exactly for vectors
of the query's dimension. -/
theorem cosineSimilarity_ok_iff {F : Type} (ops : Float64Ops F) (q v : List F)
    (hq : q.length ≠ 0) :
    (∃ s, cosineSimilarity ops q v = .ok s) ↔ v.length = q.length := by
  unfold cosineSimilarity
  constructor
  · intro ⟨s, hs⟩
    split at hs
    · cases hs
    · rename_i heq
      exact (not_not.mp heq).symm
  · intro hlen
    have h1 : ¬ (q.length ≠ v.length) := by simp [hlen]
    have h2 : ¬ (v.length = 0) := by rw [hlen]; exact hq
    rw [if_neg h1, if_neg h2]
    dsimp only
    split
    · exact ⟨_, rfl⟩
    · exact ⟨_, rfl⟩

/-- The scoring loop keeps exactly the records of the query's dimension, in
stored order, each with its text and similarity. -/
theorem scoreItems_eq {F : Type} (ops : Float64Ops F) (q : List F) (hq : q.length ≠ 0)
    (items : List (VectorStoreItem F)) :
    scoreItems ops q items = (items.filter (matchesDimension q)).map (scoredOf ops q) := by
  induction items with
  | nil => rfl
  | cons item rest ih =>
    unfold scoreItems
    by_cases hm : item.Embedding.length = q.length
    · obtain ⟨s, hs⟩ := (cosineSimilarity_ok_iff ops q item.Embedding hq).mpr hm
      have hf : matchesDimension q item = true := by simp [matchesDimension, hm]
      rw [List.filter_cons_of_pos hf, List.map_cons, ← ih]
      simp [hs, scoredOf, similarityOf]
    · have hf : ¬ (matchesDimension q item = true) := by simp [matchesDimension, hm]
      rw [List.filter_cons_of_neg hf, ← ih]
      cases hc : cosineSimilarity ops q item.Embedding with
      | error err => rfl
      | ok s => exact absurd ((cosineSimilarity_ok_iff ops q item.Embedding hq).mp ⟨s, hc⟩) hm

/-- The method `Search` on a non-empty query and a positive limit: the scored records of
the query's dimension are sorted and the first `limit` texts are returned (all
of them when there are fewer). -/
theorem Search_eq {F : Type} (ops : Float64Ops F) (sortSlice : SortSlice F)
    (vs : InMemoryVectorStore F) (q : List F) (limit : Int)
    (hq : q ≠ []) (hlimit : 0 < limit) :
    (vs.items = [] ∧ vs.Search ops sortSlice q limit = .ok [])
      ∨ (vs.items ≠ [] ∧ vs.Search ops sortSlice q limit
          = .ok (((sortSlice (fun x y => ops.gt x.score y.score)
              ((vs.items.filter (matchesDimension q)).map (scoredOf ops q))).take limit.toNat).map
                (fun x => x.document))) := by
  have hq0 : q.length ≠ 0 := fun h => hq (List.length_eq_zero.mp h)
  have hl : ¬ (limit ≤ 0) := by omega
  unfold InMemoryVectorStore.Search
  rw [if_neg hq0, if_neg hl]
  by_cases hitems : vs.items = []
  · left
    refine ⟨hitems, ?_⟩
    simp [hitems]
  · right
    refine ⟨hitems, ?_⟩
    have hlen : ¬ (vs.items.length = 0) := fun h => hitems (List.length_eq_zero.mp h)
    rw [if_neg hlen, scoreItems_eq ops q hq0]
    dsimp only
    congr 2
    split
    · rename_i hgt
      rw [Int.toNat_ofNat]
      rw [List.take_length, List.take_of_length_le]
      omega
    · rfl

/-- C9: for every store, every non-empty query vector and every positive limit
`k`, `Search` succeeds; it returns exactly `min k m` texts, where `m` counts the
stored records of the query's dimension; the returned texts are texts of such
records, each record used at most once; and the empty store gives the empty
result. This holds for every `sort.Slice` that rearranges its slice. -/
theorem Search_returns_min {F : Type} (ops : Float64Ops F) (sortSlice : SortSlice F)
    (vs : InMemoryVectorStore F) (q : List F) (limit : Int)
    (hsort : Rearranges sortSlice) (hq : q ≠ []) (hlimit : 0 < limit) :
    ∃ texts, vs.Search ops sortSlice q limit = .ok texts
      ∧ (texts.length : Int) = min limit ((vs.items.filter (matchesDimension q)).length : Int)
      ∧ texts.Subperm ((vs.items.filter (matchesDimension q)).map (fun item => item.Document))
      ∧ (vs.items = [] → texts = []) := by
  rcases Search_eq ops sortSlice vs q limit hq hlimit with ⟨hempty, hres⟩ | ⟨hne, hres⟩
  · refine ⟨[], hres, ?_, ?_, fun _ => rfl⟩
    · simp [hempty]; omega
    · exact List.nil_subperm
  · have hperm := hsort (fun x y => ops.gt x.score y.score)
      ((vs.items.filter (matchesDimension q)).map (scoredOf ops q))
    refine ⟨_, hres, ?_, ?_, fun h => absurd h hne⟩
    · rw [List.length_map, List.length_take, hperm.length_eq, List.length_map]
      omega
    · have h2 := (((List.take_sublist limit.toNat (sortSlice (fun x y => ops.gt x.score y.score)
          ((vs.items.filter (matchesDimension q)).map (scoredOf ops q)))).map
          (fun x : scoredItem F => x.document)).subperm).trans
          ((hperm.map (fun x : scoredItem F => x.document)).subperm)
      simpa [List.map_map, Function.comp, scoredOf] using h2

/-! ## Insertion sort meets the contract of sort.Slice -/

theorem insertLeft_perm {α : Type} (less : α → α → Bool) (x : α) (l : List α) :
    (insertLeft less x l).Perm (x :: l) := by
  induction l with
  | nil => exact List.Perm.refl _
  | cons y rest ih =>
    unfold insertLeft
    split
    · exact (List.Perm.cons y ih).trans (List.Perm.swap x y rest)
    · exact List.Perm.refl _

theorem insertLeft_foldl_perm {α : Type} (less : α → α → Bool) (data sorted : List α) :
    (data.foldl (fun sorted x => insertLeft less x sorted) sorted).Perm (data ++ sorted) := by
  induction data generalizing sorted with
  | nil => exact List.Perm.refl _
  | cons x rest ih =>
    rw [List.foldl_cons]
    refine (ih (insertLeft less x sorted)).trans ?_
    refine ((insertLeft_perm less x sorted).append_left rest).trans ?_
    simp

theorem insertionSortLessFunc_perm {α : Type} (less : α → α → Bool) (data : List α) :
    (insertionSortLessFunc less data).Perm data := by
  unfold insertionSortLessFunc
  refine (List.reverse_perm _).trans ?_
  simpa using insertLeft_foldl_perm less data []

theorem exampleSort_rearranges : Rearranges exampleSort :=
  fun less items => insertionSortLessFunc_perm less items

/-- C9 (witness): a query of dimension 2 with limit 5 against the example
store, of whose three records two have dimension 2. -/
theorem Search_returns_min_witness :
    Rearranges exampleSort ∧ ([1, 0] : List Int) ≠ [] ∧ (0 : Int) < 5
      ∧ ∃ texts, exampleStore.Search exampleOps exampleSort [1, 0] 5 = .ok texts
        ∧ (texts.length : Int)
          = min 5 ((exampleStore.items.filter (matchesDimension [1, 0])).length : Int)
        ∧ texts.Subperm ((exampleStore.items.filter (matchesDimension [1, 0])).map
            (fun item => item.Document))
        ∧ (exampleStore.items = [] → texts = []) :=
  ⟨exampleSort_rearranges, by decide, by decide,
    Search_returns_min exampleOps exampleSort exampleStore [1, 0] 5 exampleSort_rearranges
      (by decide) (by decide)⟩

/-- The search of the witness, evaluated: the record of dimension 3 is skipped
and the parallel vector ranks before the orthogonal one. -/
theorem Search_example_run :
    exampleStore.Search exampleOps exampleSort [1, 0] 5 = .ok ["parallel", "orthogonal"]
      ∧ exampleStore.Search exampleOps exampleSort [1, 0] 1 = .ok ["parallel"]
      ∧ (NewInMemoryVectorStore Int).Search exampleOps exampleSort [1, 0] 5 = .ok [] := by
  refine ⟨by rfl, by rfl, by rfl⟩

/-- A successful `Search` had a non-empty query and a positive limit. -/
theorem Search_ok_inputs {F : Type} (ops : Float64Ops F) (sortSlice : SortSlice F)
    (vs : InMemoryVectorStore F) (q : List F) (limit : Int) (texts : List String)
    (h : vs.Search ops sortSlice q limit = .ok texts) : q ≠ [] ∧ 0 < limit := by
  unfold InMemoryVectorStore.Search at h
  split at h
  · cases h
  · rename_i hq
    split at h
    · cases h
    · rename_i hl
      exact ⟨fun hnil => hq (by simp [hnil]), by omega⟩

/-! ## Insertion sort sorts what `less` orders -/

theorem insertLeft_pairwise {α : Type} (less : α → α → Bool) (items : List α)
    (h : OrdersElements less items) (x : α) (hx : x ∈ items) (l : List α)
    (hmem : ∀ z ∈ l, z ∈ items) (hl : l.Pairwise (fun a b => less a b = false)) :
    (insertLeft less x l).Pairwise (fun a b => less a b = false) := by
  obtain ⟨hirr, htrans, hneg⟩ := h
  induction l with
  | nil => simp [insertLeft]
  | cons y rest ih =>
    obtain ⟨hy, hrest⟩ := List.pairwise_cons.mp hl
    have hyi : y ∈ items := hmem y (by simp)
    have hresti : ∀ z ∈ rest, z ∈ items := fun z hz => hmem z (by simp [hz])
    unfold insertLeft
    split
    · rename_i hxy
      refine List.pairwise_cons.mpr ⟨?_, ih hresti hrest⟩
      intro z hz
      rcases List.mem_cons.mp ((insertLeft_perm less x rest).mem_iff.mp hz) with rfl | hz
      · cases hyz : less y z with
        | false => rfl
        | true =>
          have hzz := htrans z hx y hyi z hx hxy hyz
          rw [hirr z hx] at hzz
          cases hzz
      · exact hy z hz
    · rename_i hxy
      have hxy2 : less x y = false := by simpa using hxy
      refine List.pairwise_cons.mpr ⟨?_, hl⟩
      intro z hz
      rcases List.mem_cons.mp hz with rfl | hz
      · exact hxy2
      · exact hneg x hx y hyi z (hresti z hz) hxy2 (hy z hz)

theorem insertLeft_foldl_pairwise {α : Type} (less : α → α → Bool) (items : List α)
    (h : OrdersElements less items) (data sorted : List α)
    (hdata : ∀ z ∈ data, z ∈ items) (hmem : ∀ z ∈ sorted, z ∈ items)
    (hs : sorted.Pairwise (fun a b => less a b = false)) :
    (data.foldl (fun sorted x => insertLeft less x sorted) sorted).Pairwise
      (fun a b => less a b = false) := by
  induction data generalizing sorted with
  | nil => exact hs
  | cons x rest ih =>
    rw [List.foldl_cons]
    have hx : x ∈ items := hdata x (by simp)
    refine ih _ (fun z hz => hdata z (by simp [hz])) ?_
      (insertLeft_pairwise less items h x hx sorted hmem hs)
    intro z hz
    rcases List.mem_cons.mp ((insertLeft_perm less x sorted).mem_iff.mp hz) with rfl | hz
    · exact hx
    · exact hmem z hz

/-- Insertion sort sorts every slice whose elements `less` orders. -/
theorem insertionSortLessFunc_sorted {α : Type} (less : α → α → Bool) (data : List α)
    (h : OrdersElements less data) :
    (insertionSortLessFunc less data).Pairwise (fun x y => less y x = false) := by
  unfold insertionSortLessFunc
  rw [List.pairwise_reverse]
  exact insertLeft_foldl_pairwise less data h data [] (fun _ hz => hz)
    (fun _ hz => by simp at hz) List.Pairwise.nil

theorem insertionSlice_rearranges {F : Type} : Rearranges (insertionSlice : SortSlice F) :=
  fun less items => insertionSortLessFunc_perm less items

theorem insertionSlice_sorts {F : Type} : SortsByLess (insertionSlice : SortSlice F) :=
  fun less items h => insertionSortLessFunc_sorted less items h

/-- On a slice of at most 12 elements `sort.Slice` is the insertion sort. -/
theorem Slice_eq_insertionSort {α : Type} (less : α → α → Bool) (x : List α)
    (h : x.length ≤ 12) : sort.Slice less x = insertionSortLessFunc less x := by
  unfold sort.Slice sort.pdqsort_func
  simp [h, sort.insertionSort_func]

/-- The sorter of the integer examples is `sort.Slice` on slices of at most 12
elements. -/
theorem exampleSort_eq_Slice (less : scoredItem Int → scoredItem Int → Bool)
    (items : List (scoredItem Int)) (h : items.length ≤ 12) :
    exampleSort less items = sort.Slice less items :=
  (Slice_eq_insertionSort less items h).symm

/-! ## Float64 `>` and NaN -/

/-- The two constants are the powers of two they are said to be. -/
theorem float64Overflow_eq : float64Overflow = 2 ^ 1024 ∧ float64Huge = 2 ^ 1023 := by
  constructor <;> norm_num [float64Overflow, float64Huge]

theorem Float64Value.gt_irrefl (a : Float64Value) : Float64Value.gt a a = false := by
  cases a with
  | finite x => simp [Float64Value.gt]
  | inf s => cases s <;> rfl
  | nan => rfl

theorem Float64Value.gt_trans (a b c : Float64Value)
    (hab : Float64Value.gt a b = true) (hbc : Float64Value.gt b c = true) :
    Float64Value.gt a c = true := by
  cases a <;> cases b <;> cases c <;>
    simp only [Float64Value.gt, decide_eq_true_eq, Bool.and_eq_true, Bool.not_eq_true',
      Bool.false_eq_true] at hab hbc ⊢ <;>
    first
      | omega
      | (rename_i s t; cases s <;> cases t <;> simp_all)
      | (rename_i s; cases s <;> simp_all)

/-- The negation of float64 `>` is transitive through a value that is not
NaN. -/
theorem Float64Value.not_gt_trans (a b c : Float64Value) (hb : b ≠ .nan)
    (hab : Float64Value.gt a b = false) (hbc : Float64Value.gt b c = false) :
    Float64Value.gt a c = false := by
  cases a <;> cases b <;> cases c <;>
    simp only [Float64Value.gt, decide_eq_false_iff_not, Bool.and_eq_false_iff,
      Bool.not_eq_false', ne_eq, not_true_eq_false, not_false_eq_true] at hab hbc hb ⊢ <;>
    first
      | omega
      | (rename_i s t u; cases s <;> cases t <;> cases u <;> simp_all)

/-- Float64 `>` orders every list of scored records none of whose scores is
NaN. -/
theorem ieeeOps_orders (items : List (scoredItem Float64Value))
    (h : ∀ x ∈ items, x.score ≠ .nan) :
    OrdersElements (fun x y : scoredItem Float64Value => ieeeOps.gt x.score y.score) items :=
  ⟨fun a _ => Float64Value.gt_irrefl a.score,
    fun a _ b _ c _ hab hbc => Float64Value.gt_trans a.score b.score c.score hab hbc,
    fun a _ b hb c _ hab hbc =>
      Float64Value.not_gt_trans a.score b.score c.score (h b hb) hab hbc⟩

theorem Float64Value.gt_nan (x : Float64Value) :
    Float64Value.gt x .nan = false ∧ Float64Value.gt .nan x = false := by
  cases x <;> exact ⟨rfl, rfl⟩

/-- Float64 `>` orders no list that holds a NaN score next to two scores of
which one is greater. -/
theorem ieeeOps_nan_breaks_order (a n b : scoredItem Float64Value)
    (items : List (scoredItem Float64Value))
    (ha : a ∈ items) (hn : n ∈ items) (hb : b ∈ items)
    (hnan : n.score = .nan) (hab : ieeeOps.gt a.score b.score = true) :
    ¬ OrdersElements (fun x y : scoredItem Float64Value => ieeeOps.gt x.score y.score) items := by
  intro h
  have h1 : ieeeOps.gt a.score n.score = false := by
    rw [hnan]
    exact (Float64Value.gt_nan a.score).1
  have h2 : ieeeOps.gt n.score b.score = false := by
    rw [hnan]
    exact (Float64Value.gt_nan b.score).2
  have h3 : ieeeOps.gt a.score b.score = false := h.2.2 a ha n hn b hb h1 h2
  rw [hab] at h3
  cases h3

/-- C10 (counterexample): a successful `Search` whose result is not ranked.
All stored components are finite, but the record `huge` overflows in the dot
product and in its norm, so its similarity to the query `[2, 0]` is NaN.
Against NaN every comparison is false, so `sort.Slice` leaves the three
records where they are: the text of similarity 0 is returned before the text of
similarity 1, and with limit 1 the text of similarity 1 is left out. -/
theorem Search_unranked_with_nan :
    overflowStore.items.map
        (fun item => (item.Document, similarityOf ieeeOps [.finite 2, .finite 0] item))
        = [("orthogonal", .finite 0), ("huge", .nan), ("parallel", .finite 1)]
      ∧ overflowStore.Search ieeeOps sort.Slice [.finite 2, .finite 0] 3
        = .ok ["orthogonal", "huge", "parallel"]
      ∧ overflowStore.Search ieeeOps sort.Slice [.finite 2, .finite 0] 1 = .ok ["orthogonal"]
      ∧ ieeeOps.gt (.finite 1) (.finite 0) = true := by
  refine ⟨by decide, by rfl, by rfl, by rfl⟩


/-- C10 (as amended): for every successful `Search` in which the comparison
`>` orders the similarities of the stored records of the query's dimension
(for float64: none of them is NaN), the returned texts are the texts of a list
`ranked` of (text, similarity) pairs, which together with a list `rest` of
left-out pairs makes up the pairs of all stored records of the query's
dimension; along `ranked` the similarity never increases, and no left-out pair
has a strictly higher similarity than a returned one. This holds for every
`sort.Slice` that keeps the contract of package sort. -/
theorem Search_ranked {F : Type} (ops : Float64Ops F) (sortSlice : SortSlice F)
    (vs : InMemoryVectorStore F) (q : List F) (limit : Int) (texts : List String)
    (hperm : Rearranges sortSlice) (hsorts : SortsByLess sortSlice)
    (hgt : OrdersElements (fun x y : scoredItem F => ops.gt x.score y.score)
      ((vs.items.filter (matchesDimension q)).map (scoredOf ops q)))
    (h : vs.Search ops sortSlice q limit = .ok texts) :
    ∃ ranked rest : List (scoredItem F),
      texts = ranked.map (fun x => x.document)
        ∧ (ranked ++ rest).Perm ((vs.items.filter (matchesDimension q)).map (scoredOf ops q))
        ∧ ranked.Pairwise (fun x y => ops.gt y.score x.score = false)
        ∧ ∀ x ∈ rest, ∀ y ∈ ranked, ops.gt x.score y.score = false := by
  obtain ⟨hq, hlimit⟩ := Search_ok_inputs ops sortSlice vs q limit texts h
  rcases Search_eq ops sortSlice vs q limit hq hlimit with ⟨hempty, hres⟩ | ⟨-, hres⟩
  · rw [hres] at h
    cases h
    exact ⟨[], [], rfl, by simp [hempty], List.Pairwise.nil, fun _ hx => by simp at hx⟩
  · rw [hres] at h
    cases h
    have hsorted := hsorts (fun x y => ops.gt x.score y.score)
      ((vs.items.filter (matchesDimension q)).map (scoredOf ops q)) hgt
    have hp := hperm (fun x y => ops.gt x.score y.score)
      ((vs.items.filter (matchesDimension q)).map (scoredOf ops q))
    rw [← List.take_append_drop limit.toNat (sortSlice (fun x y => ops.gt x.score y.score)
      ((vs.items.filter (matchesDimension q)).map (scoredOf ops q)))] at hsorted hp
    obtain ⟨h1, -, h3⟩ := List.pairwise_append.mp hsorted
    exact ⟨_, _, rfl, hp, h1, fun x hx y hy => h3 y hy x hx⟩

/-- C10 (witness): the ranking of the store without overflow for a query of
dimension 2 and limit 1, over float64 values with NaN; the sorter is the
insertion sort, which on this store is what `sort.Slice` runs. -/
theorem Search_ranked_witness :
    Rearranges (insertionSlice : SortSlice Float64Value)
      ∧ SortsByLess (insertionSlice : SortSlice Float64Value)
      ∧ OrdersElements (fun x y : scoredItem Float64Value => ieeeOps.gt x.score y.score)
          ((finiteStore.items.filter (matchesDimension [.finite 1, .finite 0])).map
            (scoredOf ieeeOps [.finite 1, .finite 0]))
      ∧ finiteStore.Search ieeeOps insertionSlice [.finite 1, .finite 0] 1 = .ok ["parallel"]
      ∧ finiteStore.Search ieeeOps sort.Slice [.finite 1, .finite 0] 1 = .ok ["parallel"]
      ∧ ∃ ranked rest : List (scoredItem Float64Value),
        ["parallel"] = ranked.map (fun x => x.document)
          ∧ (ranked ++ rest).Perm
            ((finiteStore.items.filter (matchesDimension [.finite 1, .finite 0])).map
              (scoredOf ieeeOps [.finite 1, .finite 0]))
          ∧ ranked.Pairwise (fun x y => ieeeOps.gt y.score x.score = false)
          ∧ ∀ x ∈ rest, ∀ y ∈ ranked, ieeeOps.gt x.score y.score = false :=
  ⟨insertionSlice_rearranges, insertionSlice_sorts,
    ieeeOps_orders _ (by decide), by rfl, by rfl,
    Search_ranked ieeeOps insertionSlice finiteStore [.finite 1, .finite 0] 1 ["parallel"]
      insertionSlice_rearranges insertionSlice_sorts (ieeeOps_orders _ (by decide)) (by rfl)⟩

/-- The ranking with and without NaN, evaluated: without overflow the parallel
vector ranks first; with the overflowing record in between nothing moves. -/
theorem Search_nan_example_run :
    finiteStore.items.map
        (fun item => (item.Document, similarityOf ieeeOps [.finite 1, .finite 0] item))
        = [("orthogonal", .finite 0), ("other model", .finite 0), ("parallel", .finite 1)]
      ∧ finiteStore.Search ieeeOps sort.Slice [.finite 1, .finite 0] 5
        = .ok ["parallel", "orthogonal"] := by
  refine ⟨by decide, by rfl⟩


/-! ## AddEmbedding -/

/-- C12: `AddEmbedding` returns an error exactly when the vector is empty or
the text is empty; when it returns an error the store is unchanged; when it
returns none, the store is the old one followed by exactly one record holding
that vector, text and metadata, and `Size` has grown by one. Nothing is asked
of the records already stored. -/
theorem AddEmbedding_spec {F : Type} (vs : InMemoryVectorStore F) (embedding : List F)
    (document : String) (metadata : List (String × String)) :
    ((vs.AddEmbedding embedding document metadata).1 ≠ none ↔ (embedding = [] ∨ document = ""))
      ∧ ((vs.AddEmbedding embedding document metadata).1 ≠ none →
          (vs.AddEmbedding embedding document metadata).2 = vs)
      ∧ ((vs.AddEmbedding embedding document metadata).1 = none →
          (vs.AddEmbedding embedding document metadata).2.items
              = vs.items ++ [{ Embedding := embedding, Document := document, Metadata := metadata }]
            ∧ (vs.AddEmbedding embedding document metadata).2.Size = vs.Size + 1) := by
  unfold InMemoryVectorStore.AddEmbedding
  by_cases he : embedding.length = 0
  · have he2 : embedding = [] := List.length_eq_zero.mp he
    simp [he, he2]
  · have he2 : embedding ≠ [] := fun h => he (by simp [h])
    by_cases hd : document = ""
    · simp [he, hd]
    · simp [he, he2, hd, InMemoryVectorStore.Size]

/-- The store of the examples takes a record of a fourth dimension, and
refuses an empty vector and an empty text without changing. -/
theorem AddEmbedding_example_run :
    ((exampleStore.AddEmbedding [7] "one number" []).1 = none
      ∧ (exampleStore.AddEmbedding [7] "one number" []).2.items.map (fun item => item.Document)
        = ["orthogonal", "other model", "parallel", "one number"])
      ∧ (exampleStore.AddEmbedding [] "no vector" []).1 = some "embedding 不能为空"
      ∧ (exampleStore.AddEmbedding [] "no vector" []).2.Size = 3
      ∧ (exampleStore.AddEmbedding [7] "" []).1 = some "document 不能为空"
      ∧ (exampleStore.AddEmbedding [7] "" []).2.Size = 3 := by
  refine ⟨⟨by rfl, by rfl⟩, by rfl, by rfl, by rfl, by rfl⟩

/-! ## cosineSimilarity -/

/-- On vectors of equal length the loop of `cosineSimilarity` computes the dot
product and the two sums of squares. -/
theorem cosineSums_eq {F : Type} (ops : Float64Ops F) (a b : List F) (hlen : a.length = b.length)
    (d na nb : F) :
    cosineSums ops a b (d, na, nb)
      = ((List.zip a b).foldl (fun acc p => ops.add acc (ops.mul p.1 p.2)) d,
          a.foldl (fun acc x => ops.add acc (ops.mul x x)) na,
          b.foldl (fun acc x => ops.add acc (ops.mul x x)) nb) := by
  induction a generalizing b d na nb with
  | nil =>
    cases b with
    | nil => simp [cosineSums]
    | cons y ys => simp at hlen
  | cons x xs ih =>
    cases b with
    | nil => simp at hlen
    | cons y ys =>
      have hl : xs.length = ys.length := by simpa using hlen
      simp [cosineSums, ih ys hl]

/-- C13: for two non-empty vectors of equal length, `cosineSimilarity` returns
no error; when the computed norm of at least one of them is zero it returns
zero; it returns the quotient of the dot product by the product of the norms
only when both computed norms are non-zero. -/
theorem cosineSimilarity_zero_norm {F : Type} (ops : Float64Ops F) (vecA VecB : List F)
    (hlen : vecA.length = VecB.length) (hne : VecB ≠ []) :
    ((ops.eqZero (vectorNorm ops vecA) = true ∨ ops.eqZero (vectorNorm ops VecB) = true) →
        cosineSimilarity ops vecA VecB = .ok ops.zero)
      ∧ (¬ (ops.eqZero (vectorNorm ops vecA) = true ∨ ops.eqZero (vectorNorm ops VecB) = true) →
        cosineSimilarity ops vecA VecB
          = .ok (ops.div (dotProduct ops vecA VecB)
              (ops.mul (vectorNorm ops vecA) (vectorNorm ops VecB)))) := by
  have h1 : ¬ (vecA.length ≠ VecB.length) := by simp [hlen]
  have h2 : ¬ (VecB.length = 0) := fun h => hne (List.length_eq_zero.mp h)
  unfold cosineSimilarity
  rw [if_neg h1, if_neg h2, cosineSums_eq ops vecA VecB hlen]
  dsimp only
  constructor
  · intro hz
    have : (ops.eqZero (vectorNorm ops vecA) || ops.eqZero (vectorNorm ops VecB)) = true := by
      simpa using hz
    unfold vectorNorm at this
    rw [if_pos this]
  · intro hz
    have : ¬ ((ops.eqZero (vectorNorm ops vecA) || ops.eqZero (vectorNorm ops VecB)) = true) := by
      simpa using hz
    unfold vectorNorm at this
    rw [if_neg this]
    rfl

/-- C13 (witness): the zero vector of dimension 2 against the vector `[1, 2]`,
over integer arithmetic. -/
theorem cosineSimilarity_zero_norm_witness :
    ([0, 0] : List Int).length = ([1, 2] : List Int).length ∧ ([1, 2] : List Int) ≠ []
      ∧ ((exampleOps.eqZero (vectorNorm exampleOps [0, 0]) = true
            ∨ exampleOps.eqZero (vectorNorm exampleOps [1, 2]) = true) →
          cosineSimilarity exampleOps [0, 0] [1, 2] = .ok exampleOps.zero)
      ∧ (¬ (exampleOps.eqZero (vectorNorm exampleOps [0, 0]) = true
            ∨ exampleOps.eqZero (vectorNorm exampleOps [1, 2]) = true) →
          cosineSimilarity exampleOps [0, 0] [1, 2]
            = .ok (exampleOps.div (dotProduct exampleOps [0, 0] [1, 2])
                (exampleOps.mul (vectorNorm exampleOps [0, 0]) (vectorNorm exampleOps [1, 2])))) :=
  ⟨by decide, by decide, cosineSimilarity_zero_norm exampleOps [0, 0] [1, 2] (by decide) (by decide)⟩

/-- The zero vector on either side gives similarity zero, and two parallel
vectors are divided out to one. -/
theorem cosineSimilarity_example_run :
    cosineSimilarity exampleOps [0, 0] [1, 2] = .ok 0
      ∧ cosineSimilarity exampleOps [3, 4] [0, 0] = .ok 0
      ∧ exampleOps.eqZero (vectorNorm exampleOps [0, 0]) = true
      ∧ cosineSimilarity exampleOps [3, 4] [3, 4] = .ok 1 := by
  refine ⟨by rfl, by rfl, by rfl, by rfl⟩

/-! ## EmbedDocument -/

/-- The two error prefixes of `EmbedDocument` never produce the same message. -/
theorem embedding_error_ne_store_error (e1 e2 : String) :
    "文本向量化失败" ++ e1 ≠ "存储向量失败" ++ e2 := by
  intro h
  have hd := congrArg String.data h
  simp at hd

/-- C14: `EmbedDocument` on an empty text, or when the provider's round trip
fails, returns no data or returns an empty vector, returns an error that starts
with the embedding prefix and leaves the store as it was; every error it
returns is of that kind; when the provider returns a non-empty vector for a
non-empty text, that vector is returned and exactly one record holding it and
the text is appended to the store. Over any implementation of the store,
`EmbedDocument` is `embedDocumentOn` applied to the outcome of `embed`: an
error of `embed` is returned under the embedding prefix without touching the
store, an error of the store's `AddEmbedding` is returned under the
store-insert prefix, and a message with the embedding prefix never equals one
with the store-insert prefix. -/
theorem EmbedDocument_atomic {F : Type} (api : EmbeddingAPI F) (r : Retriever F)
    (document : String) :
    (document = "" →
        Retriever.EmbedDocument api r document = (.error ("文本向量化失败" ++ "文本不存在"), r))
      ∧ (document ≠ "" → ∀ err, api r.requests.length document = .error err →
          (Retriever.EmbedDocument api r document).1 = .error ("文本向量化失败" ++ err)
            ∧ (Retriever.EmbedDocument api r document).2.vectorStore = r.vectorStore)
      ∧ (document ≠ "" → api r.requests.length document = .ok [] →
          (Retriever.EmbedDocument api r document).1
              = .error ("文本向量化失败" ++ "没有 embedding 数据")
            ∧ (Retriever.EmbedDocument api r document).2.vectorStore = r.vectorStore)
      ∧ (document ≠ "" → ∀ rest, api r.requests.length document = .ok ([] :: rest) →
          (Retriever.EmbedDocument api r document).1 = .error ("文本向量化失败" ++ "embedding为空")
            ∧ (Retriever.EmbedDocument api r document).2.vectorStore = r.vectorStore)
      ∧ (∀ err, (Retriever.EmbedDocument api r document).1 = .error err →
          (∃ e, err = "文本向量化失败" ++ e)
            ∧ (Retriever.EmbedDocument api r document).2.vectorStore = r.vectorStore)
      ∧ (document ≠ "" → ∀ embedding rest, embedding ≠ [] →
          api r.requests.length document = .ok (embedding :: rest) →
          (Retriever.EmbedDocument api r document).1 = .ok embedding
            ∧ (Retriever.EmbedDocument api r document).2.vectorStore.items
              = r.vectorStore.items
                ++ [{ Embedding := embedding, Document := document, Metadata := [] }])
      ∧ ((Retriever.EmbedDocument api r document).1
            = (embedDocumentOn (inMemoryStoreOps F) (Retriever.embed api r document).1
                (Retriever.embed api r document).2.vectorStore document).1
          ∧ (Retriever.EmbedDocument api r document).2.vectorStore
            = (embedDocumentOn (inMemoryStoreOps F) (Retriever.embed api r document).1
                (Retriever.embed api r document).2.vectorStore document).2)
      ∧ (∀ (S : Type) (store : VectorStoreOps S F) (s : S) (err : String),
          embedDocumentOn store (.error err) s document = (.error ("文本向量化失败" ++ err), s))
      ∧ (∀ (S : Type) (store : VectorStoreOps S F) (s s1 : S) (embedding : List F) (err : String),
          store.AddEmbedding s embedding document [] = (some err, s1) →
          embedDocumentOn store (.ok embedding) s document = (.error ("存储向量失败" ++ err), s1))
      ∧ (∀ e1 e2 : String, "文本向量化失败" ++ e1 ≠ "存储向量失败" ++ e2) := by
  refine ⟨?_, ?_, ?_, ?_, ?_, ?_, ?_, fun _ _ _ _ => rfl, ?_, embedding_error_ne_store_error⟩
  rotate_left 6
  · unfold Retriever.EmbedDocument embedDocumentOn
    cases Retriever.embed api r document with
    | mk res r1 =>
      cases res with
      | error err => exact ⟨rfl, rfl⟩
      | ok embedding =>
        dsimp only [inMemoryStoreOps]
        cases r1.vectorStore.AddEmbedding embedding document [] with
        | mk e vs => cases e <;> exact ⟨rfl, rfl⟩
  · intro S store s s1 embedding err hadd
    unfold embedDocumentOn
    dsimp only
    rw [hadd]
  · intro hd
    simp [Retriever.EmbedDocument, Retriever.embed, hd]
  · intro hd err hapi
    simp [Retriever.EmbedDocument, Retriever.embed, hd, hapi]
  · intro hd hapi
    simp [Retriever.EmbedDocument, Retriever.embed, hd, hapi]
  · intro hd rest hapi
    simp [Retriever.EmbedDocument, Retriever.embed, hd, hapi]
  · intro err herr
    have hstore := embed_store api r document
    have hok := embed_ok api r document
    unfold Retriever.EmbedDocument at herr ⊢
    cases he : Retriever.embed api r document with
    | mk res r1 =>
      rw [he] at hstore hok herr
      simp only at hstore hok herr ⊢
      cases res with
      | error e =>
        simp only at herr ⊢
        cases herr
        exact ⟨⟨e, rfl⟩, hstore⟩
      | ok embedding =>
        obtain ⟨htext, hlen⟩ := hok embedding rfl
        simp [InMemoryVectorStore.AddEmbedding, hlen, htext] at herr
  · intro hd embedding rest hne hapi
    have hlen : embedding.length ≠ 0 := fun h => hne (List.length_eq_zero.mp h)
    simp [Retriever.EmbedDocument, Retriever.embed, hd, hapi, hlen,
      InMemoryVectorStore.AddEmbedding]

/-- Embedding a good text, the failing text and the empty text into the empty
store of the examples. -/
theorem EmbedDocument_example_run :
    (Retriever.EmbedDocument exampleAPI emptyRetriever "cats purr").1 = .ok [1, 0]
      ∧ (Retriever.EmbedDocument exampleAPI emptyRetriever "cats purr").2.vectorStore.Size = 1
      ∧ (Retriever.EmbedDocument exampleAPI emptyRetriever "bad").1
        = .error "文本向量化失败api 请求错误"
      ∧ (Retriever.EmbedDocument exampleAPI emptyRetriever "bad").2.vectorStore.Size = 0
      ∧ (Retriever.EmbedDocument exampleAPI emptyRetriever "").1 = .error "文本向量化失败文本不存在"
      ∧ (Retriever.EmbedDocument exampleAPI emptyRetriever "").2.requests = []
      ∧ embedDocumentOn fullStoreOps (.ok [1, 0]) () "cats purr"
        = (.error "存储向量失败store is full", ()) := by
  refine ⟨by rfl, by rfl, by rfl, by rfl, by rfl, by rfl, by rfl⟩

/-! ## buildEnhancedQuery -/

theorem writeDocs_eq (i : Nat) (docs : List String) (builder : String) :
    writeDocs i docs builder
      = ((List.enumFrom (i + 1) docs).map (fun p => docEntry p.1 p.2)).foldl
          (fun acc entry => acc ++ entry) builder := by
  induction docs generalizing i builder with
  | nil => rfl
  | cons doc rest ih =>
    unfold writeDocs
    rw [ih]
    simp [List.enumFrom, docEntry, String.append_assoc]

/-- C17: `buildEnhancedQuery` returns the query unchanged for the empty chunk
list; for a non-empty list it returns the header, followed by the entries
`文档i: di` and a blank line for `i = 1 .. n` in order, followed by the question
line with the original query; in both cases the result ends with the query. -/
theorem buildEnhancedQuery_spec (query : String) (relevantDocs : List String) :
    (relevantDocs = [] → buildEnhancedQuery query relevantDocs = query)
      ∧ (relevantDocs ≠ [] →
          buildEnhancedQuery query relevantDocs
            = (docEntries relevantDocs).foldl (fun acc entry => acc ++ entry) "根据以下相关信息:\n\n"
              ++ ("请回答以下问题：" ++ query))
      ∧ (docEntries relevantDocs).length = relevantDocs.length
      ∧ (∀ i doc, relevantDocs[i]? = some doc →
          (docEntries relevantDocs)[i]? = some ("文档" ++ toString (i + 1) ++ ": " ++ doc ++ "\n\n"))
      ∧ (∃ before, buildEnhancedQuery query relevantDocs = before ++ query) := by
  refine ⟨?_, ?_, ?_, ?_, ?_⟩
  · intro h
    simp [buildEnhancedQuery, h]
  · intro h
    have hlen : ¬ (relevantDocs.length = 0) := fun h0 => h (List.length_eq_zero.mp h0)
    unfold buildEnhancedQuery
    rw [if_neg hlen, writeDocs_eq]
    rfl
  · simp [docEntries]
  · intro i doc hi
    simp [docEntries, List.getElem?_enumFrom, hi, docEntry, Nat.add_comm]
  · by_cases h : relevantDocs.length = 0
    · exact ⟨"", by simp [buildEnhancedQuery, h]⟩
    · unfold buildEnhancedQuery
      rw [if_neg h]
      exact ⟨writeDocs 0 relevantDocs "根据以下相关信息:\n\n" ++ "请回答以下问题：", by
        rw [String.append_assoc]⟩

/-- The template on two chunks, and on none. -/
theorem buildEnhancedQuery_example_run :
    buildEnhancedQuery "What is X?" ["X is a letter.", "X marks the spot."]
        = "根据以下相关信息:\n\n文档1: X is a letter.\n\n文档2: X marks the spot.\n\n请回答以下问题：What is X?"
      ∧ buildEnhancedQuery "What is X?" [] = "What is X?" := by
  refine ⟨by decide, by decide⟩

/-! ## Retrieval on an empty store -/

/-- A non-empty text is posted to the embedding endpoint exactly once. -/
theorem embed_requests {F : Type} (api : EmbeddingAPI F) (r : Retriever F) (text : String)
    (htext : text ≠ "") : (Retriever.embed api r text).2.requests = r.requests ++ [text] := by
  unfold Retriever.embed
  rw [if_neg htext]
  dsimp only
  split
  · rfl
  · rfl
  · split <;> rfl

theorem EmbedQuery_state {F : Type} (api : EmbeddingAPI F) (r : Retriever F) (query : String) :
    (Retriever.EmbedQuery api r query).2 = (Retriever.embed api r query).2 := by
  unfold Retriever.EmbedQuery
  cases Retriever.embed api r query with
  | mk res r1 => cases res <;> rfl

theorem Retrieve_state {F : Type} (ops : Float64Ops F) (sortSlice : SortSlice F)
    (api : EmbeddingAPI F) (r : Retriever F) (query : String) (limit : Int) :
    (Retriever.Retrieve ops sortSlice api r query limit).2 = (Retriever.EmbedQuery api r query).2 := by
  unfold Retriever.Retrieve
  cases Retriever.EmbedQuery api r query with
  | mk res r1 =>
    cases res with
    | error err => rfl
    | ok queryEmbedding =>
      dsimp only
      split <;> rfl

/-- C15 (counterexample): on the retriever of the examples, whose store is
empty, `Retrieve` posts the query to the embedding endpoint and then returns
the empty result with no error. -/
theorem Retrieve_empty_store_calls_provider :
    emptyRetriever.vectorStore.Size = 0
      ∧ (Retriever.Retrieve exampleOps exampleSort exampleAPI emptyRetriever "What is X?" 5).1
        = .ok []
      ∧ (Retriever.Retrieve exampleOps exampleSort exampleAPI emptyRetriever "What is X?" 5).2.requests
        = ["What is X?"] := by
  refine ⟨by rfl, by rfl, by rfl⟩

/-- C15 (as amended): when the store holds no record,
`Agent.retrieveRelevantDocuments` returns its empty-store error and leaves the
agent, with the retriever's request log, exactly as it was; `Retriever.Retrieve`
on the same store has no such guard: for a non-empty query it posts the query
to the embedding endpoint, and when that returns a non-empty vector and the
limit is positive it returns the empty result with no error. -/
theorem retrieval_on_empty_store {σ F : Type} (env : Collaborators σ F) (a : Agent σ F)
    (query : String) (limit : Int) (hsize : a.embeddingClient.vectorStore.Size = 0) :
    a.retrieveRelevantDocuments env query = (.error "知识库中没有文档", a)
      ∧ (query ≠ "" →
          (Retriever.Retrieve env.ops env.sortSlice env.embedAPI a.embeddingClient query limit).2.requests
            = a.embeddingClient.requests ++ [query])
      ∧ (query ≠ "" → 0 < limit → ∀ embedding rest, embedding ≠ [] →
          env.embedAPI a.embeddingClient.requests.length query = .ok (embedding :: rest) →
          (Retriever.Retrieve env.ops env.sortSlice env.embedAPI a.embeddingClient query limit).1
            = .ok []) := by
  refine ⟨?_, ?_, ?_⟩
  · unfold Agent.retrieveRelevantDocuments
    rw [if_pos hsize]
  · intro hq
    rw [Retrieve_state, EmbedQuery_state, embed_requests _ _ _ hq]
  · intro hq hlimit embedding rest hne hapi
    have hlen : embedding.length ≠ 0 := fun h => hne (List.length_eq_zero.mp h)
    have hl : ¬ (limit ≤ 0) := by omega
    have hitems : a.embeddingClient.vectorStore.items.length = 0 := hsize
    simp [Retriever.Retrieve, Retriever.EmbedQuery, Retriever.embed, hq, hapi, hlen,
      InMemoryVectorStore.Search, hl, hitems]

/-- C15 (witness): the agent of `main`, whose store is empty, and the query
`What is X?`. -/
theorem retrieval_on_empty_store_witness :
    mainAgent.embeddingClient.vectorStore.Size = 0
      ∧ mainAgent.retrieveRelevantDocuments (openaiCollaborators helloTransport) "What is X?"
        = (.error "知识库中没有文档", mainAgent)
      ∧ ("What is X?" ≠ "" →
          (Retriever.Retrieve (openaiCollaborators helloTransport).ops
              (openaiCollaborators helloTransport).sortSlice
              (openaiCollaborators helloTransport).embedAPI mainAgent.embeddingClient
              "What is X?" 5).2.requests
            = mainAgent.embeddingClient.requests ++ ["What is X?"])
      ∧ ("What is X?" ≠ "" → (0 : Int) < 5 → ∀ embedding rest, embedding ≠ [] →
          (openaiCollaborators helloTransport).embedAPI mainAgent.embeddingClient.requests.length
              "What is X?" = .ok (embedding :: rest) →
          (Retriever.Retrieve (openaiCollaborators helloTransport).ops
              (openaiCollaborators helloTransport).sortSlice
              (openaiCollaborators helloTransport).embedAPI mainAgent.embeddingClient
              "What is X?" 5).1 = .ok []) :=
  ⟨by rfl, retrieval_on_empty_store (openaiCollaborators helloTransport) mainAgent "What is X?" 5
    (by rfl)⟩

/-! ## Query: validation -/

theorem dropWhile_eq_nil_of_all {α : Type} (p : α → Bool) (l : List α)
    (h : ∀ c ∈ l.dropWhile p, p c = true) : l.dropWhile p = [] := by
  induction l with
  | nil => rfl
  | cons x xs ih =>
    by_cases hx : p x = true
    · rw [List.dropWhile_cons_of_pos hx] at h ⊢
      exact ih h
    · rw [List.dropWhile_cons_of_neg hx] at h
      exact absurd (h x (by simp)) hx

theorem dropWhile_eq_nil_iff_all {α : Type} (p : α → Bool) (l : List α) :
    l.dropWhile p = [] ↔ ∀ c ∈ l, p c = true := by
  induction l with
  | nil => simp
  | cons x xs ih =>
    by_cases hx : p x = true
    · rw [List.dropWhile_cons_of_pos hx, ih]
      simp [hx]
    · rw [List.dropWhile_cons_of_neg hx]
      simp [hx]

/-- Trimming leaves the empty string exactly for blank texts. -/
theorem TrimSpace_eq_empty_iff (s : String) : TrimSpace s = "" ↔ isBlank s = true := by
  unfold TrimSpace isBlank
  have h1 : String.mk ((s.toList.dropWhile isSpace).reverse.dropWhile isSpace).reverse = ""
      ↔ ((s.toList.dropWhile isSpace).reverse.dropWhile isSpace).reverse = [] := by
    constructor
    · intro h
      exact congrArg String.data h
    · intro h
      rw [h]
  rw [h1, List.reverse_eq_nil_iff, dropWhile_eq_nil_iff_all, List.all_eq_true]
  constructor
  · intro h
    have h2 : s.toList.dropWhile isSpace = [] :=
      dropWhile_eq_nil_of_all isSpace s.toList (fun c hc => h c (List.mem_reverse.mpr hc))
    exact (dropWhile_eq_nil_iff_all isSpace s.toList).mp h2
  · intro h c hc
    have h2 : s.toList.dropWhile isSpace = [] := (dropWhile_eq_nil_iff_all isSpace s.toList).mpr h
    rw [h2] at hc
    simp at hc

/-- For a non-blank query, `Query` is retrieval followed by the retry loop on
the prompt built from the retrieved chunks. -/
theorem Query_eq_attemptAll {σ F : Type} (env : Collaborators σ F) (a : Agent σ F)
    (query : String) (hquery : TrimSpace query ≠ "") :
    a.Query env query
      = Agent.attemptAll env (a.retrieveRelevantDocuments env query).2
          (a.enhancedQueryOf env query) (a.retrieveRelevantDocuments env query).2.getAllTools := by
  unfold Agent.Query Agent.attemptAll Agent.enhancedQueryOf
  rw [if_neg hquery]

/-- C16: when the input is empty or consists only of white space, `Query`
returns its validation error and the agent exactly as it was (history, store,
and no recorded retrieval, chat or tool call); for any other input it does not
return that error. -/
theorem Query_rejects_blank {σ F : Type} (env : Collaborators σ F) (a : Agent σ F)
    (query : String) :
    (isBlank query = true → a.Query env query = ((none, some "查询内容不能为空"), a))
      ∧ (isBlank query = false → (a.Query env query).1.2 ≠ some "查询内容不能为空") := by
  constructor
  · intro hb
    have ht : TrimSpace query = "" := (TrimSpace_eq_empty_iff query).mpr hb
    unfold Agent.Query
    rw [if_pos ht]
  · intro hb
    have ht : TrimSpace query ≠ "" := fun h => by
      rw [(TrimSpace_eq_empty_iff query).mp h] at hb
      cases hb
    rw [Query_eq_attemptAll env a query ht]
    unfold Agent.attemptAll
    split
    · intro h
      have hd := congrArg (fun o => o.map String.data) h
      simp at hd
    · simp

/-- Blank and non-blank inputs on the agent of `main`: a line of spaces and
tabs is rejected and nothing is sent; `hi` is answered. -/
theorem Query_blank_example_run :
    mainAgent.Query (openaiCollaborators helloTransport) " \t \n" = ((none, some "查询内容不能为空"), mainAgent)
      ∧ (mainAgent.Query (openaiCollaborators helloTransport) "").1 = (none, some "查询内容不能为空")
      ∧ (mainAgent.Query (openaiCollaborators helloTransport) " hi ").1
        = (some { Content := "hello", ToolCalls := [] }, none) := by
  refine ⟨by rfl, by rfl, by rfl⟩

/-! ## Query: the chat/tool loop does not look at the retriever -/

theorem executeToolCall_withRetriever {σ F : Type} (unmarshal : String → Except String Arguments)
    (a : Agent σ F) (r : Retriever F) (toolCall : ToolCall) :
    (a.withRetriever r).executeToolCall unmarshal toolCall
      = ((a.executeToolCall unmarshal toolCall).1,
          (a.executeToolCall unmarshal toolCall).2.withRetriever r) := by
  unfold Agent.executeToolCall
  simp only [Agent.withRetriever, Agent.record, Agent.client?]
  cases SplitN2 toolCall.Name with
  | nil => rfl
  | cons c1 t1 =>
    cases t1 with
    | nil => rfl
    | cons c2 t2 =>
      cases t2 with
      | cons c3 t3 => rfl
      | nil =>
        dsimp only
        cases List.lookup c1 a.mcpClients with
        | none => rfl
        | some client =>
          dsimp only
          cases unmarshal toolCall.Arguments with
          | error err => rfl
          | ok arguments =>
            dsimp only
            cases client.CallTool c2 arguments <;> rfl

theorem toolCallStep_withRetriever {σ F : Type} (cc : ChatClient σ)
    (unmarshal : String → Except String Arguments) (a : Agent σ F) (r : Retriever F)
    (toolCall : ToolCall) :
    (a.withRetriever r).toolCallStep cc unmarshal toolCall
      = (a.toolCallStep cc unmarshal toolCall).withRetriever r := by
  unfold Agent.toolCallStep
  rw [executeToolCall_withRetriever]
  rfl

theorem toolCalls_foldl_withRetriever {σ F : Type} (cc : ChatClient σ)
    (unmarshal : String → Except String Arguments) (calls : List ToolCall) (a : Agent σ F)
    (r : Retriever F) :
    calls.foldl (Agent.toolCallStep cc unmarshal) (a.withRetriever r)
      = (calls.foldl (Agent.toolCallStep cc unmarshal) a).withRetriever r := by
  induction calls generalizing a with
  | nil => rfl
  | cons toolCall rest ih =>
    rw [List.foldl_cons, List.foldl_cons, toolCallStep_withRetriever, ih]

theorem processQueryWithTools_withRetriever {σ F : Type} (cc : ChatClient σ)
    (unmarshal : String → Except String Arguments) (a : Agent σ F) (r : Retriever F)
    (query : String) (tools : List Tool) :
    (a.withRetriever r).processQueryWithTools cc unmarshal query tools
      = ((a.processQueryWithTools cc unmarshal query tools).1,
          (a.processQueryWithTools cc unmarshal query tools).2.withRetriever r) := by
  unfold Agent.processQueryWithTools
  have hc : (a.withRetriever r).chatClient = a.chatClient := rfl
  rw [hc]
  cases cc.Chat a.chatClient query with
  | mk res s1 =>
    cases res with
    | error err => rfl
    | ok response =>
      dsimp only
      by_cases hpos : response.ToolCalls.length > 0
      · rw [if_pos hpos, if_pos hpos]
        have h2 := toolCalls_foldl_withRetriever cc unmarshal response.ToolCalls
          { a with chatClient := s1, trace := a.trace ++ [.chat query] } r
        simp only [Agent.withRetriever] at h2 ⊢
        rw [h2]
        dsimp only
        cases cc.Chat (response.ToolCalls.foldl (Agent.toolCallStep cc unmarshal)
            { a with chatClient := s1, trace := a.trace ++ [.chat query] }).chatClient "" with
        | mk res2 s3 => cases res2 <;> rfl
      · rw [if_neg hpos, if_neg hpos]
        rfl

theorem retryLoop_withRetriever {σ F : Type} (env : Collaborators σ F) (q : String)
    (tools : List Tool) (n : Nat) (a : Agent σ F) (r : Retriever F)
    (r0 : Option ChatResponse) (e0 : Option String) :
    Agent.retryLoop env q tools n (a.withRetriever r) r0 e0
      = ((Agent.retryLoop env q tools n a r0 e0).1,
          (Agent.retryLoop env q tools n a r0 e0).2.withRetriever r) := by
  induction n generalizing a r0 e0 with
  | zero => rfl
  | succ n ih =>
    unfold Agent.retryLoop
    rw [processQueryWithTools_withRetriever]
    cases a.processQueryWithTools env.chat env.Unmarshal q tools with
    | mk res a1 =>
      cases res with
      | ok response => rfl
      | error err => exact ih a1 none (some err)

/-- The retry loop with its epilogue gives the same result whatever retriever
the agent carries, and hands that retriever back untouched. -/
theorem attemptAll_withRetriever {σ F : Type} (env : Collaborators σ F) (a : Agent σ F)
    (r : Retriever F) (prompt : String) (tools : List Tool) :
    (Agent.attemptAll env (a.withRetriever r) prompt tools).1
        = (Agent.attemptAll env a prompt tools).1
      ∧ (Agent.attemptAll env (a.withRetriever r) prompt tools).2
        = (Agent.attemptAll env a prompt tools).2.withRetriever r := by
  unfold Agent.attemptAll
  rw [retryLoop_withRetriever]
  have hm : (a.withRetriever r).maxRetries = a.maxRetries := rfl
  rw [hm]
  cases Agent.retryLoop env prompt tools a.maxRetries.toNat a none none with
  | mk res a1 =>
    cases res with
    | mk response lastErr =>
      cases lastErr <;> exact ⟨rfl, rfl⟩

/-- An attempt asks the chat client first with its prompt. -/
theorem processQueryWithTools_first_prompt {σ F : Type} (cc : ChatClient σ)
    (unmarshal : String → Except String Arguments) (a : Agent σ F) (query : String)
    (tools : List Tool) :
    ∃ more, chatPrompts (a.processQueryWithTools cc unmarshal query tools).2.trace
      = chatPrompts a.trace ++ query :: more := by
  unfold Agent.processQueryWithTools
  cases cc.Chat a.chatClient query with
  | mk res s1 =>
    cases res with
    | error err => exact ⟨[], by simp [chatPrompts_append, chatPrompts]⟩
    | ok response =>
      dsimp only
      split
      · obtain ⟨-, i2, -⟩ := toolCalls_foldl_state cc unmarshal response.ToolCalls
          { a with chatClient := s1, trace := a.trace ++ [.chat query] }
        cases cc.Chat (response.ToolCalls.foldl (Agent.toolCallStep cc unmarshal)
            { a with chatClient := s1, trace := a.trace ++ [.chat query] }).chatClient "" with
        | mk res2 s3 =>
          cases res2 <;>
            exact ⟨[""], by simp [chatPrompts_append, chatPrompts, i2]⟩
      · exact ⟨[], by simp [chatPrompts_append, chatPrompts]⟩

/-- The retry loop only adds chat calls, and with at least one iteration the
first call it adds carries the loop's prompt. -/
theorem retryLoop_first_prompt {σ F : Type} (env : Collaborators σ F) (q : String)
    (tools : List Tool) (n : Nat) (a : Agent σ F) (r0 : Option ChatResponse)
    (e0 : Option String) :
    ∃ more, chatPrompts (Agent.retryLoop env q tools n a r0 e0).2.trace = chatPrompts a.trace ++ more
      ∧ (0 < n → ∃ rest, more = q :: rest) := by
  induction n generalizing a r0 e0 with
  | zero => exact ⟨[], by simp [Agent.retryLoop], fun h => absurd h (Nat.lt_irrefl 0)⟩
  | succ n ih =>
    obtain ⟨more1, h1⟩ := processQueryWithTools_first_prompt env.chat env.Unmarshal a q tools
    unfold Agent.retryLoop
    cases hp : a.processQueryWithTools env.chat env.Unmarshal q tools with
    | mk res a1 =>
      rw [hp] at h1
      cases res with
      | ok response => exact ⟨q :: more1, h1, fun _ => ⟨more1, rfl⟩⟩
      | error err =>
        obtain ⟨more2, h2, -⟩ := ih a1 none (some err)
        refine ⟨q :: (more1 ++ more2), ?_, fun _ => ⟨more1 ++ more2, rfl⟩⟩
        dsimp only at h1 ⊢
        rw [h2, h1]
        simp

/-- C18: for a non-blank query on an agent with a positive retry bound, when
retrieval returns an error (whatever its cause), the prompt `Query` builds is
the query itself, the first chat call of the Query carries it, and the result
of `Query` is the result of the retry loop run on that prompt from the agent as
it was: only the retriever of the final agent is the one retrieval left. When
the store holds no record, the retriever (with its request log) is unchanged
at the end, so no embedding request was made. -/
theorem Query_retrieval_failure_not_fatal {σ F : Type} (env : Collaborators σ F)
    (a : Agent σ F) (query : String) (err : String)
    (hquery : TrimSpace query ≠ "")
    (hfail : (a.retrieveRelevantDocuments env query).1 = .error err)
    (hretries : 1 ≤ a.maxRetries) :
    a.enhancedQueryOf env query = query
      ∧ (∃ more, chatPrompts (a.Query env query).2.trace = chatPrompts a.trace ++ query :: more)
      ∧ (a.Query env query).1 = (Agent.attemptAll env a query a.getAllTools).1
      ∧ (a.Query env query).2
        = (Agent.attemptAll env a query a.getAllTools).2.withRetriever
            (a.retrieveRelevantDocuments env query).2.embeddingClient
      ∧ (a.embeddingClient.vectorStore.Size = 0 →
          (a.Query env query).2.embeddingClient = a.embeddingClient) := by
  have hprompt : a.enhancedQueryOf env query = query := by
    unfold Agent.enhancedQueryOf
    rw [hfail]
    rfl
  obtain ⟨r1, hr1⟩ := retrieveRelevantDocuments_state env a query
  have ha0 : (a.retrieveRelevantDocuments env query).2 = a.withRetriever r1 := hr1
  have hQ : a.Query env query = Agent.attemptAll env (a.withRetriever r1) query a.getAllTools := by
    rw [Query_eq_attemptAll env a query hquery, hprompt, ha0]
    rfl
  obtain ⟨hres, hstate⟩ := attemptAll_withRetriever env a r1 query a.getAllTools
  have hr : (a.retrieveRelevantDocuments env query).2.embeddingClient = r1 := by rw [ha0]; rfl
  refine ⟨hprompt, ?_, ?_, ?_, ?_⟩
  · have hn : 0 < a.maxRetries.toNat := by omega
    obtain ⟨more, hm, hfirst⟩ := retryLoop_first_prompt env query a.getAllTools
      a.maxRetries.toNat a none none
    obtain ⟨rest, hrest⟩ := hfirst hn
    refine ⟨rest, ?_⟩
    rw [hQ, hstate, ← hrest, ← hm]
    unfold Agent.attemptAll
    cases Agent.retryLoop env query a.getAllTools a.maxRetries.toNat a none none with
    | mk res a1 =>
      cases res with
      | mk response lastErr => cases lastErr <;> rfl
  · rw [hQ, hres]
  · rw [hQ, hstate, hr]
  · intro hsize
    have hret : a.retrieveRelevantDocuments env query = (.error "知识库中没有文档", a) := by
      unfold Agent.retrieveRelevantDocuments
      rw [if_pos hsize]
    have hr2 : r1 = a.embeddingClient := by rw [← hr, hret]
    rw [hQ, hstate, hr2]
    rfl

/-- C18 (witness): the agent of `main`, whose store is empty, asked
`What is X?`. -/
theorem Query_retrieval_failure_not_fatal_witness :
    TrimSpace "What is X?" ≠ ""
      ∧ (mainAgent.retrieveRelevantDocuments (openaiCollaborators helloTransport) "What is X?").1
        = .error "知识库中没有文档"
      ∧ 1 ≤ mainAgent.maxRetries
      ∧ mainAgent.enhancedQueryOf (openaiCollaborators helloTransport) "What is X?" = "What is X?"
      ∧ (∃ more, chatPrompts (mainAgent.Query (openaiCollaborators helloTransport) "What is X?").2.trace
          = chatPrompts mainAgent.trace ++ "What is X?" :: more)
      ∧ (mainAgent.Query (openaiCollaborators helloTransport) "What is X?").1
        = (Agent.attemptAll (openaiCollaborators helloTransport) mainAgent "What is X?"
            mainAgent.getAllTools).1
      ∧ (mainAgent.Query (openaiCollaborators helloTransport) "What is X?").2
        = (Agent.attemptAll (openaiCollaborators helloTransport) mainAgent "What is X?"
            mainAgent.getAllTools).2.withRetriever
            (mainAgent.retrieveRelevantDocuments (openaiCollaborators helloTransport)
              "What is X?").2.embeddingClient
      ∧ (mainAgent.embeddingClient.vectorStore.Size = 0 →
          (mainAgent.Query (openaiCollaborators helloTransport) "What is X?").2.embeddingClient
            = mainAgent.embeddingClient) :=
  ⟨by decide, by rfl, by decide,
    Query_retrieval_failure_not_fatal (openaiCollaborators helloTransport) mainAgent "What is X?"
      "知识库中没有文档" (by decide) (by rfl) (by decide)⟩

/-- The Query of the witness, evaluated: the raw query is the one user message
sent, the answer comes back, and the embedding endpoint saw no request. -/
theorem Query_empty_store_example_run :
    (mainAgent.Query (openaiCollaborators helloTransport) "What is X?").1
        = (some { Content := "hello", ToolCalls := [] }, none)
      ∧ chatPrompts (mainAgent.Query (openaiCollaborators helloTransport) "What is X?").2.trace
        = ["What is X?"]
      ∧ (mainAgent.Query (openaiCollaborators helloTransport) "What is X?").2.embeddingClient.requests
        = [] := by
  refine ⟨by rfl, by decide, by decide⟩

/-! ## The history invariant -/

/-- The invariant says that no message after the first is a system message. -/
theorem SystemFirst_iff_tail (messages : List ChatCompletionMessage) :
    SystemFirst messages ↔ ∀ msg ∈ messages.tail, msg.Role ≠ ChatMessageRoleSystem := by
  unfold SystemFirst
  cases messages with
  | nil => simp
  | cons m rest =>
    simp only [List.tail_cons]
    constructor
    · intro ⟨_, h⟩ msg hmem hrole
      obtain ⟨i, hi, hget⟩ := List.mem_iff_getElem.mp hmem
      have := h (i + 1) msg (by simp [hget, List.getElem?_eq_getElem hi]) hrole
      omega
    · intro h
      have hzero : rest.countP (fun msg => msg.Role == ChatMessageRoleSystem) = 0 := by
        rw [List.countP_eq_zero]
        intro msg hmem
        simpa using h msg hmem
      constructor
      · rw [List.countP_cons, hzero]
        split <;> omega
      · intro i msg hget hrole
        cases i with
        | zero => rfl
        | succ i =>
          have hmem : msg ∈ rest := by
            rw [List.getElem?_cons_succ] at hget
            exact List.getElem?_mem hget
          exact absurd hrole (h msg hmem)

theorem SystemFirst_append (messages : List ChatCompletionMessage) (msg : ChatCompletionMessage)
    (h : SystemFirst messages) (hrole : msg.Role ≠ ChatMessageRoleSystem) :
    SystemFirst (messages ++ [msg]) := by
  rw [SystemFirst_iff_tail] at h ⊢
  cases messages with
  | nil => simp
  | cons m rest =>
    simp only [List.cons_append, List.tail_cons, List.mem_append, List.mem_singleton] at h ⊢
    intro x hx
    rcases hx with hx | rfl
    · exact h x hx
    · exact hrole

theorem SystemFirst_eraseP (messages : List ChatCompletionMessage) (h : SystemFirst messages) :
    ∀ msg ∈ messages.eraseP (fun msg => msg.Role == ChatMessageRoleSystem),
      msg.Role ≠ ChatMessageRoleSystem := by
  rw [SystemFirst_iff_tail] at h
  cases messages with
  | nil => simp
  | cons m rest =>
    simp only [List.tail_cons] at h
    by_cases hm : m.Role = ChatMessageRoleSystem
    · have : (m :: rest).eraseP (fun msg => msg.Role == ChatMessageRoleSystem) = rest := by
        simp [List.eraseP_cons, hm]
      rw [this]
      exact h
    · have hnone : ∀ x ∈ m :: rest, ¬ ((fun msg : ChatCompletionMessage =>
          msg.Role == ChatMessageRoleSystem) x = true) := by
        intro x hx
        rcases List.mem_cons.mp hx with rfl | hx
        · simpa using hm
        · simpa using h x hx
      rw [List.eraseP_of_forall_not hnone]
      intro x hx
      rcases List.mem_cons.mp hx with rfl | hx
      · exact hm
      · exact h x hx

theorem user_ne_system : ChatMessageRoleUser ≠ ChatMessageRoleSystem := by decide

theorem assistant_ne_system : ChatMessageRoleAssistant ≠ ChatMessageRoleSystem := by decide

theorem tool_ne_system : ChatMessageRoleTool ≠ ChatMessageRoleSystem := by decide

theorem SystemFirst_of_none (messages : List ChatCompletionMessage)
    (h : ∀ msg ∈ messages, msg.Role ≠ ChatMessageRoleSystem) : SystemFirst messages := by
  rw [SystemFirst_iff_tail]
  exact fun msg hmem => h msg (List.mem_of_mem_tail hmem)

theorem SystemFirst_append_user (messages : List ChatCompletionMessage) (prompt : String)
    (h : SystemFirst messages) :
    SystemFirst (if prompt ≠ "" then
        messages ++ [{ Role := ChatMessageRoleUser, Content := prompt, ToolCalls := [], ToolCallID := "" }]
      else messages) := by
  split
  · exact SystemFirst_append _ _ h user_ne_system
  · exact h

/-- C19: the history of the client `NewOpenAIClient` returns holds at most one
system-role message, first if present; and from any client whose history is
so, `Chat` (whether it succeeds or fails), `AppendToolResult`,
`SetSystemPrompt` (empty prompt included), `SetContext` and `ClearHistory`
each lead to a history that is so again. -/
theorem OpenaiClient_system_first (transport : ChatTransport) (tools : List Tool)
    (systemPrompt context prompt toolCallID toolOutput : String) (c : OpenaiClient) :
    SystemFirst (NewOpenAIClient tools systemPrompt context).messages
      ∧ (SystemFirst c.messages →
          SystemFirst (OpenaiClient.Chat transport c prompt).2.messages
            ∧ SystemFirst (c.AppendToolResult toolCallID toolOutput).messages
            ∧ SystemFirst (c.SetSystemPrompt prompt).messages
            ∧ SystemFirst (c.SetContext context).messages
            ∧ SystemFirst c.ClearHistory.messages) := by
  constructor
  · unfold NewOpenAIClient
    dsimp only
    have h1 : SystemFirst (if systemPrompt ≠ "" then
        [({ Role := ChatMessageRoleSystem, Content := systemPrompt, ToolCalls := [],
            ToolCallID := "" } : ChatCompletionMessage)]
        else []) := by
      rw [SystemFirst_iff_tail]
      split <;> simp
    split
    · exact SystemFirst_append _ _ h1 user_ne_system
    · exact h1
  · intro h
    refine ⟨?_, ?_, ?_, ?_, ?_⟩
    · have hu := SystemFirst_append_user c.messages prompt h
      unfold OpenaiClient.Chat
      dsimp only
      split
      · exact hu
      · split
        · exact hu
        · exact SystemFirst_append _ _ hu assistant_ne_system
    · exact SystemFirst_append _ _ h tool_ne_system
    · have hrest := SystemFirst_eraseP c.messages h
      unfold OpenaiClient.SetSystemPrompt
      dsimp only
      split
      · rw [SystemFirst_iff_tail]
        exact hrest
      · exact SystemFirst_of_none _ hrest
    · unfold OpenaiClient.SetContext
      split
      · exact SystemFirst_append _ _ h user_ne_system
      · exact h
    · rw [SystemFirst_iff_tail] at h ⊢
      unfold OpenaiClient.ClearHistory
      dsimp only
      cases hm : c.messages with
      | nil => simp
      | cons m rest =>
        rw [hm] at h
        simp only [List.tail_cons] at h
        have hnil : rest.filter (fun msg => msg.Role == ChatMessageRoleSystem) = [] := by
          rw [List.filter_eq_nil_iff]
          intro msg hmem
          simpa using h msg hmem
        rw [List.filter_cons]
        split <;> simp [hnil]

/-- A client built with a system prompt and a context keeps one leading system
message through a chat round, a change of system prompt and a clearing of the
history. -/
theorem OpenaiClient_history_example_run :
    (NewOpenAIClient [] "be brief" "the user is a cat").messages.map (fun msg => msg.Role)
        = ["system", "user"]
      ∧ ((OpenaiClient.Chat helloTransport (NewOpenAIClient [] "be brief" "the user is a cat")
          "hi").2.SetSystemPrompt "be long").messages.map (fun msg => (msg.Role, msg.Content))
        = [("system", "be long"), ("user", "the user is a cat"), ("user", "hi"),
            ("assistant", "hello")]
      ∧ ((OpenaiClient.Chat helloTransport (NewOpenAIClient [] "be brief" "the user is a cat")
          "hi").2.ClearHistory).messages.map (fun msg => (msg.Role, msg.Content))
        = [("system", "be brief")]
      ∧ ((NewOpenAIClient [] "be brief" "").SetSystemPrompt "").messages = [] := by
  refine ⟨by decide, by decide, by decide, by decide⟩

/-! ## convertCallToolResult -/

theorem convert_foldl_eq (items : List MCPContent) (acc : List ContentItem) :
    items.foldl (fun content item => content ++ [convertContent item]) acc
      = acc ++ items.map convertContent := by
  induction items generalizing acc with
  | nil => simp
  | cons item rest ih => rw [List.foldl_cons, ih]; simp

/-- C20 (counterexample): an image item with payload `iVBORw0KGgo` is rendered
as the text `[Image:iVBORw0KGgo]`, which contains the payload between the
bracket parts. -/
theorem convertCallToolResult_inlines_payload :
    convertCallToolResult imageResult
        = { Content := [{ Type_ := "text", Text := "[Image:iVBORw0KGgo]" }], IsError := false }
      ∧ ∃ before after, "[Image:iVBORw0KGgo]" = before ++ "iVBORw0KGgo" ++ after :=
  ⟨by decide, "[Image:", "]", by decide⟩

/-- C20 (as amended): `convertCallToolResult` turns the content items of a
provider result into text-typed items, one per item and in the same order (a
result without items gives one empty text item), and copies the error flag: a
text item keeps its text, an image or audio item becomes `[Image:` or `[Audio:`
followed by the item's payload data and `]`, and an item of any other type
becomes its generic rendering. -/
theorem convertCallToolResult_spec (result : CallToolResult) :
    (result.Content ≠ [] →
        (convertCallToolResult result).Content = result.Content.map convertContent)
      ∧ (result.Content = [] →
        (convertCallToolResult result).Content = [{ Type_ := "text", Text := "" }])
      ∧ (∀ item ∈ (convertCallToolResult result).Content, item.Type_ = "text")
      ∧ (convertCallToolResult result).IsError = result.IsError
      ∧ (∀ text, convertContent (.text text) = { Type_ := "text", Text := text })
      ∧ (∀ data mime, convertContent (.image data mime)
          = { Type_ := "text", Text := "[Image:" ++ data ++ "]" })
      ∧ (∀ data mime, convertContent (.audio data mime)
          = { Type_ := "text", Text := "[Audio:" ++ data ++ "]" })
      ∧ (∀ rendering, convertContent (.other rendering) = { Type_ := "text", Text := rendering }) := by
  have hconv : (convertCallToolResult result).Content
      = if (result.Content.map convertContent).length = 0 then
          result.Content.map convertContent ++ [{ Type_ := "text", Text := "" }]
        else result.Content.map convertContent := by
    unfold convertCallToolResult
    simp only [convert_foldl_eq, List.nil_append]
  have htype : ∀ c : MCPContent, (convertContent c).Type_ = "text" := by
    intro c
    cases c <;> rfl
  refine ⟨?_, ?_, ?_, rfl, fun _ => rfl, fun _ _ => rfl, fun _ _ => rfl, fun _ => rfl⟩
  · intro hne
    have hlen : ¬ ((result.Content.map convertContent).length = 0) := by
      rw [List.length_map]
      exact fun h => hne (List.length_eq_zero.mp h)
    rw [hconv, if_neg hlen]
  · intro hnil
    rw [hconv, hnil]
    rfl
  · intro item hitem
    rw [hconv] at hitem
    split at hitem
    · rcases List.mem_append.mp hitem with h | h
      · obtain ⟨c, -, rfl⟩ := List.mem_map.mp h
        exact htype c
      · rw [List.mem_singleton.mp h]
    · obtain ⟨c, -, rfl⟩ := List.mem_map.mp hitem
      exact htype c

/-- A result with one item of each kind, converted. -/
theorem convertCallToolResult_example_run :
    convertCallToolResult
        { Content := [.text "3", .image "iVBORw0KGgo" "image/png", .audio "UklGRg" "audio/wav",
                      .other "&\x7bresource\x7d"],
          IsError := true }
      = { Content := [{ Type_ := "text", Text := "3" },
                      { Type_ := "text", Text := "[Image:iVBORw0KGgo]" },
                      { Type_ := "text", Text := "[Audio:UklGRg]" },
                      { Type_ := "text", Text := "&\x7bresource\x7d" }],
          IsError := true }
      ∧ convertCallToolResult { Content := [], IsError := false }
        = { Content := [{ Type_ := "text", Text := "" }], IsError := false } := by
  refine ⟨by decide, by decide⟩

/-! ## Ties -/

theorem insertLeft_sublist {α : Type} (less : α → α → Bool) (x : α) (l : List α) :
    l.Sublist (insertLeft less x l) := by
  induction l with
  | nil => simp
  | cons y rest ih =>
    unfold insertLeft
    split
    · exact ih.cons₂ y
    · exact List.sublist_cons_self x (y :: rest)

/-- The inserted element does not pass an element it does not sort before. -/
theorem insertLeft_stops {α : Type} (less : α → α → Bool) (x e : α) (l : List α)
    (he : e ∈ l) (hxe : less x e = false) : [x, e].Sublist (insertLeft less x l) := by
  induction l with
  | nil => simp at he
  | cons y rest ih =>
    unfold insertLeft
    split
    · rename_i hxy
      rcases List.mem_cons.mp he with rfl | herest
      · rw [hxe] at hxy
        cases hxy
      · exact (ih herest).cons y
    · exact (List.singleton_sublist.mpr he).cons₂ x

theorem insertLeft_foldl_stable {α : Type} (less : α → α → Bool) (e1 e2 : α)
    (h21 : less e2 e1 = false) (data sorted : List α)
    (h : [e1, e2].Sublist data ∨ (e1 ∈ sorted ∧ e2 ∈ data) ∨ [e2, e1].Sublist sorted) :
    [e2, e1].Sublist (data.foldl (fun sorted x => insertLeft less x sorted) sorted) := by
  induction data generalizing sorted with
  | nil =>
    rcases h with h | ⟨-, h⟩ | h
    · cases h
    · simp at h
    · exact h
  | cons d rest ih =>
    rw [List.foldl_cons]
    apply ih
    rcases h with h | ⟨hmem, h⟩ | h
    · rcases List.sublist_cons_iff.mp h with h | ⟨r, hr, hsub⟩
      · exact Or.inl h
      · cases hr
        refine Or.inr (Or.inl ⟨?_, List.singleton_sublist.mp hsub⟩)
        exact (insertLeft_perm less e1 sorted).mem_iff.mpr (by simp)
    · rcases List.mem_cons.mp h with rfl | h
      · exact Or.inr (Or.inr (insertLeft_stops less e2 e1 sorted hmem h21))
      · exact Or.inr (Or.inl ⟨(insertLeft_sublist less d sorted).subset hmem, h⟩)
    · exact Or.inr (Or.inr (h.trans (insertLeft_sublist less d sorted)))

/-- Insertion sort is stable: an element stays behind every earlier element
that it does not sort before. -/
theorem insertionSortLessFunc_stable {α : Type} (less : α → α → Bool) (data : List α)
    (e1 e2 : α) (h : [e1, e2].Sublist data) (h21 : less e2 e1 = false) :
    [e1, e2].Sublist (insertionSortLessFunc less data) := by
  unfold insertionSortLessFunc
  have hs := insertLeft_foldl_stable less e1 e2 h21 data [] (Or.inl h)
  have hr := List.reverse_sublist.mpr hs
  simpa using hr

/-- C11 (counterexample): the tie store ranked by `Search` as `sort.Slice`
sorts it. The store has 13 records of the query's dimension, so `sort.Slice`
partitions around the record in the middle, `tie 6`, before it runs the
insertion sort: `tie 6` comes out right after `best` and `tie 1` behind
`tie 5`, although `tie 1` was inserted first and all twelve ties have the same
similarity 0. -/
theorem Search_ties_reordered :
    tieStore.items.map (fun item => (item.Document, similarityOf exampleOps [1, 0] item))
        = [("tie 1", 0), ("best", 1), ("tie 2", 0), ("tie 3", 0), ("tie 4", 0), ("tie 5", 0),
            ("tie 6", 0), ("tie 7", 0), ("tie 8", 0), ("tie 9", 0), ("tie 10", 0), ("tie 11", 0),
            ("tie 12", 0)]
      ∧ tieStore.Search exampleOps sort.Slice [1, 0] 2 = .ok ["best", "tie 6"]
      ∧ tieStore.Search exampleOps sort.Slice [1, 0] 13
        = .ok ["best", "tie 6", "tie 2", "tie 3", "tie 4", "tie 5", "tie 1", "tie 7", "tie 8",
            "tie 9", "tie 10", "tie 11", "tie 12"] := by
  refine ⟨by decide, by rfl, by rfl⟩

/-- C11 (as amended): for every successful `Search` over a store with at most
12 records of the query's dimension, ranked by `sort.Slice` as package sort
implements it, the ranking (the returned pairs `ranked` followed by the
left-out pairs `rest`) is a rearrangement of the (text, similarity) pairs of
these records in which a record stays behind every record inserted before it
whose similarity it does not exceed; in particular records of equal similarity
keep the order of their insertion. When `>` orders the similarities, the
similarity never increases along the ranking, which is then the stable
descending sort. -/
theorem Search_ties_in_insertion_order {F : Type} (ops : Float64Ops F)
    (vs : InMemoryVectorStore F) (q : List F) (limit : Int) (texts : List String)
    (hsmall : (vs.items.filter (matchesDimension q)).length ≤ 12)
    (h : vs.Search ops sort.Slice q limit = .ok texts) :
    ∃ ranked rest : List (scoredItem F),
      texts = ranked.map (fun x => x.document)
        ∧ (ranked ++ rest).Perm ((vs.items.filter (matchesDimension q)).map (scoredOf ops q))
        ∧ (∀ x y : scoredItem F,
            [x, y].Sublist ((vs.items.filter (matchesDimension q)).map (scoredOf ops q)) →
            ops.gt y.score x.score = false → [x, y].Sublist (ranked ++ rest))
        ∧ (OrdersElements (fun x y : scoredItem F => ops.gt x.score y.score)
            ((vs.items.filter (matchesDimension q)).map (scoredOf ops q)) →
          (ranked ++ rest).Pairwise (fun x y => ops.gt y.score x.score = false)) := by
  obtain ⟨hq, hlimit⟩ := Search_ok_inputs ops sort.Slice vs q limit texts h
  rcases Search_eq ops sort.Slice vs q limit hq hlimit with ⟨hempty, hres⟩ | ⟨-, hres⟩
  · rw [hres] at h
    cases h
    refine ⟨[], [], rfl, by simp [hempty], ?_, fun _ => List.Pairwise.nil⟩
    intro x y hxy
    simp [hempty] at hxy
  · have hlen : ((vs.items.filter (matchesDimension q)).map (scoredOf ops q)).length ≤ 12 := by
      rw [List.length_map]
      exact hsmall
    have hsort := Slice_eq_insertionSort (fun x y : scoredItem F => ops.gt x.score y.score)
      ((vs.items.filter (matchesDimension q)).map (scoredOf ops q)) hlen
    rw [hsort] at hres
    rw [hres] at h
    cases h
    refine ⟨(insertionSortLessFunc (fun x y => ops.gt x.score y.score)
        ((vs.items.filter (matchesDimension q)).map (scoredOf ops q))).take limit.toNat,
      (insertionSortLessFunc (fun x y => ops.gt x.score y.score)
        ((vs.items.filter (matchesDimension q)).map (scoredOf ops q))).drop limit.toNat,
      rfl, ?_, ?_, ?_⟩
    · rw [List.take_append_drop]
      exact insertionSortLessFunc_perm _ _
    · intro x y hxy hgt
      rw [List.take_append_drop]
      exact insertionSortLessFunc_stable _ _ x y hxy hgt
    · intro hord
      rw [List.take_append_drop]
      exact insertionSortLessFunc_sorted _ _ hord

/-- C11 (witness): a store of five records, four of which tie, ranked with
`sort.Slice`. -/
theorem Search_ties_in_insertion_order_witness :
    (smallTieStore.items.filter (matchesDimension ([1, 0] : List Int))).length ≤ 12
      ∧ smallTieStore.Search exampleOps sort.Slice [1, 0] 3 = .ok ["best", "tie 1", "tie 2"]
      ∧ ∃ ranked rest : List (scoredItem Int),
        ["best", "tie 1", "tie 2"] = ranked.map (fun x => x.document)
          ∧ (ranked ++ rest).Perm
            ((smallTieStore.items.filter (matchesDimension [1, 0])).map
              (scoredOf exampleOps [1, 0]))
          ∧ (∀ x y : scoredItem Int,
              [x, y].Sublist ((smallTieStore.items.filter (matchesDimension [1, 0])).map
                (scoredOf exampleOps [1, 0])) →
              exampleOps.gt y.score x.score = false → [x, y].Sublist (ranked ++ rest))
          ∧ (OrdersElements (fun x y : scoredItem Int => exampleOps.gt x.score y.score)
              ((smallTieStore.items.filter (matchesDimension [1, 0])).map
                (scoredOf exampleOps [1, 0])) →
            (ranked ++ rest).Pairwise (fun x y => exampleOps.gt y.score x.score = false)) :=
  ⟨by decide, by rfl,
    Search_ties_in_insertion_order exampleOps smallTieStore [1, 0] 3 ["best", "tie 1", "tie 2"]
      (by decide) (by rfl)⟩

/-- The ranking of the witness, evaluated in full: the four ties follow `best`
in the order of their insertion. -/
theorem Search_ties_example_run :
    smallTieStore.Search exampleOps sort.Slice [1, 0] 5
      = .ok ["best", "tie 1", "tie 2", "tie 3", "tie 4"] := by
  rfl


/-! ## One chat turn -/

/-- The fragments of a delta are taken in without a panic exactly when each of
them carries an index. -/
theorem accumulateFragments_isSome (ds : List StreamToolCall) (m : List (Int × ToolCall)) :
    (accumulateFragments m ds).isSome = ds.all (fun d => d.Index.isSome) := by
  induction ds generalizing m with
  | nil => rfl
  | cons d rest ih =>
    unfold accumulateFragments StreamToolCall.deref
    cases hd : d.Index with
    | none => simp [hd]
    | some index => simp [hd, ih]

/-- On responses whose fragments carry an index the receive loop ends with the
error that follows them: on `io.EOF` it completes with the text fragments
appended to the content in arrival order, on a transport error it fails. -/
theorem recvRun_indexed (chunks : List WireResponse) (failure : Option String) (st : RecvState)
    (h : chunks.all WireResponse.indexed = true) :
    (failure = none → ∃ st1, recvRun chunks failure st = .completed st1
        ∧ st1.content = (textFragments chunks).foldl (fun r s => r ++ s) st.content)
      ∧ (∀ err, failure = some err → recvRun chunks failure st = .failed err) := by
  induction chunks generalizing st with
  | nil =>
    constructor
    · intro hnone
      subst hnone
      exact ⟨st, rfl, rfl⟩
    · intro err hsome
      subst hsome
      rfl
  | cons response rest ih =>
    rw [List.all_cons, Bool.and_eq_true] at h
    obtain ⟨hhead, hrest⟩ := h
    unfold recvRun
    cases hc : response.Choices with
    | nil =>
      have htexts : textFragments (response :: rest) = textFragments rest := by
        simp [textFragments, List.filterMap_cons, hc]
      rw [htexts]
      exact ih st hrest
    | cons delta others =>
      have hidx : delta.ToolCalls.all (fun d => d.Index.isSome) = true := by
        simpa [WireResponse.indexed, hc] using hhead
      have hsome := accumulateFragments_isSome delta.ToolCalls st.toolCallsMap
      rw [hidx] at hsome
      obtain ⟨m, hm⟩ := Option.isSome_iff_exists.mp hsome
      have htexts : textFragments (response :: rest) = delta.Content :: textFragments rest := by
        simp [textFragments, List.filterMap_cons, hc]
      have hcontent : (if delta.Content ≠ "" then st.content ++ delta.Content else st.content)
          = st.content ++ delta.Content := by
        split
        · rfl
        · rename_i hempty
          rw [not_not.mp hempty, String.append_empty]
      dsimp only
      rw [hm, htexts, List.foldl_cons, hcontent]
      exact ih { content := st.content ++ delta.Content, toolCallsMap := m } hrest

/-- A fragment without an index among those the loop reads makes it panic,
whatever follows the responses. -/
theorem recvRun_unindexed (chunks : List WireResponse) (failure : Option String) (st : RecvState)
    (h : chunks.all WireResponse.indexed = false) : recvRun chunks failure st = .panicked := by
  induction chunks generalizing st with
  | nil => simp at h
  | cons response rest ih =>
    unfold recvRun
    cases hc : response.Choices with
    | nil =>
      have hrest : rest.all WireResponse.indexed = false := by
        simpa [List.all_cons, WireResponse.indexed, hc] using h
      exact ih st hrest
    | cons delta others =>
      dsimp only
      cases hidx : delta.ToolCalls.all (fun d => d.Index.isSome) with
      | false =>
        have hnone := accumulateFragments_isSome delta.ToolCalls st.toolCallsMap
        rw [hidx] at hnone
        cases hacc : accumulateFragments st.toolCallsMap delta.ToolCalls with
        | none => rfl
        | some m => simp [hacc] at hnone
      | true =>
        have hhead : response.indexed = true := by simp [WireResponse.indexed, hc, hidx]
        have hrest : rest.all WireResponse.indexed = false := by
          simpa [List.all_cons, hhead] using h
        cases hacc : accumulateFragments st.toolCallsMap delta.ToolCalls with
        | none => rfl
        | some m => exact ih _ hrest

/-- Fragments that carry their index are taken in as `accumulateToolCall`
takes them. -/
theorem accumulateFragments_onWire (ds : List ToolCallDelta) (m : List (Int × ToolCall)) :
    accumulateFragments m (ds.map fun d =>
        { Index := some d.Index, ID := d.ID, Name := d.Name, Arguments := d.Arguments })
      = some (ds.foldl accumulateToolCall m) := by
  induction ds generalizing m with
  | nil => rfl
  | cons d rest ih =>
    rw [List.map_cons, List.foldl_cons]
    unfold accumulateFragments StreamToolCall.deref
    exact ih _

/-- On a stream whose fragments carry their index the receive loop is the fold
of `recvStep`. -/
theorem recvRun_onWire (chunks : List ChatCompletionStreamResponse) (failure : Option String)
    (st : RecvState) :
    recvRun ({ chunks := chunks, failure := failure } : ChatStream).onWire.chunks failure st
      = match failure with
        | none => .completed (chunks.foldl recvStep st)
        | some err => .failed err := by
  induction chunks generalizing st with
  | nil => cases failure <;> rfl
  | cons response rest ih =>
    have ih2 := ih (recvStep st response)
    simp only [ChatStream.onWire, List.map_cons, List.foldl_cons] at ih2 ⊢
    unfold recvRun
    cases hc : response.Choices with
    | nil =>
      have hstep : recvStep st response = st := by simp [recvStep, hc]
      rw [hstep] at ih2 ⊢
      simpa using ih2
    | cons delta others =>
      have hstep : recvStep st response
          = { content := if delta.Content ≠ "" then st.content ++ delta.Content else st.content
              toolCallsMap := delta.ToolCalls.foldl accumulateToolCall st.toolCallsMap } := by
        simp [recvStep, hc]
      rw [hstep] at ih2 ⊢
      simp only [List.map_cons]
      rw [accumulateFragments_onWire]
      exact ih2

/-- The method `Chat` of the model is `ChatRun` on streams whose fragments carry their
index: such a call never panics, and it returns and leaves what `Chat` says. -/
theorem ChatRun_onWire (transport : ChatTransport) (c : OpenaiClient) (prompt : String) :
    OpenaiClient.ChatRun (fun n req => (transport n req).map ChatStream.onWire) c prompt
      = (.returned (OpenaiClient.Chat transport c prompt).1,
          (OpenaiClient.Chat transport c prompt).2) := by
  unfold OpenaiClient.ChatRun OpenaiClient.Chat
  dsimp only
  cases ht : transport c.sent.length
      { Messages := if prompt ≠ "" then
          c.messages ++ [{ Role := ChatMessageRoleUser, Content := prompt, ToolCalls := [],
                           ToolCallID := "" }]
        else c.messages, Tools := c.tools } with
  | error err => rfl
  | ok stream =>
    obtain ⟨chunks, failure⟩ := stream
    simp only [Except.map]
    have hrun := recvRun_onWire chunks failure { content := "", toolCallsMap := [] }
    have hfail : ({ chunks := chunks, failure := failure } : ChatStream).onWire.failure = failure :=
      rfl
    rw [hfail, hrun]
    cases failure with
    | none => rfl
    | some err => rfl

/-- C21 (counterexample): a delta sequence that neither succeeds nor returns
an error. The second response carries a tool-call fragment without an index;
`Chat` panics at the dereference although the stream would end with
end-of-stream, nothing is returned, and the history holds the user message
only. -/
theorem Chat_panics_without_index :
    (OpenaiClient.ChatRun (fun _ _ => .ok unindexedStream) freshClient "hi").1 = .panicked
      ∧ (∀ result, (OpenaiClient.ChatRun (fun _ _ => .ok unindexedStream) freshClient "hi").1
          ≠ .returned result)
      ∧ unindexedStream.failure = none
      ∧ (OpenaiClient.ChatRun (fun _ _ => .ok unindexedStream) freshClient "hi").2.messages
        = [{ Role := "user", Content := "hi", ToolCalls := [], ToolCallID := "" }] := by
  refine ⟨by rfl, ?_, rfl, by rfl⟩
  intro result h
  have hp : (OpenaiClient.ChatRun (fun _ _ => .ok unindexedStream) freshClient "hi").1
      = .panicked := by rfl
  rw [hp] at h
  cases h

/-- C21 (as amended): once the stream is open, a call of `Chat` ends in exactly
one of three ways, decided by the delta sequence. When every tool-call fragment
`Chat` reads carries an index: on end-of-stream it succeeds, its content is the
text fragments joined in arrival order, and exactly one assistant message with
that content follows the history with the prompt; on a transport error it
returns that error, wrapped, with no response, and no assistant message is
appended. When a fragment has no index, `Chat` panics at the dereference,
whatever the end of the stream, and no assistant message is appended. -/
theorem Chat_stream_outcome (transport : WireTransport) (c : OpenaiClient) (prompt : String)
    (stream : WireStream) (hopen : ∀ req, transport c.sent.length req = .ok stream) :
    (stream.indexed = true → stream.failure = none →
        (OpenaiClient.ChatRun transport c prompt).1
          = .returned (.ok { Content := String.join (textFragments stream.chunks),
                             ToolCalls := [] })
        ∧ (OpenaiClient.ChatRun transport c prompt).2.messages
          = historyWithPrompt c prompt
            ++ [{ Role := ChatMessageRoleAssistant,
                  Content := String.join (textFragments stream.chunks),
                  ToolCalls := [], ToolCallID := "" }]
        ∧ assistantCount (OpenaiClient.ChatRun transport c prompt).2.messages
          = assistantCount c.messages + 1)
      ∧ (stream.indexed = true → ∀ err, stream.failure = some err →
        (OpenaiClient.ChatRun transport c prompt).1
          = .returned (.error ("接收流式响应失败: " ++ err))
        ∧ (OpenaiClient.ChatRun transport c prompt).2.messages = historyWithPrompt c prompt
        ∧ assistantCount (OpenaiClient.ChatRun transport c prompt).2.messages
          = assistantCount c.messages)
      ∧ (stream.indexed = false →
        (OpenaiClient.ChatRun transport c prompt).1 = .panicked
        ∧ (OpenaiClient.ChatRun transport c prompt).2.messages = historyWithPrompt c prompt
        ∧ assistantCount (OpenaiClient.ChatRun transport c prompt).2.messages
          = assistantCount c.messages) := by
  have hreq := hopen { Messages := historyWithPrompt c prompt, Tools := c.tools }
  unfold historyWithPrompt at hreq
  have hcount := assistantCount_append_user c.messages prompt
  refine ⟨?_, ?_, ?_⟩
  · intro hidx hnone
    obtain ⟨st1, hrun, hcontent⟩ :=
      (recvRun_indexed stream.chunks stream.failure { content := "", toolCallsMap := [] } hidx).1
        hnone
    have hjoin : st1.content = String.join (textFragments stream.chunks) := hcontent
    unfold OpenaiClient.ChatRun historyWithPrompt
    dsimp only
    rw [hreq]
    dsimp only
    rw [hrun]
    dsimp only
    rw [hjoin]
    refine ⟨rfl, rfl, ?_⟩
    unfold assistantCount at hcount ⊢
    rw [List.countP_append, hcount]
    simp [List.countP_cons, ChatMessageRoleAssistant]
  · intro hidx err hsome
    have hrun :=
      (recvRun_indexed stream.chunks stream.failure { content := "", toolCallsMap := [] } hidx).2
        err hsome
    unfold OpenaiClient.ChatRun historyWithPrompt
    dsimp only
    rw [hreq]
    dsimp only
    rw [hrun]
    exact ⟨rfl, rfl, hcount⟩
  · intro hidx
    have hrun := recvRun_unindexed stream.chunks stream.failure
      { content := "", toolCallsMap := [] } hidx
    unfold OpenaiClient.ChatRun historyWithPrompt
    dsimp only
    rw [hreq]
    dsimp only
    rw [hrun]
    exact ⟨rfl, rfl, hcount⟩

/-- C21 (witness): the prompt `hi` on a fresh client over the stream `hello`,
a response without choices, ` world` with a fragment of slot 0, end-of-stream. -/
theorem Chat_stream_outcome_witness :
    (∀ req, (fun _ _ => .ok helloWorldStream : WireTransport) freshClient.sent.length req
        = .ok helloWorldStream)
      ∧ helloWorldStream.indexed = true
      ∧ helloWorldStream.failure = none
      ∧ (OpenaiClient.ChatRun (fun _ _ => .ok helloWorldStream) freshClient "hi").1
          = .returned (.ok { Content := String.join (textFragments helloWorldStream.chunks),
                             ToolCalls := [] })
      ∧ (OpenaiClient.ChatRun (fun _ _ => .ok helloWorldStream) freshClient "hi").2.messages
          = historyWithPrompt freshClient "hi"
            ++ [{ Role := ChatMessageRoleAssistant,
                  Content := String.join (textFragments helloWorldStream.chunks),
                  ToolCalls := [], ToolCallID := "" }]
      ∧ assistantCount (OpenaiClient.ChatRun (fun _ _ => .ok helloWorldStream) freshClient "hi").2.messages
          = assistantCount freshClient.messages + 1 :=
  ⟨fun _ => rfl, by rfl, rfl,
    (Chat_stream_outcome (fun _ _ => .ok helloWorldStream) freshClient "hi" helloWorldStream
      (fun _ => rfl)).1 (by rfl) rfl⟩

/-- The three endings, evaluated: after end-of-stream the fragments are joined
and one assistant message follows the user message; after a transport error
the fragments received so far are dropped and only the user message is there;
and so it is after the panic on the fragment without an index. -/
theorem Chat_stream_example_run :
    (OpenaiClient.ChatRun (fun _ _ => .ok helloWorldStream) freshClient "hi").1
        = .returned (.ok { Content := "hello world", ToolCalls := [] })
      ∧ (OpenaiClient.ChatRun (fun _ _ => .ok helloWorldStream) freshClient "hi").2.messages.map
          (fun msg => (msg.Role, msg.Content)) = [("user", "hi"), ("assistant", "hello world")]
      ∧ (OpenaiClient.ChatRun (fun _ _ => .ok brokenStream) freshClient "hi").1
        = .returned (.error "接收流式响应失败: unexpected EOF")
      ∧ (OpenaiClient.ChatRun (fun _ _ => .ok brokenStream) freshClient "hi").2.messages.map
          (fun msg => (msg.Role, msg.Content)) = [("user", "hi")]
      ∧ (OpenaiClient.ChatRun (fun _ _ => .ok unindexedStream) freshClient "hi").2.messages.map
          (fun msg => (msg.Role, msg.Content)) = [("user", "hi")] := by
  refine ⟨by rfl, by decide, by rfl, by decide, by decide⟩

/-! ## GetMCPClient -/

theorem names_foldl_eq (entries : List (String × MCPClient)) (names : List String) :
    entries.foldl (fun names entry => names ++ [entry.1]) names
      = names ++ entries.map (fun entry => entry.1) := by
  induction entries generalizing names with
  | nil => simp
  | cons entry rest ih => rw [List.foldl_cons, ih]; simp

/-- With `n` providers registered, `GetMCPClient` returns `n` empty strings
followed by the `n` registered names. -/
theorem GetMCPClient_eq {σ F : Type} (a : Agent σ F) :
    a.GetMCPClient
      = List.replicate a.mcpClients.length "" ++ a.mcpClients.map (fun entry => entry.1) := by
  unfold Agent.GetMCPClient
  exact names_foldl_eq _ _

/-- C23 (code evaluated at the failing input): after one successful
`AddMCPClient("calc", ...)` on an agent without providers, one provider is
registered, yet `GetMCPClient` returns two entries, the first of which is the
empty string, though no provider was registered under the empty name. -/
theorem GetMCPClient_leading_empty_names :
    ((scriptedAgent [] []).AddMCPClient "calc" calcClient).1 = none
      ∧ ((scriptedAgent [] []).AddMCPClient "calc" calcClient).2.mcpClients.map
          (fun entry => entry.1) = ["calc"]
      ∧ ((scriptedAgent [] []).AddMCPClient "calc" calcClient).2.GetMCPClient = ["", "calc"]
      ∧ ((scriptedAgent [] []).AddMCPClient "calc" calcClient).2.GetMCPClient.length
        ≠ ((scriptedAgent [] []).AddMCPClient "calc" calcClient).2.mcpClients.length := by
  refine ⟨by rfl, by decide, by decide, by decide⟩

/-! ## The tool round, step by step -/

/-- What `executeToolCall` returns depends on the agent through its provider
registry only. -/
theorem executeToolCall_result_congr {σ F : Type} (unmarshal : String → Except String Arguments)
    (a b : Agent σ F) (toolCall : ToolCall) (h : b.mcpClients = a.mcpClients) :
    (b.executeToolCall unmarshal toolCall).1 = (a.executeToolCall unmarshal toolCall).1 := by
  unfold Agent.executeToolCall
  simp only [Agent.record, Agent.client?, h]
  cases SplitN2 toolCall.Name with
  | nil => rfl
  | cons c1 t1 =>
    cases t1 with
    | nil => rfl
    | cons c2 t2 =>
      cases t2 with
      | cons c3 t3 => rfl
      | nil =>
        dsimp only
        cases List.lookup c1 a.mcpClients with
        | none => rfl
        | some client =>
          dsimp only
          cases unmarshal toolCall.Arguments with
          | error err => rfl
          | ok arguments =>
            dsimp only
            cases client.CallTool c2 arguments <;> rfl

/-- The steps `executeToolCall` adds to the trace: its own entry, and nothing
else that is a step of the tool round. -/
theorem executeToolCall_steps {σ F : Type} (unmarshal : String → Except String Arguments)
    (a : Agent σ F) (toolCall : ToolCall) :
    ∃ extra : List Event,
      (a.executeToolCall unmarshal toolCall).2
          = { a with trace := a.trace ++ .executeToolCall toolCall :: extra }
        ∧ extra.filter isLoopStep = [] := by
  unfold Agent.executeToolCall
  simp only [Agent.record]
  split
  · split
    · exact ⟨[], by simp, rfl⟩
    · split
      · exact ⟨[], by simp, rfl⟩
      · rename_i clientName toolName _ _ _ _ _ arguments _
        split
        · exact ⟨[.callTool clientName toolName arguments], by simp, rfl⟩
        · exact ⟨[.callTool clientName toolName arguments], by simp, rfl⟩
  · exact ⟨[], by simp, rfl⟩

/-- One iteration of the loop: the call is executed, then its output is
appended under its id; the registry is untouched. -/
theorem toolCallStep_steps {σ F : Type} (cc : ChatClient σ)
    (unmarshal : String → Except String Arguments) (a : Agent σ F) (toolCall : ToolCall) :
    (a.toolCallStep cc unmarshal toolCall).chatClient
        = cc.AppendToolResult a.chatClient toolCall.ID (a.toolOutput unmarshal toolCall)
      ∧ (a.toolCallStep cc unmarshal toolCall).trace.filter isLoopStep
        = a.trace.filter isLoopStep
          ++ [.executeToolCall toolCall,
              .appendToolResult toolCall.ID (a.toolOutput unmarshal toolCall)]
      ∧ (a.toolCallStep cc unmarshal toolCall).mcpClients = a.mcpClients := by
  obtain ⟨extra, hstate, hextra⟩ := executeToolCall_steps unmarshal a toolCall
  unfold Agent.toolCallStep Agent.toolOutput
  cases hex : a.executeToolCall unmarshal toolCall with
  | mk res a1 =>
    rw [hex] at hstate
    simp only at hstate
    subst hstate
    refine ⟨rfl, ?_, rfl⟩
    simp [List.filter_append, List.filter_cons, hextra, isLoopStep]

/-- The loop over the tool calls of one response, step by step: the chat
client receives one `AppendToolResult` per call, in the order of the calls, and
the trace alternates execution and append. The outputs are those of the calls
on the agent the loop started from, since its registry does not change. -/
theorem toolCalls_foldl_steps {σ F : Type} (cc : ChatClient σ)
    (unmarshal : String → Except String Arguments) (a : Agent σ F) (calls : List ToolCall)
    (b : Agent σ F) (h : b.mcpClients = a.mcpClients) :
    (calls.foldl (Agent.toolCallStep cc unmarshal) b).chatClient
        = (calls.map (fun toolCall => (toolCall.ID, a.toolOutput unmarshal toolCall))).foldl
            (fun s p => cc.AppendToolResult s p.1 p.2) b.chatClient
      ∧ (calls.foldl (Agent.toolCallStep cc unmarshal) b).trace.filter isLoopStep
        = b.trace.filter isLoopStep
          ++ (calls.map (fun toolCall =>
                [Event.executeToolCall toolCall,
                 Event.appendToolResult toolCall.ID (a.toolOutput unmarshal toolCall)])).flatten := by
  induction calls generalizing b with
  | nil => simp
  | cons toolCall rest ih =>
    obtain ⟨h1, h2, h3⟩ := toolCallStep_steps cc unmarshal b toolCall
    obtain ⟨i1, i2⟩ := ih (b.toolCallStep cc unmarshal toolCall) (h3.trans h)
    have hout : b.toolOutput unmarshal toolCall = a.toolOutput unmarshal toolCall := by
      unfold Agent.toolOutput
      rw [executeToolCall_result_congr unmarshal a b toolCall h]
    simp only [List.foldl_cons, List.map_cons, List.flatten_cons]
    rw [i1, i2, h1, h2, hout]
    simp

/-- The messages of an `OpenaiClient` after a run of `AppendToolResult` calls:
one tool-role message per pair, in order, after the earlier history. -/
theorem AppendToolResult_foldl_messages (pairs : List (String × String)) (c : OpenaiClient) :
    (pairs.foldl (fun s p => OpenaiClient.AppendToolResult s p.1 p.2) c).messages
      = c.messages ++ pairs.map toolMessage := by
  induction pairs generalizing c with
  | nil => simp
  | cons p rest ih =>
    simp only [List.foldl_cons, List.map_cons]
    rw [ih]
    simp [OpenaiClient.AppendToolResult, toolMessage]

/-- The appended results read off a trace are those of its tool-round
steps. -/
theorem appendedResults_filter (events : List Event) :
    appendedResults (events.filter isLoopStep) = appendedResults events := by
  induction events with
  | nil => rfl
  | cons e rest ih =>
    cases e <;> simp [List.filter_cons, isLoopStep, appendedResults, ih]

/-- The appended results of an alternating run of execution and append. -/
theorem appendedResults_rounds (calls : List ToolCall) (out : ToolCall → String) :
    appendedResults ((calls.map (fun toolCall =>
        [Event.executeToolCall toolCall, Event.appendToolResult toolCall.ID (out toolCall)])).flatten)
      = calls.map (fun toolCall => (toolCall.ID, out toolCall)) := by
  induction calls with
  | nil => rfl
  | cons toolCall rest ih =>
    simp [appendedResults, ih]

/-- C22: when the first chat response of an attempt carries at least one tool
call, `processQueryWithTools` runs the calls one at a time in the emitted
order, each execution followed by the append of its result and before the next
execution; exactly one result per call is appended, the i-th keyed by the i-th
call's id; only then is the chat client called again, with the empty prompt, on
the history that holds these results, and that call decides the outcome. The
appended text is the text of the first content item of the call's result, the
failure text when the call fails, and "没有结果" when the result is nil or has
no content item. For `OpenaiClient` each append is one tool-role message at the
end of the history. -/
theorem processQueryWithTools_tool_round {σ F : Type} (cc : ChatClient σ)
    (unmarshal : String → Except String Arguments) (a : Agent σ F) (query : String)
    (tools : List Tool) (first : ChatResponse) (s1 : σ)
    (hchat : cc.Chat a.chatClient query = (.ok first, s1))
    (hcalls : first.ToolCalls ≠ []) :
    (a.processQueryWithTools cc unmarshal query tools).2.trace.filter isLoopStep
        = a.trace.filter isLoopStep ++ Event.chat query ::
            ((first.ToolCalls.map (fun toolCall =>
                [Event.executeToolCall toolCall,
                 Event.appendToolResult toolCall.ID (a.toolOutput unmarshal toolCall)])).flatten
              ++ [Event.chat ""])
      ∧ appendedResults (a.processQueryWithTools cc unmarshal query tools).2.trace
        = appendedResults a.trace
          ++ first.ToolCalls.map (fun toolCall => (toolCall.ID, a.toolOutput unmarshal toolCall))
      ∧ (appendedResults (a.processQueryWithTools cc unmarshal query tools).2.trace).length
        = (appendedResults a.trace).length + first.ToolCalls.length
      ∧ (a.processQueryWithTools cc unmarshal query tools).2.chatClient
        = (cc.Chat
            ((first.ToolCalls.map
                (fun toolCall => (toolCall.ID, a.toolOutput unmarshal toolCall))).foldl
              (fun s p => cc.AppendToolResult s p.1 p.2) s1) "").2
      ∧ (a.processQueryWithTools cc unmarshal query tools).1
        = (cc.Chat
            ((first.ToolCalls.map
                (fun toolCall => (toolCall.ID, a.toolOutput unmarshal toolCall))).foldl
              (fun s p => cc.AppendToolResult s p.1 p.2) s1) "").1.mapError
            (fun err => "获取工具调用最终回复失败：" ++ err)
      ∧ (∀ toolCall : ToolCall,
          (∀ err, (a.executeToolCall unmarshal toolCall).1 = .error err →
            a.toolOutput unmarshal toolCall = "调用工具失败：" ++ err)
          ∧ (∀ result item rest, (a.executeToolCall unmarshal toolCall).1 = .ok (some result) →
              result.Content = item :: rest → a.toolOutput unmarshal toolCall = item.Text)
          ∧ (∀ result, (a.executeToolCall unmarshal toolCall).1 = .ok (some result) →
              result.Content = [] → a.toolOutput unmarshal toolCall = "没有结果")
          ∧ ((a.executeToolCall unmarshal toolCall).1 = .ok none →
              a.toolOutput unmarshal toolCall = "没有结果"))
      ∧ (∀ (c : OpenaiClient) (pairs : List (String × String)),
          (pairs.foldl (fun s p => OpenaiClient.AppendToolResult s p.1 p.2) c).messages
            = c.messages ++ pairs.map toolMessage) := by
  have hlen : first.ToolCalls.length > 0 := List.length_pos.mpr hcalls
  obtain ⟨f1, f2⟩ := toolCalls_foldl_steps cc unmarshal a first.ToolCalls
    { a with chatClient := s1, trace := a.trace ++ [.chat query] } rfl
  have htrace : (a.processQueryWithTools cc unmarshal query tools).2.trace
      = (first.ToolCalls.foldl (Agent.toolCallStep cc unmarshal)
          { a with chatClient := s1, trace := a.trace ++ [.chat query] }).trace ++ [.chat ""] := by
    unfold Agent.processQueryWithTools
    rw [hchat]
    simp only [hlen, if_true]
    split <;> rfl
  have hres : appendedResults (a.processQueryWithTools cc unmarshal query tools).2.trace
      = appendedResults a.trace
        ++ first.ToolCalls.map
            (fun toolCall => (toolCall.ID, a.toolOutput unmarshal toolCall)) := by
    rw [← appendedResults_filter, htrace, List.filter_append, f2]
    simp only [List.filter_append, appendedResults_append, appendedResults_filter,
      appendedResults_rounds]
    simp [appendedResults, List.filter_cons, isLoopStep]
  refine ⟨?_, hres, ?_, ?_, ?_, ?_, fun c pairs => AppendToolResult_foldl_messages pairs c⟩
  · rw [htrace, List.filter_append, f2]
    simp [List.filter_append, List.filter_cons, isLoopStep]
  · rw [hres]
    simp
  · unfold Agent.processQueryWithTools
    rw [hchat]
    simp only [hlen, if_true]
    rw [← f1]
    split <;> rename_i h <;> rw [h]
  · unfold Agent.processQueryWithTools
    rw [hchat]
    simp only [hlen, if_true]
    rw [← f1]
    split <;> rename_i h <;> rw [h] <;> rfl
  · intro toolCall
    refine ⟨?_, ?_, ?_, ?_⟩
    · intro err h
      simp [Agent.toolOutput, h, feedbackResult, failureResult, resultText]
    · intro result item rest h hc
      simp [Agent.toolOutput, h, feedbackResult, resultText, hc]
    · intro result h hc
      simp [Agent.toolOutput, h, feedbackResult, resultText, hc]
    · intro h
      simp [Agent.toolOutput, h, feedbackResult, resultText]

/-- C22, at a concrete input: the scripted model asks for the calculator and
for a tool of an unregistered provider in one response. -/
theorem processQueryWithTools_tool_round_witness :
    scriptedChatClient.Chat (scriptedAgent calcProviders twoCallScript).chatClient "add 1 and 2"
        = (.ok { Content := "", ToolCalls :=
              [addCall "call_1", { ID := "call_2", Name := "nosuch.tool", Arguments := "\x7b\x7d" }] },
            { replies := [.ok { Content := "1 + 2 = 3", ToolCalls := [] }],
              history :=
                [{ Role := "user", Content := "add 1 and 2", ToolCalls := [], ToolCallID := "" },
                 { Role := "assistant", Content := "", ToolCalls :=
                    [addCall "call_1",
                     { ID := "call_2", Name := "nosuch.tool", Arguments := "\x7b\x7d" }],
                   ToolCallID := "" }] })
      ∧ [addCall "call_1", ({ ID := "call_2", Name := "nosuch.tool", Arguments := "\x7b\x7d" } : ToolCall)]
          ≠ []
      ∧ appendedResults ((scriptedAgent calcProviders twoCallScript).processQueryWithTools
            scriptedChatClient exampleUnmarshal "add 1 and 2" []).2.trace
        = appendedResults (scriptedAgent calcProviders twoCallScript).trace
          ++ [addCall "call_1",
              ({ ID := "call_2", Name := "nosuch.tool", Arguments := "\x7b\x7d" } : ToolCall)].map
            (fun toolCall =>
              (toolCall.ID,
                (scriptedAgent calcProviders twoCallScript).toolOutput exampleUnmarshal toolCall)) :=
  ⟨by rfl, by simp,
    (processQueryWithTools_tool_round scriptedChatClient exampleUnmarshal
      (scriptedAgent calcProviders twoCallScript) "add 1 and 2" []
      { Content := "", ToolCalls :=
          [addCall "call_1", { ID := "call_2", Name := "nosuch.tool", Arguments := "\x7b\x7d" }] }
      { replies := [.ok { Content := "1 + 2 = 3", ToolCalls := [] }],
        history :=
          [{ Role := "user", Content := "add 1 and 2", ToolCalls := [], ToolCallID := "" },
           { Role := "assistant", Content := "", ToolCalls :=
              [addCall "call_1", { ID := "call_2", Name := "nosuch.tool", Arguments := "\x7b\x7d" }],
             ToolCallID := "" }] }
      (by rfl) (by simp)).2.1⟩

/-- The run of the example above, evaluated: the two results are appended in
the order of the calls, the second being the failure text of the unknown
provider, and the second chat call sees both. -/
theorem tool_round_example_run :
    ((scriptedAgent calcProviders twoCallScript).processQueryWithTools
        scriptedChatClient exampleUnmarshal "add 1 and 2" []).1
        = .ok { Content := "1 + 2 = 3", ToolCalls := [] }
      ∧ appendedResults ((scriptedAgent calcProviders twoCallScript).processQueryWithTools
            scriptedChatClient exampleUnmarshal "add 1 and 2" []).2.trace
        = [("call_1", "3"), ("call_2", "调用工具失败：mcp client不存在：nosuch")]
      ∧ (((scriptedAgent calcProviders twoCallScript).processQueryWithTools
            scriptedChatClient exampleUnmarshal "add 1 and 2" []).2.chatClient.history.map
          (fun message => (message.Role, message.Content, message.ToolCallID)))
        = [("user", "add 1 and 2", ""), ("assistant", "", ""), ("tool", "3", "call_1"),
           ("tool", "调用工具失败：mcp client不存在：nosuch", "call_2"),
           ("assistant", "1 + 2 = 3", "")] := by
  refine ⟨by rfl, by rfl, by rfl⟩

/-! ## Failed attempts stay in the history -/

/-- The request `Chat` sends for a non-empty prompt already holds the user
message, whatever the stream does afterwards. -/
theorem Chat_sent_request (transport : ChatTransport) (c : OpenaiClient) (prompt : String)
    (hprompt : prompt ≠ "") :
    (OpenaiClient.Chat transport c prompt).2.sent
      = c.sent ++ [{ Messages := c.messages ++ [userMessage prompt], Tools := c.tools }] := by
  unfold OpenaiClient.Chat userMessage
  simp only [hprompt, ne_eq, not_false_eq_true, if_true]
  split
  · rfl
  · split <;> rfl

/-- A `Chat` with a non-empty prompt whose stream fails leaves the history
with the user message at its end. -/
theorem Chat_fails_messages (transport : ChatTransport) (c : OpenaiClient) (prompt : String)
    (hprompt : prompt ≠ "")
    (h : ∀ req, streamFails (transport c.sent.length req) = true) :
    (OpenaiClient.Chat transport c prompt).2.messages = c.messages ++ [userMessage prompt] := by
  have hf := h { Messages := c.messages ++ [userMessage prompt], Tools := c.tools }
  unfold OpenaiClient.Chat
  simp only [hprompt, ne_eq, not_false_eq_true, if_true]
  unfold userMessage at hf ⊢
  split
  · rfl
  · rename_i stream hstream
    rw [hstream] at hf
    split
    · rfl
    · rename_i hnone
      simp [streamFails, hnone] at hf

/-- A `Chat` with a non-empty prompt whose stream completes leaves the history
with the user message and the assistant message of the response at its end. -/
theorem Chat_completes_messages (transport : ChatTransport) (c : OpenaiClient) (prompt : String)
    (hprompt : prompt ≠ "")
    (h : ∀ req, streamFails (transport c.sent.length req) = false) :
    ∃ resp, (OpenaiClient.Chat transport c prompt).1 = .ok resp
      ∧ (OpenaiClient.Chat transport c prompt).2.messages
        = c.messages ++ [userMessage prompt] ++ [assistantMessage resp.Content] := by
  have hf := h { Messages := c.messages ++ [userMessage prompt], Tools := c.tools }
  unfold OpenaiClient.Chat
  simp only [hprompt, ne_eq, not_false_eq_true, if_true]
  unfold userMessage at hf ⊢
  split
  · rename_i err herr
    rw [herr] at hf
    simp [streamFails] at hf
  · rename_i stream hstream
    rw [hstream] at hf
    split
    · rename_i err hsome
      simp [streamFails, hsome] at hf
    · exact ⟨_, rfl, rfl⟩

/-- An attempt with a non-empty prompt whose stream fails: the attempt fails
and the history has grown by the user message only. -/
theorem attempt_fails_messages {F : Type} (transport : ChatTransport)
    (unmarshal : String → Except String Arguments) (a : Agent OpenaiClient F) (q : String)
    (tools : List Tool) (hq : q ≠ "")
    (h : ∀ req, streamFails (transport a.chatClient.sent.length req) = true) :
    ∃ e a1, a.processQueryWithTools (openaiChatClient transport) unmarshal q tools = (.error e, a1)
      ∧ a1.chatClient.sent.length = a.chatClient.sent.length + 1
      ∧ a1.chatClient.messages = a.chatClient.messages ++ [userMessage q] := by
  obtain ⟨⟨e, he⟩, hs, -⟩ := Chat_stream_fails transport a.chatClient q h
  have hm := Chat_fails_messages transport a.chatClient q hq h
  unfold Agent.processQueryWithTools
  rw [show (openaiChatClient transport).Chat = OpenaiClient.Chat transport from rfl]
  cases hchat : OpenaiClient.Chat transport a.chatClient q with
  | mk res s1 =>
    rw [hchat] at he hs hm
    simp only at he hs hm
    subst he
    exact ⟨_, _, rfl, hs, hm⟩

/-- An attempt with a non-empty prompt whose stream completes: the attempt
succeeds and the history has grown by the user message and the assistant
message of the response. -/
theorem attempt_completes_messages {F : Type} (transport : ChatTransport)
    (unmarshal : String → Except String Arguments) (a : Agent OpenaiClient F) (q : String)
    (tools : List Tool) (hq : q ≠ "")
    (h : ∀ req, streamFails (transport a.chatClient.sent.length req) = false) :
    ∃ resp a1, a.processQueryWithTools (openaiChatClient transport) unmarshal q tools = (.ok resp, a1)
      ∧ a1.chatClient.sent.length = a.chatClient.sent.length + 1
      ∧ a1.chatClient.messages
        = a.chatClient.messages ++ [userMessage q] ++ [assistantMessage resp.Content] := by
  obtain ⟨⟨resp, he, hnil⟩, hs, -⟩ := Chat_stream_completes transport a.chatClient q h
  obtain ⟨resp2, he2, hm⟩ := Chat_completes_messages transport a.chatClient q hq h
  unfold Agent.processQueryWithTools
  rw [show (openaiChatClient transport).Chat = OpenaiClient.Chat transport from rfl]
  cases hchat : OpenaiClient.Chat transport a.chatClient q with
  | mk res s1 =>
    rw [hchat] at he hs hm he2
    simp only at he hs hm he2
    subst he
    cases he2
    simp only [hnil, List.length_nil, gt_iff_lt, lt_self_iff_false, if_false]
    exact ⟨_, _, rfl, hs, hm⟩

/-- The retry loop over `OpenaiClient` when the next `j` round trips fail in
the stream and the one after them completes, with more than `j` iterations
left: it returns the response of attempt `j + 1`, and the history has grown by
`j + 1` copies of the user message followed by one assistant message. -/
theorem retryLoop_fails_then_completes {F : Type} (env : Collaborators OpenaiClient F)
    (transport : ChatTransport) (q : String) (tools : List Tool)
    (henv : env.chat = openaiChatClient transport) (hq : q ≠ "") (j : Nat) :
    ∀ (n : Nat) (a : Agent OpenaiClient F) (r0 : Option ChatResponse) (e0 : Option String),
      j < n →
      (∀ i, i < j → ∀ req, streamFails (transport (a.chatClient.sent.length + i) req) = true) →
      (∀ req, streamFails (transport (a.chatClient.sent.length + j) req) = false) →
      ∃ resp a1, Agent.retryLoop env q tools n a r0 e0 = ((some resp, none), a1)
        ∧ a1.chatClient.sent.length = a.chatClient.sent.length + (j + 1)
        ∧ a1.chatClient.messages
          = a.chatClient.messages ++ List.replicate (j + 1) (userMessage q)
            ++ [assistantMessage resp.Content] := by
  induction j with
  | zero =>
    intro n a r0 e0 hn _ hok
    obtain ⟨m, rfl⟩ : ∃ m, n = m + 1 := ⟨n - 1, by omega⟩
    obtain ⟨resp, a1, hp, hs, hm⟩ := attempt_completes_messages transport env.Unmarshal a q tools
      hq (by simpa using hok)
    rw [← henv] at hp
    exact ⟨resp, a1, retryLoop_step_ok env q tools m a a1 r0 e0 resp hp, hs, by simpa using hm⟩
  | succ j ih =>
    intro n a r0 e0 hn hfail hok
    obtain ⟨m, rfl⟩ : ∃ m, n = m + 1 := ⟨n - 1, by omega⟩
    obtain ⟨e, a1, hp, hs, hm⟩ := attempt_fails_messages transport env.Unmarshal a q tools
      hq (by simpa using hfail 0 (by omega))
    rw [← henv] at hp
    obtain ⟨resp, a2, hloop, hs2, hm2⟩ := ih m a1 none (some e) (by omega)
      (by
        intro i hi req
        rw [hs]
        have := hfail (i + 1) (by omega) req
        rwa [show a.chatClient.sent.length + 1 + i = a.chatClient.sent.length + (i + 1) by omega])
      (by
        intro req
        rw [hs]
        have := hok req
        rwa [show a.chatClient.sent.length + 1 + j = a.chatClient.sent.length + (j + 1) by omega])
    refine ⟨resp, a2, ?_, ?_, ?_⟩
    · rw [retryLoop_step_error env q tools m a a1 r0 e0 e hp, hloop]
    · rw [hs2, hs]; omega
    · rw [hm2, hm]
      simp [List.replicate_succ]

/-- A prompt built for a non-blank query is not empty. -/
theorem buildEnhancedQuery_ne_empty (query : String) (relevantDocs : List String)
    (hquery : TrimSpace query ≠ "") : buildEnhancedQuery query relevantDocs ≠ "" := by
  have hne : query ≠ "" := by
    intro h
    subst h
    exact hquery (by decide)
  unfold buildEnhancedQuery
  split
  · exact hne
  · intro h
    have hlen := congrArg String.length h
    simp only [String.length_append] at hlen
    have h8 : ("请回答以下问题：" : String).length = 8 := by decide
    rw [h8] at hlen
    have h0 : ("" : String).length = 0 := rfl
    omega

/-- Counting the prompt's user messages in a history that grew by copies of
that message and one assistant message. -/
theorem promptCount_grown (prompt content : String) (messages : List ChatCompletionMessage)
    (k : Nat) :
    promptCount prompt (messages ++ List.replicate k (userMessage prompt)
        ++ [assistantMessage content])
      = promptCount prompt messages + k := by
  unfold promptCount
  rw [List.countP_append, List.countP_append, List.countP_replicate]
  simp [userMessage, assistantMessage, ChatMessageRoleUser, ChatMessageRoleAssistant,
    List.countP_cons]

/-- C24: a failed chat attempt is not rolled back. `OpenaiClient.Chat` with a
non-empty prompt puts the user message into the request it sends, and when the
stream fails the message stays at the end of the history. So a Query over
`OpenaiClient` whose first `j` chat round trips fail in the stream and whose
next one completes, with a retry bound above `j`, returns the response and
leaves the history grown by exactly `j + 1` user-role messages carrying the
prompt built for the query, followed by the one assistant message; the number
of user messages with that prompt is `j + 1` more than before. -/
theorem Query_failed_attempts_stay_in_history {F : Type} (env : Collaborators OpenaiClient F)
    (transport : ChatTransport) (a : Agent OpenaiClient F) (query : String) (j : Nat)
    (henv : env.chat = openaiChatClient transport)
    (hquery : TrimSpace query ≠ "")
    (hretries : (j : Int) < a.maxRetries)
    (hfail : ∀ i, i < j →
      ∀ req, streamFails (transport (a.chatClient.sent.length + i) req) = true)
    (hok : ∀ req, streamFails (transport (a.chatClient.sent.length + j) req) = false) :
    (∀ (c : OpenaiClient) (prompt : String), prompt ≠ "" →
        (OpenaiClient.Chat transport c prompt).2.sent
          = c.sent ++ [{ Messages := c.messages ++ [userMessage prompt], Tools := c.tools }]
        ∧ ((∀ req, streamFails (transport c.sent.length req) = true) →
            (∃ e, (OpenaiClient.Chat transport c prompt).1 = .error e)
            ∧ (OpenaiClient.Chat transport c prompt).2.messages
              = c.messages ++ [userMessage prompt]))
      ∧ a.enhancedQueryOf env query ≠ ""
      ∧ ∃ resp, (a.Query env query).1 = (some resp, none)
          ∧ (a.Query env query).2.chatClient.messages
            = a.chatClient.messages
              ++ List.replicate (j + 1) (userMessage (a.enhancedQueryOf env query))
              ++ [assistantMessage resp.Content]
          ∧ promptCount (a.enhancedQueryOf env query) (a.Query env query).2.chatClient.messages
            = promptCount (a.enhancedQueryOf env query) a.chatClient.messages + (j + 1)
          ∧ (a.Query env query).2.chatClient.sent.length = a.chatClient.sent.length + (j + 1) := by
  have hq : a.enhancedQueryOf env query ≠ "" := buildEnhancedQuery_ne_empty query _ hquery
  refine ⟨?_, hq, ?_⟩
  · intro c prompt hprompt
    refine ⟨Chat_sent_request transport c prompt hprompt, ?_⟩
    intro h
    exact ⟨(Chat_stream_fails transport c prompt h).1,
      Chat_fails_messages transport c prompt hprompt h⟩
  · obtain ⟨r1, hr1⟩ := retrieveRelevantDocuments_state env a query
    have hc0 : (a.retrieveRelevantDocuments env query).2.chatClient = a.chatClient := by
      rw [hr1]
    have hn : (a.retrieveRelevantDocuments env query).2.maxRetries = a.maxRetries := by
      rw [hr1]
    obtain ⟨resp, a1, hloop, hs, hm⟩ := retryLoop_fails_then_completes env transport
      (a.enhancedQueryOf env query) (a.retrieveRelevantDocuments env query).2.getAllTools
      henv hq j (a.retrieveRelevantDocuments env query).2.maxRetries.toNat
      (a.retrieveRelevantDocuments env query).2 none none
      (by rw [hn]; omega) (by rw [hc0]; exact hfail) (by rw [hc0]; exact hok)
    have hQ : a.Query env query = ((some resp, none), a1) := by
      unfold Agent.Query
      rw [if_neg hquery]
      have hloop2 := hloop
      unfold Agent.enhancedQueryOf at hloop2
      simp only
      rw [hloop2]
    rw [hc0] at hs hm
    refine ⟨resp, by rw [hQ], ?_, ?_, ?_⟩
    · rw [hQ]; exact hm
    · rw [hQ]
      show promptCount _ a1.chatClient.messages = _
      rw [hm, promptCount_grown]
    · rw [hQ]; exact hs

/-- C24 (witness): the agent of `main` over a transport that refuses the first
request, breaks the second stream and completes the third (`j = 2`). -/
theorem Query_failed_attempts_stay_in_history_witness :
    (openaiCollaborators flakyTransport).chat = openaiChatClient flakyTransport
      ∧ TrimSpace "hi" ≠ ""
      ∧ ((2 : Nat) : Int) < mainAgent.maxRetries
      ∧ (∀ i, i < 2 →
          ∀ req, streamFails (flakyTransport (mainAgent.chatClient.sent.length + i) req) = true)
      ∧ (∀ req, streamFails (flakyTransport (mainAgent.chatClient.sent.length + 2) req) = false)
      ∧ ∃ resp, (mainAgent.Query (openaiCollaborators flakyTransport) "hi").1 = (some resp, none)
          ∧ (mainAgent.Query (openaiCollaborators flakyTransport) "hi").2.chatClient.messages
            = mainAgent.chatClient.messages
              ++ List.replicate (2 + 1)
                  (userMessage (mainAgent.enhancedQueryOf (openaiCollaborators flakyTransport) "hi"))
              ++ [assistantMessage resp.Content]
          ∧ promptCount (mainAgent.enhancedQueryOf (openaiCollaborators flakyTransport) "hi")
              (mainAgent.Query (openaiCollaborators flakyTransport) "hi").2.chatClient.messages
            = promptCount (mainAgent.enhancedQueryOf (openaiCollaborators flakyTransport) "hi")
                mainAgent.chatClient.messages + (2 + 1)
          ∧ (mainAgent.Query (openaiCollaborators flakyTransport) "hi").2.chatClient.sent.length
            = mainAgent.chatClient.sent.length + (2 + 1) :=
  ⟨rfl, by decide, by decide,
    fun i hi _ => by
      have hcases : i = 0 ∨ i = 1 := by omega
      rcases hcases with h | h <;> subst h <;> rfl,
    fun _ => rfl,
    (Query_failed_attempts_stay_in_history (openaiCollaborators flakyTransport) flakyTransport
      mainAgent "hi" 2 rfl (by decide) (by decide)
      (fun i hi _ => by
        have hcases : i = 0 ∨ i = 1 := by omega
        rcases hcases with h | h <;> subst h <;> rfl)
      (fun _ => rfl)).2.2⟩

/-- The run of the example above, evaluated: three user messages `hi`, then the
assistant message of the third attempt. -/
theorem Query_retried_example_run :
    (mainAgent.Query (openaiCollaborators flakyTransport) "hi").1
        = (some { Content := "hello", ToolCalls := [] }, none)
      ∧ ((mainAgent.Query (openaiCollaborators flakyTransport) "hi").2.chatClient.messages.map
          (fun message => (message.Role, message.Content)))
        = [("user", "hi"), ("user", "hi"), ("user", "hi"), ("assistant", "hello")] := by
  refine ⟨by rfl, by rfl⟩

/-! ## A failing tool call is fed back as text -/

/-- The cases in which `executeToolCall` fails, with the error of each: a
name that is not `provider.tool`, a provider that is not registered, arguments
that do not parse, and a failing provider call. -/
theorem executeToolCall_error_iff {σ F : Type} (unmarshal : String → Except String Arguments)
    (a : Agent σ F) (toolCall : ToolCall) (err : String) :
    (a.executeToolCall unmarshal toolCall).1 = .error err ↔
      ((∀ clientName toolName, SplitN2 toolCall.Name ≠ [clientName, toolName])
          ∧ err = "工具名称格式错误：" ++ toolCall.Name)
        ∨ (∃ clientName toolName, SplitN2 toolCall.Name = [clientName, toolName]
            ∧ a.client? clientName = none ∧ err = "mcp client不存在：" ++ clientName)
        ∨ (∃ clientName toolName client e, SplitN2 toolCall.Name = [clientName, toolName]
            ∧ a.client? clientName = some client ∧ unmarshal toolCall.Arguments = .error e
            ∧ err = "解析工具参数失败：" ++ e)
        ∨ (∃ clientName toolName client arguments e,
            SplitN2 toolCall.Name = [clientName, toolName]
            ∧ a.client? clientName = some client ∧ unmarshal toolCall.Arguments = .ok arguments
            ∧ client.CallTool toolName arguments = .error e
            ∧ err = "执行工具" ++ toolCall.Name ++ "失败：" ++ e) := by
  unfold Agent.executeToolCall
  simp only [Agent.record]
  cases hsplit : SplitN2 toolCall.Name with
  | nil =>
    constructor
    · intro h
      cases h
      exact Or.inl ⟨fun _ _ hs => (by cases hs), rfl⟩
    · rintro (⟨-, rfl⟩ | ⟨_, _, hs, -⟩ | ⟨_, _, _, _, hs, -⟩ | ⟨_, _, _, _, _, hs, -⟩)
      · rfl
      · cases hs
      · cases hs
      · cases hs
  | cons c1 t1 =>
    cases t1 with
    | nil =>
      constructor
      · intro h
        cases h
        exact Or.inl ⟨fun _ _ hs => (by cases hs), rfl⟩
      · rintro (⟨-, rfl⟩ | ⟨_, _, hs, -⟩ | ⟨_, _, _, _, hs, -⟩ | ⟨_, _, _, _, _, hs, -⟩)
        · rfl
        · cases hs
        · cases hs
        · cases hs
    | cons c2 t2 =>
      cases t2 with
      | cons c3 t3 =>
        constructor
        · intro h
          cases h
          exact Or.inl ⟨fun _ _ hs => (by cases hs), rfl⟩
        · rintro (⟨-, rfl⟩ | ⟨_, _, hs, -⟩ | ⟨_, _, _, _, hs, -⟩ | ⟨_, _, _, _, _, hs, -⟩)
          · rfl
          · cases hs
          · cases hs
          · cases hs
      | nil =>
        dsimp only
        cases hclient : a.client? c1 with
        | none =>
          constructor
          · intro h
            cases h
            exact Or.inr (Or.inl ⟨c1, c2, rfl, hclient, rfl⟩)
          · rintro (⟨hne, -⟩ | ⟨_, _, hs, -, rfl⟩ | ⟨_, _, _, _, hs, hc, -⟩
              | ⟨_, _, _, _, _, hs, hc, -⟩)
            · exact absurd rfl (hne c1 c2)
            · cases hs
              rfl
            · cases hs
              rw [hclient] at hc
              cases hc
            · cases hs
              rw [hclient] at hc
              cases hc
        | some client =>
          dsimp only
          cases hargs : unmarshal toolCall.Arguments with
          | error e =>
            constructor
            · intro h
              cases h
              exact Or.inr (Or.inr (Or.inl ⟨c1, c2, client, e, rfl, hclient, rfl, rfl⟩))
            · rintro (⟨hne, -⟩ | ⟨_, _, hs, hc, -⟩ | ⟨_, _, _, _, hs, -, he, rfl⟩
                | ⟨_, _, _, _, _, hs, -, he, -⟩)
              · exact absurd rfl (hne c1 c2)
              · cases hs
                rw [hclient] at hc
                cases hc
              · cases he
                rfl
              · cases he
          | ok arguments =>
            dsimp only
            cases hcall : client.CallTool c2 arguments with
            | error e =>
              constructor
              · intro h
                cases h
                exact Or.inr (Or.inr (Or.inr
                  ⟨c1, c2, client, arguments, e, rfl, hclient, rfl, hcall, rfl⟩))
              · rintro (⟨hne, -⟩ | ⟨_, _, hs, hc, -⟩ | ⟨_, _, _, _, -, -, he, -⟩
                  | ⟨_, _, _, _, _, hs, hc, he, hct, rfl⟩)
                · exact absurd rfl (hne c1 c2)
                · cases hs
                  rw [hclient] at hc
                  cases hc
                · cases he
                · cases hs
                  rw [hclient] at hc
                  cases hc
                  cases he
                  rw [hcall] at hct
                  cases hct
                  rfl
            | ok result =>
              constructor
              · intro h
                cases h
              · rintro (⟨hne, -⟩ | ⟨_, _, hs, hc, -⟩ | ⟨_, _, _, _, -, -, he, -⟩
                  | ⟨_, _, _, _, _, hs, hc, he, hct, -⟩)
                · exact absurd rfl (hne c1 c2)
                · cases hs
                  rw [hclient] at hc
                  cases hc
                · cases he
                · cases hs
                  rw [hclient] at hc
                  cases hc
                  cases he
                  rw [hcall] at hct
                  cases hct

/-- An attempt whose first response carries tool calls: the results appended
are those of the calls, in order, and the attempt returns what the chat client
answers to the empty prompt after them. -/
theorem processQueryWithTools_round {σ F : Type} (cc : ChatClient σ)
    (unmarshal : String → Except String Arguments) (a : Agent σ F) (query : String)
    (tools : List Tool) (first : ChatResponse) (s1 : σ)
    (hchat : cc.Chat a.chatClient query = (.ok first, s1))
    (hcalls : first.ToolCalls ≠ []) :
    appendedResults (a.processQueryWithTools cc unmarshal query tools).2.trace
        = appendedResults a.trace
          ++ first.ToolCalls.map (fun toolCall => (toolCall.ID, a.toolOutput unmarshal toolCall))
      ∧ (a.processQueryWithTools cc unmarshal query tools).1
        = (cc.Chat
            ((first.ToolCalls.map
                (fun toolCall => (toolCall.ID, a.toolOutput unmarshal toolCall))).foldl
              (fun s p => cc.AppendToolResult s p.1 p.2) s1) "").1.mapError
            (fun e => "获取工具调用最终回复失败：" ++ e) := by
  have hlen : first.ToolCalls.length > 0 := List.length_pos.mpr hcalls
  obtain ⟨f1, f2⟩ := toolCalls_foldl_steps cc unmarshal a first.ToolCalls
    { a with chatClient := s1, trace := a.trace ++ [.chat query] } rfl
  have htrace : (a.processQueryWithTools cc unmarshal query tools).2.trace
      = (first.ToolCalls.foldl (Agent.toolCallStep cc unmarshal)
          { a with chatClient := s1, trace := a.trace ++ [.chat query] }).trace ++ [.chat ""] := by
    unfold Agent.processQueryWithTools
    rw [hchat]
    simp only [hlen, if_true]
    split <;> rfl
  constructor
  · rw [← appendedResults_filter, htrace, List.filter_append, f2]
    simp only [List.filter_append, appendedResults_append, appendedResults_filter,
      appendedResults_rounds]
    simp [appendedResults, List.filter_cons, isLoopStep]
  · unfold Agent.processQueryWithTools
    rw [hchat]
    simp only [hlen, if_true]
    rw [← f1]
    split <;> rename_i h <;> rw [h] <;> rfl

/-- C4 (as amended): a tool call whose execution fails, for any of the four
reasons `executeToolCall` has, never makes the attempt fail by itself. The
result built for it has the single text item "调用工具失败：" followed by the
error, and its `IsError` is false; that text is appended to the history under
the call's id; and the attempt returns what the chat client answers to the
empty prompt after the appended results. No error flag is fed back at all: the
appended text does not depend on `IsError`, also for a provider's own result. -/
theorem failed_tool_call_fed_back_as_text {σ F : Type} (cc : ChatClient σ)
    (unmarshal : String → Except String Arguments) (a : Agent σ F) (query : String)
    (tools : List Tool) (first : ChatResponse) (s1 : σ) (toolCall : ToolCall) (err : String)
    (hchat : cc.Chat a.chatClient query = (.ok first, s1))
    (hcall : toolCall ∈ first.ToolCalls)
    (hfail : (a.executeToolCall unmarshal toolCall).1 = .error err) :
    feedbackResult (a.executeToolCall unmarshal toolCall).1
        = some { Content := [{ Type_ := "text", Text := "调用工具失败：" ++ err }],
                 IsError := false }
      ∧ (toolCall.ID, "调用工具失败：" ++ err)
          ∈ appendedResults (a.processQueryWithTools cc unmarshal query tools).2.trace
      ∧ (a.processQueryWithTools cc unmarshal query tools).1
        = (cc.Chat
            ((first.ToolCalls.map
                (fun call => (call.ID, a.toolOutput unmarshal call))).foldl
              (fun s p => cc.AppendToolResult s p.1 p.2) s1) "").1.mapError
            (fun e => "获取工具调用最终回复失败：" ++ e)
      ∧ (∀ response,
          (cc.Chat
            ((first.ToolCalls.map
                (fun call => (call.ID, a.toolOutput unmarshal call))).foldl
              (fun s p => cc.AppendToolResult s p.1 p.2) s1) "").1 = .ok response →
          (a.processQueryWithTools cc unmarshal query tools).1 = .ok response)
      ∧ (∀ (result : MCPToolResult) (flag : Bool),
          resultText (some { result with IsError := flag }) = resultText (some result))
      ∧ (((∀ clientName toolName, SplitN2 toolCall.Name ≠ [clientName, toolName])
            ∧ err = "工具名称格式错误：" ++ toolCall.Name)
          ∨ (∃ clientName toolName, SplitN2 toolCall.Name = [clientName, toolName]
              ∧ a.client? clientName = none ∧ err = "mcp client不存在：" ++ clientName)
          ∨ (∃ clientName toolName client e, SplitN2 toolCall.Name = [clientName, toolName]
              ∧ a.client? clientName = some client ∧ unmarshal toolCall.Arguments = .error e
              ∧ err = "解析工具参数失败：" ++ e)
          ∨ (∃ clientName toolName client arguments e,
              SplitN2 toolCall.Name = [clientName, toolName]
              ∧ a.client? clientName = some client
              ∧ unmarshal toolCall.Arguments = .ok arguments
              ∧ client.CallTool toolName arguments = .error e
              ∧ err = "执行工具" ++ toolCall.Name ++ "失败：" ++ e)) := by
  have hcalls : first.ToolCalls ≠ [] := List.ne_nil_of_mem hcall
  obtain ⟨happended, hresult⟩ :=
    processQueryWithTools_round cc unmarshal a query tools first s1 hchat hcalls
  have hout : a.toolOutput unmarshal toolCall = "调用工具失败：" ++ err := by
    simp [Agent.toolOutput, hfail, feedbackResult, failureResult, resultText]
  refine ⟨by rw [hfail]; rfl, ?_, hresult, ?_, fun _ _ => rfl,
    (executeToolCall_error_iff unmarshal a toolCall err).mp hfail⟩
  · rw [happended]
    refine List.mem_append_right _ (List.mem_map.mpr ⟨toolCall, hcall, ?_⟩)
    rw [hout]
  · intro response hok
    rw [hresult, hok]
    rfl

/-- C4 (witness): the model asks for a tool of the unregistered provider
`nosuch`; the failure text is appended under `call_1`. -/
theorem failed_tool_call_fed_back_as_text_witness :
    scriptedChatClient.Chat (scriptedAgent calcProviders unknownProviderScript).chatClient
        "use the tool"
        = (.ok { Content := "", ToolCalls :=
              [{ ID := "call_1", Name := "nosuch.tool", Arguments := "\x7b\x7d" }] },
            { replies := [.ok { Content := "no such tool", ToolCalls := [] }],
              history :=
                [{ Role := "user", Content := "use the tool", ToolCalls := [], ToolCallID := "" },
                 { Role := "assistant", Content := "", ToolCalls :=
                    [{ ID := "call_1", Name := "nosuch.tool", Arguments := "\x7b\x7d" }],
                   ToolCallID := "" }] })
      ∧ ((scriptedAgent calcProviders unknownProviderScript).executeToolCall exampleUnmarshal
          { ID := "call_1", Name := "nosuch.tool", Arguments := "\x7b\x7d" }).1
        = .error "mcp client不存在：nosuch"
      ∧ ("call_1", "调用工具失败：" ++ "mcp client不存在：nosuch")
          ∈ appendedResults ((scriptedAgent calcProviders unknownProviderScript).processQueryWithTools
              scriptedChatClient exampleUnmarshal "use the tool" []).2.trace :=
  ⟨by rfl, by rfl,
    (failed_tool_call_fed_back_as_text scriptedChatClient exampleUnmarshal
      (scriptedAgent calcProviders unknownProviderScript) "use the tool" []
      { Content := "", ToolCalls :=
          [{ ID := "call_1", Name := "nosuch.tool", Arguments := "\x7b\x7d" }] }
      { replies := [.ok { Content := "no such tool", ToolCalls := [] }],
        history :=
          [{ Role := "user", Content := "use the tool", ToolCalls := [], ToolCallID := "" },
           { Role := "assistant", Content := "", ToolCalls :=
              [{ ID := "call_1", Name := "nosuch.tool", Arguments := "\x7b\x7d" }],
             ToolCallID := "" }] }
      { ID := "call_1", Name := "nosuch.tool", Arguments := "\x7b\x7d" }
      "mcp client不存在：nosuch" (by rfl) (by simp) (by rfl)).2.1⟩

end LlmMcpRag
